import Mathlib

/-!
Verification development for the PDDL-to-diagram pipeline of this repository.

The first part embeds `src/packages/drawnix/src/utils/pddl-to-drawnix.ts`
(tokenizer, S-expression builder, serializer, typed-block renderer).
The second part embeds the graph-layout compiler
`src/apps/web/src/utils/pddl-to-graph.ts` (the revision that contains
`getUniquePredicates`, i.e. the second document in that file) together with
the data model of `pddl_types`.

JavaScript numbers are modelled as exact rationals (`ℚ`); the only
non-exact numeric primitive the layout code uses, `Math.sqrt` inside
`getNodeBorderPointTowards`, is modelled by the deterministic rational
approximation `ratSqrt` below.  No claim in this development depends on the
numeric value of a square root, only on determinism and on fields that are
unaffected by it.
-/

/-- Character class standing in for the JavaScript regular expression `\\s`
(the inputs of interest are ASCII). -/
def isJsSpace (c : Char) : Bool :=
  c == ' ' || c == '\t' || c == '\n' || c == '\r' || c == '\x0b' || c == '\x0c'

/-- Model of `String.prototype.trim`: strip leading and trailing
whitespace. -/
def jsTrim (s : String) : String :=
  ⟨((s.data.dropWhile isJsSpace).reverse.dropWhile isJsSpace).reverse⟩

/-- Model of `s.startsWith(c)` for a single-character prefix. -/
def strHeadIs (s : String) (c : Char) : Bool :=
  match s.data with
  | c' :: _ => c' == c
  | [] => false

/-- Model of `s.slice(n)`: drop the first `n` characters. -/
def strDrop (s : String) (n : Nat) : String := ⟨s.data.drop n⟩

namespace Drawnix
/-- Embeds the `pushCurrent` closure of `tokenize`: push the trimmed pending
atom when it is non-blank.  (`String.trim` plays the role of
`String.prototype.trim`; the pending atom never contains whitespace, so the
two agree here.) -/
def pushCurrent (tokens : List String) (current : String) : List String :=
  if jsTrim current ≠ "" then tokens ++ [jsTrim current] else tokens

/-- Embeds the character loop of `tokenize` (pddl-to-drawnix.ts, lines
48-72): parentheses are single-character tokens, whitespace flushes the
pending atom, any other character extends it. -/
def tokenizeGo : List Char → List String → String → List String
  | [], tokens, current => pushCurrent tokens current
  | c :: rest, tokens, current =>
    if c == '(' || c == ')' then
      tokenizeGo rest (pushCurrent tokens current ++ [String.singleton c]) ""
    else if isJsSpace c then
      tokenizeGo rest (pushCurrent tokens current) ""
    else
      tokenizeGo rest tokens (current.push c)

/-- Embeds `tokenize`. -/
def tokenize (definition : String) : List String :=
  tokenizeGo definition.data [] ""

/-- S-expression nodes: atoms or ordered lists (`SExpr` of
pddl-to-drawnix.ts). -/
inductive SExpr where
  | atom (s : String)
  | list (items : List SExpr)

mutual

/-- Embeds `formatSExpr`: an atom prints as itself, a list prints as its
members separated by single spaces inside parentheses. -/
def formatSExpr : SExpr → String
  | .atom s => s
  | .list items => "(" ++ formatSExprList items ++ ")"

/-- Embeds `expr.map(formatSExpr).join(' ')`. -/
def formatSExprList : List SExpr → String
  | [] => ""
  | [x] => formatSExpr x
  | x :: y :: rest => formatSExpr x ++ " " ++ formatSExprList (y :: rest)

end

/-- Failure modes of `parseTokensToSExpr`: the "Unexpected closing
parenthesis" throw and the "Unbalanced parentheses" throw. -/
inductive BuildError where
  | unexpectedClose
  | unbalanced
deriving DecidableEq

/-- Embeds the stack loop of `parseTokensToSExpr` (pddl-to-drawnix.ts,
lines 74-97).  The JavaScript stack `[l₀, …, lₙ]` with current list `lₙ` is
represented as the pair `(top, rest)` where `top` is the current list in
reverse order and `rest` are the enclosing partially-built lists (each also
reversed); `rest = []` corresponds to `stack.length === 1`. -/
def parseGo : List String → List SExpr → List (List SExpr) →
    Except BuildError (List SExpr)
  | [], top, rest =>
    match rest with
    | [] => .ok top.reverse
    | _ :: _ => .error .unbalanced
  | t :: ts, top, rest =>
    if t = "(" then
      parseGo ts [] (top :: rest)
    else if t = ")" then
      match rest with
      | [] => .error .unexpectedClose
      | parent :: tail => parseGo ts (SExpr.list top.reverse :: parent) tail
    else
      parseGo ts (SExpr.atom t :: top) rest

/-- Embeds `parseTokensToSExpr`: returns the implicit top-level list, or the
error the source throws. -/
def parseTokensToSExpr (tokens : List String) : Except BuildError (List SExpr) :=
  parseGo tokens [] []

/-- Number of `"("` tokens in a token sequence. -/
def openCount (ts : List String) : Nat := ts.countP (fun t => t = "(")

/-- Number of `")"` tokens in a token sequence. -/
def closeCount (ts : List String) : Nat := ts.countP (fun t => t = ")")

/-- Embeds the `flushBuffer` closure of `appendTypedBlockSection`: when the
buffer is non-empty, emit its entries joined by single spaces as one section
child. -/
def typedFlush (children buffer : List String) : List String × List String :=
  if buffer ≠ [] then (children ++ [String.intercalate " " buffer], []) else (children, buffer)

/-- Embeds the `entries.forEach` body of `appendTypedBlockSection`
(pddl-to-drawnix.ts, lines 182-197), acting on the rendered entry texts. -/
def typedBlockGo : List String → List String → List String → List String
  | [], children, buffer => (typedFlush children buffer).1
  | r :: rest, children, buffer =>
    if r = "-" then
      typedBlockGo rest children (buffer ++ ["-"])
    else if strHeadIs r '-' ∧ buffer ≠ [] ∧ buffer.getLast? = some "-" then
      let buffer' := buffer.dropLast ++ ["-", strDrop r 1]
      let flushed := typedFlush children buffer'
      typedBlockGo rest flushed.1 flushed.2
    else if strHeadIs r '-' then
      let flushed := typedFlush children buffer
      let flushed' := typedFlush flushed.1 [strDrop r 1]
      typedBlockGo rest flushed'.1 flushed'.2
    else
      typedBlockGo rest children (buffer ++ [r])

/-- Texts of the children added below the section node by
`appendTypedBlockSection` for a given entry list. -/
def appendTypedBlockChildren (entries : List SExpr) : List String :=
  if entries.isEmpty then ["(empty)"]
  else typedBlockGo (entries.map formatSExpr) [] []

end Drawnix

namespace Graph

/-- Primitive JavaScript values appearing in the optional `value` field of
`PddlCompositeExpression` (`value?: string | number | boolean | null`).
JavaScript numbers carried by the structured data are modelled as integers. -/
inductive JsPrim where
  | str (s : String)
  | num (n : Int)
  | bool (b : Bool)
  | null
deriving DecidableEq

mutual

/-- Runtime shape of `PddlExpression` (pddl_types): the tagged union of
predicate, function, `not`, numeric, number-literal and composite nodes.
Each constructor carries exactly the fields its TypeScript interface
declares; `Option` marks optional fields (absent field = `none`). -/
inductive PddlExpr where
  | pred (name : String) (args : List PddlArg)
  | func (name : String) (args : List PddlArg)
  | notE (argument : PddlExpr)
  | numeric (op : String) (args : List PddlArg)
  | numLit (value : Int)
  | composite (ty : String) (name : Option String) (argsF : Option (List PddlArg))
      (argF : Option PddlExpr) (childrenF : Option (List PddlExpr)) (valueF : Option JsPrim)

/-- Runtime shape of `PddlExpressionArgument`: an expression or a typed
parameter (`PddlNumberLiteral` is itself part of `PddlExpression`). -/
inductive PddlArg where
  | expr (e : PddlExpr)
  | param (name : String) (ty : Option String)

end

/-- Value of the `type` field of an expression (`expr.type`). -/
def typeStr : PddlExpr → String
  | .pred _ _ => "predicate"
  | .func _ _ => "function"
  | .notE _ => "not"
  | .numeric op _ => op
  | .numLit _ => "number"
  | .composite ty _ _ _ _ _ => ty

/-- Value of the `name` field of an expression when present (`'name' in
expr` together with `expr.name`). -/
def jsNameOpt : PddlExpr → Option String
  | .pred n _ => some n
  | .func n _ => some n
  | .composite _ nm _ _ _ _ => nm
  | _ => none

/-- Reading `expr.name` where the source interpolates or stores it without
a presence check; a missing field reads as JavaScript `undefined`, which the
model identifies with the text "undefined" (the rendering the template
literals of the source give it).  Only degenerate `composite` nodes lack a
name, so this identification is invisible on the declared data shapes. -/
def jsNameI (e : PddlExpr) : String := (jsNameOpt e).getD "undefined"

/-- Value of `expr.arguments || []` (also `Array.isArray(expr.arguments) ?
expr.arguments : []`). -/
def argsOrEmpty : PddlExpr → List PddlArg
  | .pred _ as => as
  | .func _ as => as
  | .numeric _ as => as
  | .composite _ _ (some as) _ _ _ => as
  | _ => []

/-- Truthiness of an optional string field (JavaScript `s ? a : b`): absent,
`null` and the empty string are falsy. -/
def jsTruthyStr : Option String → Bool
  | some s => s ≠ ""
  | none => false

/-- JavaScript `a || b` on an optional string. -/
def jsOrStr (a : Option String) (b : String) : String :=
  match a with
  | some s => if s = "" then b else s
  | none => b

/-- Printed form of the `value` field where the source writes
`${argument.value}`; an absent field prints as "undefined". -/
def jsValueText : Option JsPrim → String
  | some (.str s) => s
  | some (.num n) => toString n
  | some (.bool b) => if b then "true" else "false"
  | some .null => "null"
  | none => "undefined"

/-- The `COMPARATOR_TYPES` set of pddl-to-graph.ts. -/
def COMPARATOR_TYPES : List String :=
  ["=", "<=", ">=", "<", ">", "equal", "lesser-equal", "greater-equal", "lesser", "greater"]

/-- The `NUMERIC_EFFECT_TYPES` set (`increase`, `decrease`). -/
def NUMERIC_EFFECT_TYPES : List String := ["increase", "decrease"]

/-- The `COMPARATOR_LABEL_MAP` lookup table. -/
def comparatorLabelMap : String → Option String
  | "=" => some "="
  | "equal" => some "="
  | "<=" => some "<="
  | "lesser-equal" => some "<="
  | "≤" => some "<="
  | ">=" => some ">="
  | "greater-equal" => some ">="
  | "≥" => some ">="
  | "<" => some "<"
  | "lesser" => some "<"
  | ">" => some ">"
  | "greater" => some ">"
  | _ => none

/-- The `NUMERIC_OPERATOR_LABEL_MAP` lookup table. -/
def numericOperatorLabelMap : String → Option String
  | "times" => some "×"
  | "*" => some "×"
  | "multiply" => some "×"
  | "plus" => some "+"
  | "+" => some "+"
  | "minus" => some "-"
  | "-" => some "-"
  | "subtract" => some "-"
  | "divide" => some "÷"
  | "/" => some "÷"
  | "scale-up" => some "↑"
  | "scale-down" => some "↓"
  | "assign" => some "="
  | _ => none

/-- Embeds `getComparatorLabel`. -/
def getComparatorLabel (ty : Option String) : String :=
  match ty with
  | none => "="
  | some t =>
    if t = "" then "="
    else
      let normalized := jsTrim t
      (comparatorLabelMap normalized).getD normalized

/-- Embeds `getOperatorLabel`. -/
def getOperatorLabel (ty : Option String) (fallback : Option String) : String :=
  match ty with
  | none => fallback.getD "?"
  | some t =>
    if t = "" then fallback.getD "?"
    else
      let normalized := jsTrim t
      match numericOperatorLabelMap normalized with
      | some l => l
      | none => fallback.getD normalized

/-- Embeds `isNumberLiteralArgument` (an object whose `type` is
`"number"`). -/
def isNumberLiteralArgument : PddlArg → Bool
  | .expr e => typeStr e = "number"
  | .param _ _ => false

/-- Embeds `isFunctionExpressionArgument` (an object whose `type` is
`"function"`). -/
def isFunctionExpressionArgument : PddlArg → Bool
  | .expr e => typeStr e = "function"
  | .param _ _ => false

/-- Embeds `isTypedParameterArgument`: an object carrying a string `name`
and none of the `arguments`/`children`/`argument`/`items` fields.  Besides
genuine typed parameters this duck test also accepts a `composite` node
that has a `name` but none of those fields; the result is the `(name,
type)` view the caller reads. -/
def typedParameterView : PddlArg → Option (String × Option String)
  | .param n ty => some (n, ty)
  | .expr (.composite ty (some n) none none none _) => some (n, some ty)
  | _ => none

/-- Embeds `isPddlExpressionValue`. -/
def isPddlExpressionValue : PddlArg → Bool
  | .param _ ty =>
    match ty with
    | some t =>
      t == "predicate" || t == "function" || t == "not" || t == "assign" ||
        t == "scale-up" || t == "scale-down" || t == "number" || NUMERIC_EFFECT_TYPES.contains t
    | none => false
  | .expr e =>
    (let t := typeStr e
     t == "predicate" || t == "function" || t == "not" || t == "assign" ||
       t == "scale-up" || t == "scale-down" || t == "number" || NUMERIC_EFFECT_TYPES.contains t) ||
    (match e with
     | .pred _ _ => true
     | .func _ _ => true
     | .numeric _ _ => true
     | .notE _ => true
     | .numLit _ => false
     | .composite _ _ argsF argF chF _ => argsF.isSome || chF.isSome || argF.isSome)

/-- ASCII digit test. -/
def isAsciiDigit (c : Char) : Bool := '0' ≤ c && c ≤ '9'

/-- Stands in for `!Number.isNaN(Number(trimmed))` in `isNumericString`:
recognises optionally signed decimal numerals (JavaScript's `Number`
coercion also accepts exponent and radix forms, which the structured data
never carries; no claim depends on the exact boundary of this test). -/
def isNumericString (value : String) : Bool :=
  let t := jsTrim value
  if t = "" then false
  else
    let core := if strHeadIs t '+' ∨ strHeadIs t '-' then strDrop t 1 else t
    core ≠ "" ∧ core ≠ "." ∧ core.data.all (fun c => isAsciiDigit c || c == '.') ∧
      (core.data.countP (fun c => c == '.')) ≤ 1

mutual

/-- Embeds `stringifyExpressionArgument`. -/
def stringifyExpressionArgument : PddlArg → String
  | .param n _ => n
  | .expr e =>
    if typeStr e = "number" then
      match e with
      | .numLit v => toString v
      | .composite _ _ _ _ _ v => jsValueText v
      | _ => "undefined"
    else if typeStr e = "function" then
      formatFunctionLabelT e true
    else
      match jsNameOpt e with
      | some n => n
      | none => typeStr e

/-- Embeds `formatFunctionLabel`; the boolean is `options.includeArguments`
(default `true`).  The inner match computes `stringifyArgList` applied to
`expr.arguments || []`, written out per constructor for structural
recursion. -/
def formatFunctionLabelT : PddlExpr → Bool → String
  | e, includeArguments =>
    if includeArguments then
      let rawTexts : List String :=
        match e with
        | .pred _ as => stringifyArgList as
        | .func _ as => stringifyArgList as
        | .numeric _ as => stringifyArgList as
        | .composite _ _ (some as) _ _ _ => stringifyArgList as
        | _ => []
      let argTexts := rawTexts.filter (fun t => t ≠ "" ∧ t ≠ "?")
      if argTexts.length > 0 then
        jsNameI e ++ "(" ++ String.intercalate ", " argTexts ++ ")"
      else jsNameI e
    else jsNameI e

/-- Maps `stringifyExpressionArgument` over an argument list. -/
def stringifyArgList : List PddlArg → List String
  | [] => []
  | a :: rest => stringifyExpressionArgument a :: stringifyArgList rest

end

/-- Embeds `getNumericLiteralText`. -/
def getNumericLiteralText : Option PddlArg → Option String
  | none => none
  | some (.param n ty) =>
    match ty with
    | some t =>
      if t = "function" ∨ t = "predicate" ∨ t = "not" ∨ t = "increase" ∨ t = "decrease" ∨
          t = "assign" ∨ t = "scale-up" ∨ t = "scale-down" then none
      else if isNumericString n then some n.trim else none
    | none => if isNumericString n then some n.trim else none
  | some (.expr e) =>
    if typeStr e = "number" then
      match e with
      | .numLit v => some (toString v)
      | .composite _ _ _ _ _ v => some (jsValueText v)
      | _ => none
    else if typeStr e = "function" ∨ typeStr e = "predicate" ∨ typeStr e = "not" ∨
        typeStr e = "increase" ∨ typeStr e = "decrease" ∨ typeStr e = "assign" ∨
        typeStr e = "scale-up" ∨ typeStr e = "scale-down" then none
    else
      match e with
      | .pred _ _ => none
      | .func _ _ => none
      | .numeric _ _ => none
      | .notE _ => none
      | .numLit _ => none
      | .composite _ nm argsF argF chF v =>
        if argsF.isSome ∨ chF.isSome ∨ argF.isSome then none
        else
          match v with
          | some (.num k) => some (toString k)
          | some (.str s) => if isNumericString s then some s.trim else none
          | some (.bool _) => none
          | some .null =>
            match nm with
            | some n => if isNumericString n then some n.trim else none
            | none => none
          | none =>
            match nm with
            | some n => if isNumericString n then some n.trim else none
            | none => none

/-- Embeds `extractExpressionArguments`: names of the arguments that are
objects carrying a `name` field. -/
def argNameOf : PddlArg → Option String
  | .param n _ => some n
  | .expr (.pred n _) => some n
  | .expr (.func n _) => some n
  | .expr (.composite _ (some n) _ _ _ _) => some n
  | _ => none

/-- Embeds `extractExpressionArguments`. -/
def extractExpressionArguments (e : PddlExpr) : List String :=
  if typeStr e = "predicate" ∨ typeStr e = "function" then
    (argsOrEmpty e).filterMap argNameOf
  else []

/-- One collected predicate occurrence together with its resolved negation
polarity (`ExtractedPredicate`). -/
structure ExtractedPredicate where
  expr : PddlExpr
  isNegated : Bool

/-- Embeds `getPredicateLabel`. -/
def getPredicateLabel (extracted : ExtractedPredicate) : String :=
  if extracted.isNegated then "not " ++ jsNameI extracted.expr else jsNameI extracted.expr

mutual

/-- Embeds the inner `extract` of `extractAllPredicates` (pddl-to-graph.ts,
lines 1613-1628): collect nodes whose `type` is `"predicate"` with the
ambient negation flag; on a `not` node flip the flag and recurse into its
argument; otherwise recurse into `children`, else into `argument`.  (No
declared shape carries an `items` field, so that branch is unreachable.) -/
def extractPredsGo : PddlExpr → Bool → List ExtractedPredicate
  | .pred n as, b => [⟨.pred n as, b⟩]
  | .notE a, b => extractPredsGo a (!b)
  | .func _ _, _ => []
  | .numeric _ _, _ => []
  | .numLit _, _ => []
  | .composite ty nm argsF argF chF v, b =>
    if ty = "predicate" then [⟨.composite ty nm argsF argF chF v, b⟩]
    else
      match argF with
      | some a =>
        if ty = "not" then extractPredsGo a (!b)
        else
          match chF with
          | some cs => extractPredsList cs b
          | none => extractPredsGo a b
      | none =>
        match chF with
        | some cs => extractPredsList cs b
        | none => []

/-- Recursion of `extract` over a `children` list. -/
def extractPredsList : List PddlExpr → Bool → List ExtractedPredicate
  | [], _ => []
  | e :: rest, b => extractPredsGo e b ++ extractPredsList rest b

end

/-- Embeds `extractAllPredicates`. -/
def extractAllPredicates (expressions : List PddlExpr) : List ExtractedPredicate :=
  expressions.flatMap (fun e => extractPredsGo e false)

/-- Embeds the loop of `getUniquePredicates` with its `seen` label set. -/
def getUniquePredicatesGo : List ExtractedPredicate → List String → List ExtractedPredicate
  | [], _ => []
  | p :: rest, seen =>
    let label := getPredicateLabel p
    if seen.contains label then getUniquePredicatesGo rest seen
    else p :: getUniquePredicatesGo rest (seen ++ [label])

/-- Embeds `getUniquePredicates`: keep the first occurrence of every
rendered label. -/
def getUniquePredicates (predicates : List ExtractedPredicate) : List ExtractedPredicate :=
  getUniquePredicatesGo predicates []

mutual

/-- Embeds the `visit` of `extractComparatorExpressions`: collect nodes
whose `type` is in `COMPARATOR_TYPES`, then recurse into `children` and
into `argument` (both when present). -/
def extractCompsGo : PddlExpr → List PddlExpr
  | .notE a => (if COMPARATOR_TYPES.contains "not" then [.notE a] else []) ++ extractCompsGo a
  | .composite ty nm argsF argF chF v =>
    (if COMPARATOR_TYPES.contains ty then [.composite ty nm argsF argF chF v] else []) ++
      (match chF with
       | some cs => extractCompsList cs
       | none => []) ++
      (match argF with
       | some a => extractCompsGo a
       | none => [])
  | e => if COMPARATOR_TYPES.contains (typeStr e) then [e] else []

/-- Recursion of `visit` over a `children` list. -/
def extractCompsList : List PddlExpr → List PddlExpr
  | [] => []
  | e :: rest => extractCompsGo e ++ extractCompsList rest

end

/-- Embeds `extractComparatorExpressions`. -/
def extractComparatorExpressions (expressions : List PddlExpr) : List PddlExpr :=
  expressions.flatMap extractCompsGo

/-- The `type` string of an argument value, reading `null` for a typed
parameter with a `null` declared type. -/
def typeStrOfArg : PddlArg → Option String
  | .param _ ty => ty
  | .expr e => some (typeStr e)

/-- Embeds `isNumericEffectExpression` as evaluated on an argument value. -/
def isNumericEffectArg (a : PddlArg) : Bool :=
  match typeStrOfArg a with
  | some t => NUMERIC_EFFECT_TYPES.contains t
  | none => false

mutual

/-- Embeds the `visit` of `extractNumericEffects` (pddl-to-graph.ts, lines
1551-1571): collect numeric-effect nodes, then recurse into `children`,
into a defined `argument` that passes `isPddlExpressionValue`, and into the
elements of `arguments` that pass `isPddlExpressionValue`. -/
def extractNumGo : PddlArg → List PddlArg
  | .param n ty => if isNumericEffectArg (.param n ty) then [.param n ty] else []
  | .expr e =>
    (if isNumericEffectArg (.expr e) then [.expr e] else []) ++ extractNumRest e
termination_by a => (sizeOf a, 0)

/-- Recursion of `visit` into the fields of an expression node. -/
def extractNumRest : PddlExpr → List PddlArg
  | .pred _ as => extractNumArgs as
  | .func _ as => extractNumArgs as
  | .numeric _ as => extractNumArgs as
  | .numLit _ => []
  | .notE a => if isPddlExpressionValue (.expr a) then extractNumGo (.expr a) else []
  | .composite _ _ argsF argF chF _ =>
    (match chF with
     | some cs => extractNumChildren cs
     | none => []) ++
      (match argF with
       | some a => if isPddlExpressionValue (.expr a) then extractNumGo (.expr a) else []
       | none => []) ++
      (match argsF with
       | some as => extractNumArgs as
       | none => [])
termination_by e => (sizeOf e, 1)

/-- Recursion of `visit` over a `children` list. -/
def extractNumChildren : List PddlExpr → List PddlArg
  | [] => []
  | e :: rest => extractNumGo (.expr e) ++ extractNumChildren rest
termination_by l => (sizeOf l + 1, 0)

/-- Recursion of `visit` over an `arguments` list, filtered by
`isPddlExpressionValue`. -/
def extractNumArgs : List PddlArg → List PddlArg
  | [] => []
  | a :: rest =>
    (if isPddlExpressionValue a then extractNumGo a else []) ++ extractNumArgs rest
termination_by l => (sizeOf l, 2)

end

/-- Embeds `extractNumericEffects`. -/
def extractNumericEffects (expressions : List PddlExpr) : List PddlArg :=
  expressions.flatMap (fun e => extractNumGo (.expr e))

/-! Layout constants of pddl-to-graph.ts. -/

def NODE_WIDTH : ℚ := 120
def NODE_HEIGHT : ℚ := 60
def PARAMETER_NODE_WIDTH : ℚ := NODE_WIDTH * (7 / 10)
def PARAMETER_NODE_HEIGHT : ℚ := NODE_HEIGHT * (7 / 10)
def NODE_SPACING_X : ℚ := 200
def NODE_SPACING_Y : ℚ := 110
def START_X : ℚ := 100
def START_Y : ℚ := 100
def PRECONDITION_COLOR : String := "#f28b82"
def EFFECT_COLOR : String := "#81c995"
def SECTION_GAP : ℚ := NODE_SPACING_Y / 2
def ACTION_COLUMNS : Nat := 3
def ACTION_GROUP_WIDTH : ℚ := NODE_WIDTH + NODE_SPACING_X * (ACTION_COLUMNS - 1 : Nat)
def PROBLEM_MAX_COLUMNS : Nat := 8
def FUNCTION_NODE_COLOR : String := "#b39ddb"
def OPERATOR_NODE_COLOR : String := "#4a90e2"
def LITERAL_NODE_COLOR : String := "#ffcc80"

/-- Characters the identifier alphabet of `sanitizeId` keeps
(`[a-zA-Z0-9_-]`). -/
def isAllowedIdChar (c : Char) : Bool :=
  ('a' ≤ c && c ≤ 'z') || ('A' ≤ c && c ≤ 'Z') || ('0' ≤ c && c ≤ '9') || c == '_' || c == '-'

/-- Character-wise action of `sanitizeId`. -/
def sanChar (c : Char) : Char := if isAllowedIdChar c then c else '_'

/-- Embeds `sanitizeId`: `id.replace(/[^a-zA-Z0-9_-]/g, '_')`. -/
def sanitizeId (s : String) : String := ⟨s.data.map sanChar⟩

/-- Decimal digit character. -/
def digitChar (n : Nat) : Char := Char.ofNat (48 + n % 10)

/-- Fuelled decimal rendering loop (the fuel strictly dominates the
number of division steps, so `natLitChars` below never reaches the
exhausted case). -/
def natLitCharsGo : Nat → Nat → List Char
  | 0, n => [digitChar n]
  | fuel + 1, n =>
    if n < 10 then [digitChar n]
    else natLitCharsGo fuel (n / 10) ++ [digitChar (n % 10)]

/-- Decimal digit list of a natural number (most significant first), the
rendering of a counter in a template literal. -/
def natLitChars (n : Nat) : List Char := natLitCharsGo n n

/-- Decimal rendering of a counter (`${counter}`). -/
def natLit (n : Nat) : String := ⟨natLitChars n⟩

/-- Kinds of basic shapes the layout uses. -/
inductive ShapeKind where
  | rectangle
  | ellipse
deriving DecidableEq

/-- Arrowhead markers (`ArrowLineMarkerType.none` / `.arrow`). -/
inductive Marker where
  | none
  | arrow
deriving DecidableEq

/-- Rich-text payload of a node or edge label: the text together with the
paragraph alignment the source sets. -/
structure TextBlock where
  text : String
  align : String
deriving DecidableEq

/-- The `data` object `createDescriptionNode` attaches. -/
structure NodeData where
  role : String
  showOnHover : Bool
  editable : Bool
deriving DecidableEq

/-- One endpoint binding of an arrow line (`boundId`, normalized connection
point, marker). -/
structure ArrowEnd where
  boundId : String
  connection : ℚ × ℚ
  marker : Marker
deriving DecidableEq

/-- The `data` object of the group wrapper: action groups and problem
groups carry different metadata. -/
inductive GroupData where
  | action (description : String) (editableDescription : Bool)
      (descriptionElementId : String) (elementIds : List String)
  | problem (name : String) (initDescriptionId : String) (goalDescriptionId : String)
      (elementIds : List String)
deriving DecidableEq

/-- Body of a diagram element: geometry node, arrow line, or group
wrapper. -/
inductive ElementBody where
  | geometry (shape : ShapeKind) (p1 p2 : ℚ × ℚ) (angle opacity : ℚ)
      (fill strokeColor : String) (strokeWidth : ℚ) (text : TextBlock)
      (data : Option NodeData)
  | arrowLine (p1 p2 : ℚ × ℚ) (source target : ArrowEnd) (strokeColor : String)
      (strokeWidth opacity : ℚ) (texts : List TextBlock)
  | group (description : String) (data : GroupData)
deriving DecidableEq

/-- A diagram element: id, the `groupId` stamped by `registerElement` (the
group wrapper itself carries none), and the body. -/
structure Element where
  id : String
  groupId : Option String
  body : ElementBody
deriving DecidableEq

/-- True for geometry-node elements. -/
def Element.isGeometry (e : Element) : Bool :=
  match e.body with
  | .geometry _ _ _ _ _ _ _ _ _ _ => true
  | _ => false

/-- True for arrow-line elements. -/
def Element.isArrow (e : Element) : Bool :=
  match e.body with
  | .arrowLine _ _ _ _ _ _ _ _ => true
  | _ => false

/-- Embeds `registerElement`'s `element.groupId = groupId` assignment. -/
def setGroup (g : String) (e : Element) : Element := { e with groupId := some g }

/-- Node bookkeeping record (`GraphNodeInfo`). -/
structure GraphNodeInfo where
  id : String
  origin : ℚ × ℚ
  center : ℚ × ℚ
  width : ℚ
  height : ℚ
  shape : ShapeKind
deriving DecidableEq

/-- Embeds `getNodeCenter`. -/
def getNodeCenter (x y width height : ℚ) : ℚ × ℚ := (x + width / 2, y + height / 2)

/-- Embeds `createGraphNodeInfo`. -/
def createGraphNodeInfo (id : String) (x y width height : ℚ) (shape : ShapeKind) :
    GraphNodeInfo :=
  { id := id
    origin := (x, y)
    center := getNodeCenter x y width height
    width := width
    height := height
    shape := shape }

/-- Deterministic rational stand-in for `Math.sqrt` (IEEE-754 square root):
a fixed-point approximation through `Nat.sqrt`.  The layout uses the square
root only to place edge endpoints on node borders; every claim below is
insensitive to the numeric value, needing only that this is a function of
its argument. -/
def ratSqrt (q : ℚ) : ℚ :=
  if q ≤ 0 then 0 else ((Nat.sqrt (⌊q * 100000000⌋).toNat : ℚ) / 10000)

/-- Embeds `getConnectionPointOfNode` (`node.width ? … : 0.5` reads a zero
width or height as falsy). -/
def getConnectionPointOfNode (node : GraphNodeInfo) (point : ℚ × ℚ) : ℚ × ℚ :=
  ((if node.width ≠ 0 then (point.1 - node.origin.1) / node.width else (1 : ℚ) / 2),
   (if node.height ≠ 0 then (point.2 - node.origin.2) / node.height else (1 : ℚ) / 2))

/-- Embeds `getNodeBorderPointTowards`.  In the rectangle branch the source
forms `halfWidth/|dx|` and `halfHeight/|dy|` with `Infinity` for a vanishing
component and takes the minimum; the match below computes the same minimum
without an infinity. -/
def getNodeBorderPointTowards (node : GraphNodeInfo) (target : ℚ × ℚ) : ℚ × ℚ :=
  let centerX := node.center.1
  let centerY := node.center.2
  let dx := target.1 - centerX
  let dy := target.2 - centerY
  if dx = 0 ∧ dy = 0 then (centerX, centerY)
  else if node.shape = ShapeKind.ellipse then
    let rx := node.width / 2
    let ry := node.height / 2
    if rx = 0 ∨ ry = 0 then (centerX, centerY)
    else
      let denominator := ratSqrt (dx * dx / (rx * rx) + dy * dy / (ry * ry))
      if denominator = 0 then (centerX, centerY)
      else
        let scale := 1 / denominator
        (centerX + dx * scale, centerY + dy * scale)
  else
    let halfWidth := node.width / 2
    let halfHeight := node.height / 2
    if halfWidth = 0 ∨ halfHeight = 0 then (centerX, centerY)
    else
      let scale :=
        if dx = 0 then halfHeight / |dy|
        else if dy = 0 then halfWidth / |dx|
        else min (halfWidth / |dx|) (halfHeight / |dy|)
      (centerX + dx * scale, centerY + dy * scale)

/-- Embeds `createGeometryNode` (rectangle, default styling, centered
text). -/
def createGeometryNode (text : String) (x y : ℚ) (id : String) (width height : ℚ) :
    Element :=
  { id := id
    groupId := none
    body := .geometry .rectangle (x, y) (x + width, y + height) 0 1
      "#e8f4fd" "#1e88e5" 2 ⟨text, "center"⟩ none }

/-- Embeds `createPredicateNode` (ellipse of the standard node size with the
given fill). -/
def createPredicateNode (text : String) (x y : ℚ) (id : String) (fillColor : String) :
    Element :=
  { id := id
    groupId := none
    body := .geometry .ellipse (x, y) (x + NODE_WIDTH, y + NODE_HEIGHT) 0 1
      fillColor "#444444" 2 ⟨text, "center"⟩ none }

/-- Roles a description node can play. -/
inductive DescRole where
  | action
  | problemInit
  | problemGoal
deriving DecidableEq

/-- Role string as used in the description node's `data.role`. -/
def DescRole.text : DescRole → String
  | .action => "action"
  | .problemInit => "problem-init"
  | .problemGoal => "problem-goal"

/-- Embeds `createDescriptionNode`: a geometry node with role-dependent
fill, stroke, alignment and hover metadata. -/
def createDescriptionNode (text : String) (x y : ℚ) (id : String) (width height : ℚ)
    (role : DescRole) : Element :=
  let fill := match role with
    | .action => "#fff7e6"
    | .problemInit => "#fdecea"
    | .problemGoal => "#ecf8f1"
  let strokeColor := match role with
    | .action => "#d48806"
    | .problemInit => "#d93025"
    | .problemGoal => "#0f9d58"
  let paragraphAlign := match role with
    | .problemInit => "left"
    | _ => "center"
  { id := id
    groupId := none
    body := .geometry .rectangle (x, y) (x + width, y + height) 0 1
      fill strokeColor 2 ⟨text, paragraphAlign⟩
      (some ⟨role.text ++ "-description", true, true⟩) }

/-- Embeds `createArrowLine`: a straight arrow bound to both nodes, with
border connection points, default markers (`none` at the source, `arrow` at
the target) and an optional midpoint label. -/
def createArrowLine (sourceNode targetNode : GraphNodeInfo) (label : Option String)
    (id : String) (sourceMarker : Marker := .none) (targetMarker : Marker := .arrow) :
    Element :=
  let sourcePoint := getNodeBorderPointTowards sourceNode targetNode.center
  let targetPoint := getNodeBorderPointTowards targetNode sourceNode.center
  { id := id
    groupId := none
    body := .arrowLine sourcePoint targetPoint
      ⟨sourceNode.id, getConnectionPointOfNode sourceNode sourcePoint, sourceMarker⟩
      ⟨targetNode.id, getConnectionPointOfNode targetNode targetPoint, targetMarker⟩
      "#666666" 2 1
      (match label with
       | some l => [⟨l, "center"⟩]
       | none => []) }

/-- Ceiling division on counts (`Math.ceil(n / k)` for natural inputs). -/
def ceilDivNat (n k : Nat) : Nat := (n + k - 1) / k

/-- JavaScript `Map` read: the value of the latest `set` for the key. -/
def mapGet (m : List (String × GraphNodeInfo)) (k : String) : Option GraphNodeInfo :=
  (m.reverse.find? (fun p => p.1 == k)).map (·.2)

/-! Structured data model (`pddl_types`). -/

/-- Embeds `PddlTypedParameter` (`type: string | null`). -/
structure PddlTypedParameter where
  name : String
  ty : Option String

/-- Embeds `PddlAction`. -/
structure PddlAction where
  name : String
  description : Option String
  actionDescription : Option String
  parameters : List PddlTypedParameter
  preconditions : List PddlExpr
  effects : List PddlExpr

/-- Embeds `PddlObject`. -/
structure PddlObject where
  name : String
  ty : Option String

/-- Embeds `PddlProblem` (the fields the graph compiler reads; `init` is
the declared `PddlExpression[]`, `goal` the optional goal expression). -/
structure PddlProblem where
  name : String
  objects : List PddlObject
  init : List PddlExpr
  goal : Option PddlExpr
  initDescription : Option String
  goalDescription : Option String

/-- Embeds `PddlDomain` (the graph compiler reads only `actions`; the
declaration lists are carried for completeness). -/
structure PddlDomain where
  name : String
  requirements : List String
  actions : List PddlAction

/-- JavaScript `s && s.trim().length > 0 ? s.trim() : …` on an optional
string: the trimmed text when the field is present, truthy and not
blank. -/
def trimmedNonempty : Option String → Option String
  | some s => if jsTrim s ≠ "" then some (jsTrim s) else none
  | none => none

/-- The action description text resolved by `createActionGraph`. -/
def actionDescriptionText (action : PddlAction) : String :=
  ((trimmedNonempty action.description).orElse
    (fun _ => trimmedNonempty action.actionDescription)).getD "Action description"

/-! Band layout of `createActionGraph`.  `nextSectionY` starts at
`startY + NODE_SPACING_Y`, the description band consumes
`NODE_HEIGHT * 2 + SECTION_GAP`, and each later band advances the cursor
only when it is non-empty. -/

/-- Number of collected precondition predicates. -/
def actionPrecondCount (action : PddlAction) : Nat :=
  (extractAllPredicates action.preconditions).length

/-- Number of collected effect predicates. -/
def actionEffectCount (action : PddlAction) : Nat :=
  (extractAllPredicates action.effects).length

/-- The `descriptionBaseY` of `createActionGraph`. -/
def actionDescriptionBaseY (startY : ℚ) : ℚ := startY + NODE_SPACING_Y

/-- Cursor position after the description band: the start of the
precondition band. -/
def actionPrecondStartY (startY : ℚ) : ℚ :=
  actionDescriptionBaseY startY + NODE_HEIGHT * 2 + SECTION_GAP

/-- The `parameterStartY` of `createActionGraph`. -/
def actionParameterStartY (action : PddlAction) (startY : ℚ) : ℚ :=
  actionPrecondStartY startY +
    (if actionPrecondCount action > 0 then
      ((ceilDivNat (actionPrecondCount action) ACTION_COLUMNS : Nat) : ℚ) * NODE_SPACING_Y +
        SECTION_GAP
     else 0)

/-- The `effectStartY` of `createActionGraph`. -/
def actionEffectStartY (action : PddlAction) (startY : ℚ) : ℚ :=
  actionParameterStartY action startY +
    (if action.parameters.length > 0 then
      ((ceilDivNat action.parameters.length ACTION_COLUMNS : Nat) : ℚ) * NODE_SPACING_Y +
        SECTION_GAP
     else if actionPrecondCount action > 0 then SECTION_GAP
     else 0)

/-- The `numericSectionStartY` of `createActionGraph`. -/
def actionNumericStartY (action : PddlAction) (startY : ℚ) : ℚ :=
  actionEffectStartY action startY +
    (if actionEffectCount action > 0 then
      ((ceilDivNat (actionEffectCount action) ACTION_COLUMNS : Nat) : ℚ) * NODE_SPACING_Y
     else 0) +
    (if (extractNumericEffects action.effects).length > 0 ∧ actionEffectCount action > 0 then
      SECTION_GAP
     else 0)

/-- Grid position used by the predicate, parameter and effect bands of an
action (`ACTION_COLUMNS` fixed columns, constant row height). -/
def actionGridPos (startX baseY : ℚ) (index : Nat) : ℚ × ℚ :=
  (startX + ((index % ACTION_COLUMNS : Nat) : ℚ) * NODE_SPACING_X,
   baseY + ((index / ACTION_COLUMNS : Nat) : ℚ) * NODE_SPACING_Y)

/-- Node id minted by `placePredicateNode` of `createActionGraph`
(`predicate-${action.name}-${type}-${index}-${predicate.name}`). -/
def actionPredicateNodeId (actionName tyTag : String) (index : Nat) (predName : String) :
    String :=
  sanitizeId ("predicate-" ++ actionName ++ "-" ++ tyTag ++ "-" ++ natLit index ++ "-" ++ predName)

/-- Bookkeeping record pushed onto `predicateNodes`. -/
structure PredNodeRecord where
  info : GraphNodeInfo
  expr : PddlExpr
  label : String
  tyTag : String

/-- Embeds `placePredicateNode` of `createActionGraph`: the registered
ellipse together with the bookkeeping record. -/
def placeActionPredicate (actionName : String) (startX baseY : ℚ) (tyTag fill : String)
    (index : Nat) (p : ExtractedPredicate) : Element × PredNodeRecord :=
  let pos := actionGridPos startX baseY index
  let nodeId := actionPredicateNodeId actionName tyTag index (jsNameI p.expr)
  let label := getPredicateLabel p
  (createPredicateNode label pos.1 pos.2 nodeId fill,
   ⟨createGraphNodeInfo nodeId pos.1 pos.2 NODE_WIDTH NODE_HEIGHT .ellipse, p.expr, label, tyTag⟩)

/-- Precondition band of an action: one `(element, record)` pair per
collected precondition occurrence, in collection order. -/
def actionPrecondPairs (action : PddlAction) (startX startY : ℚ) :
    List (Element × PredNodeRecord) :=
  (extractAllPredicates action.preconditions).enum.map
    (fun ip =>
      placeActionPredicate action.name startX (actionPrecondStartY startY) "precondition"
        PRECONDITION_COLOR ip.1 ip.2)

/-- Effect band of an action. -/
def actionEffectPairs (action : PddlAction) (startX startY : ℚ) :
    List (Element × PredNodeRecord) :=
  (extractAllPredicates action.effects).enum.map
    (fun ip =>
      placeActionPredicate action.name startX (actionEffectStartY action startY) "effect"
        EFFECT_COLOR ip.1 ip.2)

/-- Label of a parameter node (`param.type ? `${name}: ${type}` : name`). -/
def typedParamLabel (name : String) (ty : Option String) : String :=
  match ty with
  | some t => if t ≠ "" then name ++ ": " ++ t else name
  | none => name

/-- Parameter band of an action: elements together with the
`parameterNodes` map entries, in registration order. -/
def actionParamPairs (action : PddlAction) (startX startY : ℚ) :
    List (Element × (String × GraphNodeInfo)) :=
  action.parameters.enum.map (fun ip =>
    let pos := actionGridPos startX (actionParameterStartY action startY) ip.1
    let nodeId := sanitizeId ("param-" ++ action.name ++ "-" ++ ip.2.name)
    (createGeometryNode (typedParamLabel ip.2.name ip.2.ty) pos.1 pos.2 nodeId
        PARAMETER_NODE_WIDTH PARAMETER_NODE_HEIGHT,
     (ip.2.name,
      createGraphNodeInfo nodeId pos.1 pos.2 PARAMETER_NODE_WIDTH PARAMETER_NODE_HEIGHT
        .rectangle)))

/-- The `parameterNodes` map of an action. -/
def actionParamMap (action : PddlAction) (startX startY : ℚ) :
    List (String × GraphNodeInfo) :=
  (actionParamPairs action startX startY).map (·.2)

/-! Numeric-effect band of `createActionGraph` (lines 1806-1971): a state
machine over the node counters, the accumulated section elements and the
shared function-node registry. -/

/-- Entry of the `functionNodeMap` registry / `functionNodes` list. -/
structure FuncNodeRecord where
  info : GraphNodeInfo
  expr : PddlExpr
  label : String

/-- Mutable context of the numeric band. -/
structure NumState where
  elements : List Element
  numericNodeCount : Nat
  numericEdgeCounter : Nat
  operatorNodeCounter : Nat
  literalNodeCounter : Nat
  functionNodeCounter : Nat
  functionNodeMap : List (String × FuncNodeRecord)
  functionNodes : List FuncNodeRecord
  maxElementBottom : ℚ

/-- Embeds `getNumericNodePosition`. -/
def numNodePosition (startX secY : ℚ) (s : NumState) : (ℚ × ℚ) × NumState :=
  let index := s.numericNodeCount
  let column := index % ACTION_COLUMNS
  let row := index / ACTION_COLUMNS
  ((startX + (column : ℚ) * NODE_SPACING_X, secY + (row : ℚ) * NODE_SPACING_Y),
   { s with numericNodeCount := s.numericNodeCount + 1 })

/-- Embeds `createLiteralNode` of the numeric band. -/
def numCreateLiteral (actionName : String) (startX secY : ℚ) (label suffix : String)
    (s : NumState) : GraphNodeInfo × NumState :=
  let ps := numNodePosition startX secY s
  let s1 := ps.2
  let nodeId :=
    sanitizeId ("literal-" ++ actionName ++ "-" ++ suffix ++ "-" ++ natLit s1.literalNodeCounter)
  let info := createGraphNodeInfo nodeId ps.1.1 ps.1.2 NODE_WIDTH NODE_HEIGHT .ellipse
  (info,
   { s1 with
      elements := s1.elements ++ [createPredicateNode label ps.1.1 ps.1.2 nodeId LITERAL_NODE_COLOR]
      literalNodeCounter := s1.literalNodeCounter + 1
      maxElementBottom := max s1.maxElementBottom (ps.1.2 + NODE_HEIGHT) })

/-- Embeds `createOperatorNode` of the numeric band. -/
def numCreateOperator (actionName : String) (startX secY : ℚ) (label suffix fillColor : String)
    (s : NumState) : GraphNodeInfo × NumState :=
  let ps := numNodePosition startX secY s
  let s1 := ps.2
  let nodeId :=
    sanitizeId ("operator-" ++ actionName ++ "-" ++ suffix ++ "-" ++ natLit s1.operatorNodeCounter)
  let info := createGraphNodeInfo nodeId ps.1.1 ps.1.2 NODE_WIDTH NODE_HEIGHT .ellipse
  (info,
   { s1 with
      elements := s1.elements ++ [createPredicateNode label ps.1.1 ps.1.2 nodeId fillColor]
      operatorNodeCounter := s1.operatorNodeCounter + 1
      maxElementBottom := max s1.maxElementBottom (ps.1.2 + NODE_HEIGHT) })

/-- Embeds `getFunctionNodeKey`. -/
def getFunctionNodeKey (e : PddlExpr) : String :=
  jsNameI e ++ "-" ++ String.intercalate "|" (stringifyArgList (argsOrEmpty e))

/-- Embeds `ensureFunctionNode` of the numeric band (a JavaScript `Map` that
is written at most once per key, so the first stored entry is read back). -/
def numEnsureFunction (actionName : String) (startX secY : ℚ) (e : PddlExpr) (s : NumState) :
    GraphNodeInfo × NumState :=
  let key := getFunctionNodeKey e
  match (s.functionNodeMap.find? (fun p => p.1 == key)).map (·.2) with
  | some existing => (existing.info, s)
  | none =>
    let ps := numNodePosition startX secY s
    let s1 := ps.2
    let label := formatFunctionLabelT e true
    let nodeId :=
      sanitizeId ("function-" ++ actionName ++ "-" ++ sanitizeId key ++ "-" ++
        natLit s1.functionNodeCounter)
    let info := createGraphNodeInfo nodeId ps.1.1 ps.1.2 NODE_WIDTH NODE_HEIGHT .ellipse
    let record : FuncNodeRecord := ⟨info, e, label⟩
    (info,
     { s1 with
        elements :=
          s1.elements ++ [createPredicateNode label ps.1.1 ps.1.2 nodeId FUNCTION_NODE_COLOR]
        functionNodeCounter := s1.functionNodeCounter + 1
        functionNodeMap := s1.functionNodeMap ++ [(key, record)]
        functionNodes := s1.functionNodes ++ [record]
        maxElementBottom := max s1.maxElementBottom (ps.1.2 + NODE_HEIGHT) })

/-- Embeds `createNumericEdge`. -/
def numCreateEdge (actionName : String) (source target : GraphNodeInfo) (s : NumState) :
    NumState :=
  let edgeId :=
    sanitizeId ("edge-" ++ actionName ++ "-numeric-" ++ natLit s.numericEdgeCounter)
  { s with
      elements := s.elements ++ [createArrowLine source target none edgeId]
      numericEdgeCounter := s.numericEdgeCounter + 1 }

/-- Label of the operator node `handleArgument` mints for a general
expression value (the `operatorLabel` computation of lines 1913-1919). -/
def numOperatorLabel (e : PddlExpr) : String :=
  let opLabel1 : Option String :=
    if typeStr e = "predicate" then jsNameOpt e
    else some (getOperatorLabel (some (typeStr e)) (jsNameOpt e))
  let opLabel2 : Option String :=
    if typeStr e = "predicate" ∧ opLabel1.getD "" = "" then
      some ((jsNameOpt e).getD "predicate")
    else opLabel1
  jsOrStr opLabel2 (typeStr e)

/-- Fill of the operator node: numeric-effect types use the effect color. -/
def numOperatorFill (e : PddlExpr) : String :=
  if NUMERIC_EFFECT_TYPES.contains (typeStr e) then EFFECT_COLOR else OPERATOR_NODE_COLOR

/-- The operator node of a general expression value together with the state
after its creation and the edge to the parent (lines 1920-1927). -/
def numOpIntro (actionName : String) (startX secY : ℚ) (parentNode : GraphNodeInfo)
    (e : PddlExpr) (suffix : String) (s : NumState) : GraphNodeInfo × NumState :=
  let os := numCreateOperator actionName startX secY (numOperatorLabel e)
    ("operator-" ++ typeStr e ++ "-" ++ suffix) (numOperatorFill e) s
  (os.1, numCreateEdge actionName os.1 parentNode os.2)

mutual

/-- Embeds `handleArgument` of the numeric band (lines 1871-1948), with the
duck-typing dispatch resolved per constructor: typed-parameter-shaped
values link (or mint a literal stand-in); an expression value continues in
`handleExprArg`. -/
def handleArgument (actionName : String) (params : List (String × GraphNodeInfo))
    (startX secY : ℚ) (parentNode : GraphNodeInfo) (arg : PddlArg) (suffix : String)
    (s : NumState) : NumState :=
  match arg with
  | .param name ty =>
    (match mapGet params name with
     | some paramNode => numCreateEdge actionName paramNode parentNode s
     | none =>
       let ls := numCreateLiteral actionName startX secY (typedParamLabel name ty)
         ("param-" ++ name ++ "-" ++ suffix) s
       numCreateEdge actionName ls.1 parentNode ls.2)
  | .expr e => handleExprArg actionName params startX secY parentNode e suffix s

/-- The expression-valued part of `handleArgument`: a composite of
typed-parameter shape links like a parameter, function expressions go
through the shared registry, number literals mint literals, any other
expression value mints an operator node and recurses into its
`arguments`/`children`/`argument` fields in that order. -/
def handleExprArg (actionName : String) (params : List (String × GraphNodeInfo))
    (startX secY : ℚ) (parentNode : GraphNodeInfo) (e : PddlExpr) (suffix : String)
    (s : NumState) : NumState :=
  match e with
  | .composite ty (some name) none none none _ =>
    (match mapGet params name with
     | some paramNode => numCreateEdge actionName paramNode parentNode s
     | none =>
       let ls := numCreateLiteral actionName startX secY (typedParamLabel name (some ty))
         ("param-" ++ name ++ "-" ++ suffix) s
       numCreateEdge actionName ls.1 parentNode ls.2)
  | e =>
    if typeStr e = "function" then
      let fs := numEnsureFunction actionName startX secY e s
      numCreateEdge actionName fs.1 parentNode fs.2
    else if typeStr e = "number" then
      let text := match e with
        | .numLit v => toString v
        | .composite _ _ _ _ _ v => jsValueText v
        | _ => "undefined"
      let ls := numCreateLiteral actionName startX secY text ("number-" ++ suffix) s
      numCreateEdge actionName ls.1 parentNode ls.2
    else if !(isPddlExpressionValue (.expr e)) then s
    else
      let oi := numOpIntro actionName startX secY parentNode e suffix s
      let operatorNode := oi.1
      let s1 := oi.2
      match e with
      | .pred _ as => handleArgList actionName params startX secY operatorNode as suffix 0 s1
      | .func _ as => handleArgList actionName params startX secY operatorNode as suffix 0 s1
      | .numeric _ as => handleArgList actionName params startX secY operatorNode as suffix 0 s1
      | .numLit _ => s1
      | .notE a =>
        handleExprArg actionName params startX secY operatorNode a
          (suffix ++ "-argument") s1
      | .composite _ _ argsF argF chF _ =>
        let s2 := match argsF with
          | some as => handleArgList actionName params startX secY operatorNode as suffix 0 s1
          | none => s1
        let s3 := match chF with
          | some cs => handleChildList actionName params startX secY operatorNode cs suffix 0 s2
          | none => s2
        match argF with
        | some a =>
          handleExprArg actionName params startX secY operatorNode a
            (suffix ++ "-argument") s3
        | none => s3

/-- Iteration of `handleArgument` over an `arguments` list
(`${suffix}-arg-${childIndex}`). -/
def handleArgList (actionName : String) (params : List (String × GraphNodeInfo))
    (startX secY : ℚ) (parentNode : GraphNodeInfo) (args : List PddlArg) (suffix : String)
    (childIndex : Nat) (s : NumState) : NumState :=
  match args with
  | [] => s
  | a :: rest =>
    handleArgList actionName params startX secY parentNode rest suffix (childIndex + 1)
      (handleArgument actionName params startX secY parentNode a
        (suffix ++ "-arg-" ++ natLit childIndex) s)

/-- Iteration of `handleArgument` over a `children` list: every child is an
expression value (`${suffix}-child-${childIndex}`). -/
def handleChildList (actionName : String) (params : List (String × GraphNodeInfo))
    (startX secY : ℚ) (parentNode : GraphNodeInfo) (children : List PddlExpr)
    (suffix : String) (childIndex : Nat) (s : NumState) : NumState :=
  match children with
  | [] => s
  | c :: rest =>
    handleChildList actionName params startX secY parentNode rest suffix (childIndex + 1)
      (handleExprArg actionName params startX secY parentNode c
        (suffix ++ "-child-" ++ natLit childIndex) s)

end

/-- The `type` of a collected numeric effect as interpolated into labels
and suffixes (collected items always carry a string `type`). -/
def numericTypeText (a : PddlArg) : String :=
  match typeStrOfArg a with
  | some t => t
  | none => "null"

/-- The `arguments` list of a collected numeric effect
(`Array.isArray(numericExpr.arguments) ? numericExpr.arguments : []`). -/
def numericArgsOf : PddlArg → List PddlArg
  | .param _ _ => []
  | .expr e => argsOrEmpty e

/-- Embeds the `numericEffects.forEach` driver (lines 1950-1965). -/
def numTopLoop (actionName : String) (params : List (String × GraphNodeInfo))
    (startX secY : ℚ) : List PddlArg → Nat → NumState → NumState
  | [], _, s => s
  | ne :: rest, index, s =>
    let args := numericArgsOf ne
    let targetFunction : Option PddlExpr :=
      match args.head? with
      | some (.expr e) => if typeStr e = "function" then some e else none
      | _ => none
    let label :=
      match targetFunction with
      | some tf => numericTypeText ne ++ " " ++ formatFunctionLabelT tf false
      | none => numericTypeText ne
    let os := numCreateOperator actionName startX secY label
      ("numeric-" ++ numericTypeText ne ++ "-" ++ natLit index) EFFECT_COLOR s
    let s1 := handleArgList actionName params startX secY os.1 args
      ("numeric-" ++ natLit index) 0 os.2
    numTopLoop actionName params startX secY rest (index + 1) s1

/-- Result of running the numeric band of one action. -/
def actionNumericState (action : PddlAction) (startX startY : ℚ) (mEB : ℚ) : NumState :=
  numTopLoop action.name (actionParamMap action startX startY) startX
    (actionNumericStartY action startY) (extractNumericEffects action.effects) 0
    { elements := []
      numericNodeCount := 0
      numericEdgeCounter := 0
      operatorNodeCounter := 0
      literalNodeCounter := 0
      functionNodeCounter := 0
      functionNodeMap := []
      functionNodes := []
      maxElementBottom := mEB }

/-- Outbound-edge loop over the remaining argument names of one node. -/
def outEdgeLoop (idPrefix : String) (nodeMap : List (String × GraphNodeInfo))
    (info : GraphNodeInfo) : List String → Nat → List Element × Nat
  | [], k => ([], k)
  | a :: rest, k =>
    match mapGet nodeMap a with
    | none => outEdgeLoop idPrefix nodeMap info rest k
    | some targetNode =>
      let e := createArrowLine info targetNode none
        (sanitizeId (idPrefix ++ info.id ++ "-out-" ++ natLit k))
      let r := outEdgeLoop idPrefix nodeMap info rest (k + 1)
      (e :: r.1, r.2)

/-- One pass of the argument-edge loops: for one node with its expression,
the inbound edge from the first named argument's bound node and the
outbound edges to the remaining bound nodes, threading the shared
`edgeIndex`.  The loop body is textually identical in the source for
`predicateNodes` and `functionNodes` of both diagram kinds; only the edge
id prefix and the node map differ, so both are parameters here. -/
def argEdgesForNode (idPrefix : String) (nodeMap : List (String × GraphNodeInfo))
    (info : GraphNodeInfo) (expr : PddlExpr) (edgeIndex : Nat) : List Element × Nat :=
  let args := extractExpressionArguments expr
  match args with
  | [] => ([], edgeIndex)
  | a0 :: rest =>
    let inStep : List Element × Nat :=
      match mapGet nodeMap a0 with
      | some firstNode =>
        ([createArrowLine firstNode info none
            (sanitizeId (idPrefix ++ info.id ++ "-in-" ++ natLit edgeIndex))],
         edgeIndex + 1)
      | none => ([], edgeIndex)
    let outStep := outEdgeLoop idPrefix nodeMap info rest inStep.2
    (inStep.1 ++ outStep.1, outStep.2)

/-- Argument-edge loop over a list of `(node, expression)` records. -/
def argEdgesLoop (idPrefix : String) (nodeMap : List (String × GraphNodeInfo)) :
    List (GraphNodeInfo × PddlExpr) → Nat → List Element × Nat
  | [], k => ([], k)
  | r :: rest, k =>
    let step := argEdgesForNode idPrefix nodeMap r.1 r.2 k
    let remaining := argEdgesLoop idPrefix nodeMap rest step.2
    (step.1 ++ remaining.1, remaining.2)

/-- Result of `createActionGraph`: the element list, the returned width and
height, and the advanced `actionGroupCounter`. -/
structure ActionGraphResult where
  elements : List Element
  width : ℚ
  height : ℚ
  counter : Nat

/-- The title node of an action block. -/
def actionTitleElem (action : PddlAction) (startX startY : ℚ) : Element :=
  createGeometryNode ("Action: " ++ action.name) startX startY
    (sanitizeId ("action-" ++ action.name)) ACTION_GROUP_WIDTH NODE_HEIGHT

/-- The description node of an action block (its id derives from the group
id). -/
def actionDescElem (action : PddlAction) (startX startY : ℚ) (groupId : String) : Element :=
  createDescriptionNode (actionDescriptionText action) startX (actionDescriptionBaseY startY)
    (sanitizeId (groupId ++ "-description")) ACTION_GROUP_WIDTH (NODE_HEIGHT * 2) .action

/-- The `maxElementBottom` value reached just before the numeric band. -/
def actionMaxBottomPreNumeric (action : PddlAction) (startX startY : ℚ) : ℚ :=
  let mEB0 := max (startY + NODE_HEIGHT) (actionDescriptionBaseY startY + NODE_HEIGHT * 2)
  let mEB1 :=
    ((actionPrecondPairs action startX startY).map
      (fun pr => pr.2.info.origin.2 + NODE_HEIGHT)).foldl max mEB0
  let mEB2 :=
    ((actionParamPairs action startX startY).map
      (fun pr => pr.2.2.origin.2 + PARAMETER_NODE_HEIGHT)).foldl max mEB1
  let mEB3 :=
    ((actionEffectPairs action startX startY).map
      (fun pr => pr.2.info.origin.2 + NODE_HEIGHT)).foldl max mEB2
  if actionEffectCount action > 0 then
    max mEB3 (actionEffectStartY action startY +
      ((ceilDivNat (actionEffectCount action) ACTION_COLUMNS : Nat) : ℚ) * NODE_SPACING_Y)
  else mEB3

/-- The numeric-band state of one action block. -/
def actionNumeric (action : PddlAction) (startX startY : ℚ) : NumState :=
  actionNumericState action startX startY (actionMaxBottomPreNumeric action startX startY)

/-- The `predicateNodes` records fed to the argument-edge loop. -/
def actionPredicateEdgeInput (action : PddlAction) (startX startY : ℚ) :
    List (GraphNodeInfo × PddlExpr) :=
  (actionPrecondPairs action startX startY ++ actionEffectPairs action startX startY).map
    (fun pr => (pr.2.info, pr.2.expr))

/-- The `functionNodes` records fed to the argument-edge loop. -/
def actionFunctionEdgeInput (action : PddlAction) (startX startY : ℚ) :
    List (GraphNodeInfo × PddlExpr) :=
  (actionNumeric action startX startY).functionNodes.map (fun r => (r.info, r.expr))

/-- The predicate argument edges of one action block (with the final
`edgeIndex`). -/
def actionPredEdges (action : PddlAction) (startX startY : ℚ) : List Element × Nat :=
  argEdgesLoop ("edge-" ++ action.name ++ "-") (actionParamMap action startX startY)
    (actionPredicateEdgeInput action startX startY) 0

/-- The function argument edges of one action block. -/
def actionFuncEdges (action : PddlAction) (startX startY : ℚ) : List Element × Nat :=
  argEdgesLoop ("edge-" ++ action.name ++ "-") (actionParamMap action startX startY)
    (actionFunctionEdgeInput action startX startY) (actionPredEdges action startX startY).2

/-- The registered (non-group) elements of one action block, in
registration order. -/
def actionBody (action : PddlAction) (startX startY : ℚ) (groupId : String) : List Element :=
  [actionTitleElem action startX startY, actionDescElem action startX startY groupId] ++
    (actionPrecondPairs action startX startY).map (·.1) ++
    (actionParamPairs action startX startY).map (·.1) ++
    (actionEffectPairs action startX startY).map (·.1) ++
    (actionNumeric action startX startY).elements ++
    (actionPredEdges action startX startY).1 ++
    (actionFuncEdges action startX startY).1

/-- Embeds `createActionGraph` (lines 1659-2053), with the process-wide
`actionGroupCounter` passed and returned explicitly. -/
def createActionGraph (action : PddlAction) (startX startY : ℚ)
    (actionGroupCounter : Nat) : ActionGraphResult :=
  let groupId := sanitizeId ("group-" ++ action.name ++ "-" ++ natLit actionGroupCounter)
  let actionDescription := actionDescriptionText action
  let descriptionId := sanitizeId (groupId ++ "-description")
  let descriptionHeight := NODE_HEIGHT * 2
  let numericEffects := extractNumericEffects action.effects
  let preconditionRows := ceilDivNat (actionPrecondCount action) ACTION_COLUMNS
  let parameterRows := ceilDivNat action.parameters.length ACTION_COLUMNS
  let effectRows := ceilDivNat (actionEffectCount action) ACTION_COLUMNS
  let numState := actionNumeric action startX startY
  let body := actionBody action startX startY groupId
  let groupedElementIds := body.map (·.id)
  let groupElem : Element :=
    { id := groupId
      groupId := none
      body := .group actionDescription (.action actionDescription true descriptionId groupedElementIds) }
  -- `lastSectionStartY`/`lastSectionRows` as left by the band sequence.
  let lastPair : ℚ × ℚ :=
    if numericEffects.length > 0 then
      (actionNumericStartY action startY,
       max ((ceilDivNat (max 1 numState.numericNodeCount) ACTION_COLUMNS : Nat) : ℚ) 1)
    else if actionEffectCount action > 0 then
      (actionEffectStartY action startY, max (effectRows : ℚ) 1)
    else if action.parameters.length > 0 then
      (actionParameterStartY action startY, max (parameterRows : ℚ) 1)
    else if actionPrecondCount action > 0 then
      (actionPrecondStartY startY, max (preconditionRows : ℚ) 1)
    else
      (actionDescriptionBaseY startY,
       max 1 ((⌈descriptionHeight / NODE_SPACING_Y⌉ : ℤ) : ℚ))
  let lastSectionBottomY :=
    max numState.maxElementBottom
      (if lastPair.2 > 0 then lastPair.1 + lastPair.2 * NODE_SPACING_Y
       else startY + NODE_SPACING_Y)
  { elements := groupElem :: body.map (setGroup groupId)
    width := ACTION_GROUP_WIDTH
    height := lastSectionBottomY - startY + NODE_HEIGHT
    counter := actionGroupCounter + 1 }

/-- Embeds `createDomainGraph`: actions laid out left to right, threading
the group counter. -/
def createDomainGraphGo : List PddlAction → ℚ → Nat → List Element × Nat
  | [], _, counter => ([], counter)
  | action :: rest, currentX, counter =>
    let r := createActionGraph action currentX START_Y counter
    let remaining := createDomainGraphGo rest (currentX + r.width + NODE_SPACING_X) r.counter
    (r.elements ++ remaining.1, remaining.2)

/-- Embeds `createDomainGraph`. -/
def createDomainGraph (domain : PddlDomain) (actionGroupCounter : Nat) :
    List Element × Nat :=
  createDomainGraphGo domain.actions START_X actionGroupCounter

/-- Embeds `convertPddlDomainToGraph`. -/
def convertPddlDomainToGraph (domain : PddlDomain) (actionGroupCounter : Nat) :
    List Element × Nat :=
  createDomainGraph domain actionGroupCounter

/-! Embedding of `createProblemGraph` (lines 2055-2537). -/

/-- The two categories of a problem diagram. -/
inductive PCat where
  | init
  | goal
deriving DecidableEq

/-- Category string as interpolated into ids and suffixes. -/
def PCat.text : PCat → String
  | .init => "init"
  | .goal => "goal"

/-- Fill color of a predicate node of the category. -/
def PCat.fill : PCat → String
  | .init => PRECONDITION_COLOR
  | .goal => EFFECT_COLOR

/-- Entry of the problem-level `functionNodes` list. -/
structure ProbFuncRecord where
  info : GraphNodeInfo
  expr : PddlExpr
  label : String
  cat : PCat

/-- Mutable context of `createProblemGraph` that the comparator sections
and bands thread: accumulated elements, the four shared counters, the
per-category dedup registries, the `functionNodes` list and the
`maxElementBottom` / `lastSection*` bookkeeping. -/
structure ProbState where
  elements : List Element
  functionNodeCounter : Nat
  valueNodeCounter : Nat
  comparatorNodeCounter : Nat
  comparatorEdgeCounter : Nat
  functionNodesInit : List (String × GraphNodeInfo)
  functionNodesGoal : List (String × GraphNodeInfo)
  comparatorNodesInit : List (String × GraphNodeInfo)
  comparatorNodesGoal : List (String × GraphNodeInfo)
  functionNodes : List ProbFuncRecord
  maxElementBottom : ℚ
  lastSectionStartY : ℚ
  lastSectionRows : ℚ

/-- The `functionNodesByCategory` registry of one category. -/
def ProbState.catFuncMap (s : ProbState) : PCat → List (String × GraphNodeInfo)
  | .init => s.functionNodesInit
  | .goal => s.functionNodesGoal

/-- Store into the `functionNodesByCategory` registry of one category. -/
def ProbState.setCatFuncMap (s : ProbState) (cat : PCat)
    (m : List (String × GraphNodeInfo)) : ProbState :=
  match cat with
  | .init => { s with functionNodesInit := m }
  | .goal => { s with functionNodesGoal := m }

/-- The `comparatorNodesByCategory` registry of one category. -/
def ProbState.catCompMap (s : ProbState) : PCat → List (String × GraphNodeInfo)
  | .init => s.comparatorNodesInit
  | .goal => s.comparatorNodesGoal

/-- Store into the `comparatorNodesByCategory` registry of one category. -/
def ProbState.setCatCompMap (s : ProbState) (cat : PCat)
    (m : List (String × GraphNodeInfo)) : ProbState :=
  match cat with
  | .init => { s with comparatorNodesInit := m }
  | .goal => { s with comparatorNodesGoal := m }

/-- Splits a character list into maximal whitespace-free words. -/
def wordsBy : List Char → List (List Char) → List (List Char)
  | [], acc => acc.reverse.filter (fun w => ¬ w.isEmpty) |>.map List.reverse
  | c :: rest, acc =>
    if isJsSpace c then wordsBy rest ([] :: acc)
    else
      match acc with
      | [] => wordsBy rest [[c]]
      | w :: ws => wordsBy rest ((c :: w) :: ws)

/-- Embeds `normalizeLiteralForKey`
(`value.replace(/\s+/g, ' ').trim()`, with falsy values mapping to the
empty string). -/
def normalizeLiteralForKey (v : Option String) : String :=
  match v with
  | some s =>
    if s = "" then ""
    else String.intercalate " " ((wordsBy s.data []).map (fun w => (⟨w⟩ : String)))
  | none => ""

/-- Grid position of the `getArgumentPosition` / `getOperatorPosition`
closures of `placeComparatorSection`. -/
def compGridPos (contentStartX baseY : ℚ) (cols : Nat) (counter : Nat) : ℚ × ℚ :=
  (contentStartX + ((counter % cols : Nat) : ℚ) * NODE_SPACING_X,
   baseY + ((counter / cols : Nat) : ℚ) * NODE_SPACING_Y)

/-- Embeds `createFunctionNodeForExpression` of `createProblemGraph`: the
per-category label-keyed registry is consulted first; a fresh node consumes
one argument-grid position and the shared function counter.  Every call
pushes a `functionNodes` entry, also when the node is reused.  Returns the
node info, the advanced local argument counter and the new state. -/
def probCreateFunctionNode (problemName : String) (cat : PCat) (contentStartX baseY : ℚ)
    (cols : Nat) (e : PddlExpr) (suffix : String) (argCounter : Nat) (s : ProbState) :
    GraphNodeInfo × Nat × ProbState :=
  let label := formatFunctionLabelT e false
  let functionKey := label
  match ((s.catFuncMap cat).find? (fun p => p.1 == functionKey)).map (·.2) with
  | some info =>
    (info, argCounter,
     { s with functionNodes := s.functionNodes ++ [⟨info, e, label, cat⟩] })
  | none =>
    let pos := compGridPos contentStartX baseY cols argCounter
    let nodeId := sanitizeId ("function-" ++ problemName ++ "-" ++ cat.text ++ "-" ++ suffix ++
      "-" ++ natLit s.functionNodeCounter ++ "-" ++ jsNameI e)
    let info := createGraphNodeInfo nodeId pos.1 pos.2 NODE_WIDTH NODE_HEIGHT .ellipse
    let s1 : ProbState :=
      { s with
          elements :=
            s.elements ++ [createPredicateNode label pos.1 pos.2 nodeId FUNCTION_NODE_COLOR]
          functionNodeCounter := s.functionNodeCounter + 1
          maxElementBottom := max s.maxElementBottom (pos.2 + NODE_HEIGHT)
          functionNodes := s.functionNodes ++ [⟨info, e, label, cat⟩] }
    (info, argCounter + 1, s1.setCatFuncMap cat (s.catFuncMap cat ++ [(functionKey, info)]))

/-- Embeds `createComparatorArgumentNode`: a function argument goes through
the function registry, a numeric-literal text is returned without a node,
anything else mints a literal ellipse.  Returns `(node?, literalText?,
argCounter, state)`. -/
def probCreateCompArgNode (problemName : String) (cat : PCat) (contentStartX baseY : ℚ)
    (cols : Nat) (argO : Option PddlArg) (suffix : String) (argCounter : Nat)
    (s : ProbState) : Option GraphNodeInfo × Option String × Nat × ProbState :=
  match argO with
  | none => (none, none, argCounter, s)
  | some a =>
    match a with
    | .expr e =>
      if typeStr e = "function" then
        let r := probCreateFunctionNode problemName cat contentStartX baseY cols e suffix
          argCounter s
        (some r.1, none, r.2.1, r.2.2)
      else
        match getNumericLiteralText (some a) with
        | some t => (none, some t, argCounter, s)
        | none =>
          let label := stringifyExpressionArgument a
          let pos := compGridPos contentStartX baseY cols argCounter
          let nodeId := sanitizeId ("literal-" ++ problemName ++ "-" ++ cat.text ++ "-" ++
            suffix ++ "-" ++ natLit s.valueNodeCounter)
          let info := createGraphNodeInfo nodeId pos.1 pos.2 NODE_WIDTH NODE_HEIGHT .ellipse
          (some info, none, argCounter + 1,
           { s with
              elements :=
                s.elements ++ [createPredicateNode label pos.1 pos.2 nodeId FUNCTION_NODE_COLOR]
              valueNodeCounter := s.valueNodeCounter + 1
              maxElementBottom := max s.maxElementBottom (pos.2 + NODE_HEIGHT) })
    | .param _ _ =>
      match getNumericLiteralText (some a) with
      | some t => (none, some t, argCounter, s)
      | none =>
        let label := stringifyExpressionArgument a
        let pos := compGridPos contentStartX baseY cols argCounter
        let nodeId := sanitizeId ("literal-" ++ problemName ++ "-" ++ cat.text ++ "-" ++
          suffix ++ "-" ++ natLit s.valueNodeCounter)
        let info := createGraphNodeInfo nodeId pos.1 pos.2 NODE_WIDTH NODE_HEIGHT .ellipse
        (some info, none, argCounter + 1,
         { s with
            elements :=
              s.elements ++ [createPredicateNode label pos.1 pos.2 nodeId FUNCTION_NODE_COLOR]
            valueNodeCounter := s.valueNodeCounter + 1
            maxElementBottom := max s.maxElementBottom (pos.2 + NODE_HEIGHT) })

/-- One record of the first comparator loop. -/
structure ComparatorRecord where
  index : Nat
  operatorLabel : String
  comparatorKey : Option String
  leftNode : Option GraphNodeInfo
  rightNode : Option GraphNodeInfo

/-- First loop of `placeComparatorSection`: argument nodes and comparator
records, threading the local argument counter. -/
def compRecordsLoop (problemName : String) (cat : PCat) (contentStartX baseY : ℚ)
    (cols : Nat) : List PddlExpr → Nat → Nat → ProbState →
    List ComparatorRecord × Nat × ProbState
  | [], _, argCounter, s => ([], argCounter, s)
  | e :: rest, index, argCounter, s =>
    let args := argsOrEmpty e
    let l := probCreateCompArgNode problemName cat contentStartX baseY cols args.head?
      ("comp-left-" ++ cat.text ++ "-" ++ natLit index) argCounter s
    let r := probCreateCompArgNode problemName cat contentStartX baseY cols (args.drop 1).head?
      ("comp-right-" ++ cat.text ++ "-" ++ natLit index) l.2.2.1 l.2.2.2
    let comparatorSymbol := getComparatorLabel (some (typeStr e))
    let segments := [l.2.1, some comparatorSymbol, r.2.1].filterMap (fun o =>
      match o with
      | some t => if jsTrim t ≠ "" then some t else none
      | none => none)
    let operatorLabel :=
      if segments.length > 0 then String.intercalate " " segments else comparatorSymbol
    let leftLiteralKey := normalizeLiteralForKey l.2.1
    let rightLiteralKey := normalizeLiteralForKey r.2.1
    let comparatorKey : Option String :=
      if leftLiteralKey ≠ "" ∨ rightLiteralKey ≠ "" then
        some (comparatorSymbol ++ "|" ++ leftLiteralKey ++ "|" ++ rightLiteralKey)
      else none
    let record : ComparatorRecord := ⟨index, operatorLabel, comparatorKey, l.1, r.1⟩
    let remaining := compRecordsLoop problemName cat contentStartX baseY cols rest (index + 1)
      r.2.2.1 r.2.2.2
    (record :: remaining.1, remaining.2.1, remaining.2.2)

/-- Second loop of `placeComparatorSection`: operator nodes (deduplicated by
`comparatorKey`) and the comparator edges, threading the local operator
counter. -/
def compOperatorLoop (problemName : String) (cat : PCat) (contentStartX operatorBaseY : ℚ)
    (cols : Nat) : List ComparatorRecord → Nat → ProbState → Nat × ProbState
  | [], opCounter, s => (opCounter, s)
  | record :: rest, opCounter, s =>
    let hit : Option GraphNodeInfo :=
      match record.comparatorKey with
      | some key => ((s.catCompMap cat).find? (fun p => p.1 == key)).map (·.2)
      | none => none
    let res : GraphNodeInfo × Nat × ProbState :=
      match hit with
      | some info => (info, opCounter, s)
      | none =>
        let pos := compGridPos contentStartX operatorBaseY cols opCounter
        let operatorId := sanitizeId ("operator-" ++ problemName ++ "-" ++ cat.text ++ "-" ++
          natLit record.index ++ "-" ++ natLit s.comparatorNodeCounter)
        let info := createGraphNodeInfo operatorId pos.1 pos.2 NODE_WIDTH NODE_HEIGHT .ellipse
        let s1 :=
          { s with
              elements := s.elements ++
                [createPredicateNode record.operatorLabel pos.1 pos.2 operatorId
                  OPERATOR_NODE_COLOR]
              comparatorNodeCounter := s.comparatorNodeCounter + 1
              maxElementBottom := max s.maxElementBottom (pos.2 + NODE_HEIGHT) }
        let s2 :=
          match record.comparatorKey with
          | some key => s1.setCatCompMap cat (s1.catCompMap cat ++ [(key, info)])
          | none => s1
        (info, opCounter + 1, s2)
    let operatorInfo := res.1
    let s3 := res.2.2
    let s4 :=
      match record.leftNode with
      | some leftNode =>
        let edgeId := sanitizeId ("comp-edge-" ++ problemName ++ "-" ++ cat.text ++ "-in-" ++
          natLit s3.comparatorEdgeCounter)
        { s3 with
            elements := s3.elements ++ [createArrowLine leftNode operatorInfo none edgeId]
            comparatorEdgeCounter := s3.comparatorEdgeCounter + 1 }
      | none => s3
    let s5 :=
      match record.rightNode with
      | some rightNode =>
        let edgeId := sanitizeId ("comp-edge-" ++ problemName ++ "-" ++ cat.text ++ "-out-" ++
          natLit s4.comparatorEdgeCounter)
        { s4 with
            elements := s4.elements ++ [createArrowLine operatorInfo rightNode none edgeId]
            comparatorEdgeCounter := s4.comparatorEdgeCounter + 1 }
      | none => s4
    compOperatorLoop problemName cat contentStartX operatorBaseY cols rest res.2.1 s5

/-- Embeds `placeComparatorSection`: returns the advanced section cursor
and the new state. -/
def placeComparatorSection (problemName : String) (cat : PCat) (contentStartX : ℚ)
    (problemColumns : Nat) (comparators : List PddlExpr) (baseY : ℚ) (s : ProbState) :
    ℚ × ProbState :=
  if comparators.isEmpty then (baseY, s)
  else
    let comparatorColumns := max 1 (min PROBLEM_MAX_COLUMNS problemColumns)
    let first := compRecordsLoop problemName cat contentStartX baseY comparatorColumns
      comparators 0 0 s
    let argumentNodeCounter := first.2.1
    let argumentRows :=
      if argumentNodeCounter = 0 then 0 else ceilDivNat argumentNodeCounter comparatorColumns
    let argumentSectionHeight := (argumentRows : ℚ) * NODE_SPACING_Y
    let colorRowGap : ℚ := if argumentSectionHeight > 0 then SECTION_GAP else 0
    let operatorBaseY := baseY + argumentSectionHeight + colorRowGap
    let second := compOperatorLoop problemName cat contentStartX operatorBaseY
      comparatorColumns first.1 0 first.2.2
    let operatorNodeCounter := second.1
    let operatorRows :=
      if operatorNodeCounter = 0 then 0 else ceilDivNat operatorNodeCounter comparatorColumns
    let operatorSectionHeight := (operatorRows : ℚ) * NODE_SPACING_Y
    let sectionHeight := argumentSectionHeight + colorRowGap + operatorSectionHeight
    let s' := second.2
    let s'' :=
      { s' with
          maxElementBottom := max s'.maxElementBottom (operatorBaseY + operatorSectionHeight)
          lastSectionStartY := baseY
          lastSectionRows :=
            max s'.lastSectionRows ((⌈sectionHeight / NODE_SPACING_Y⌉ : ℤ) : ℚ) }
    (baseY + sectionHeight + SECTION_GAP, s'')

/-- Node id minted by `placePredicateNode` of `createProblemGraph`. -/
def problemPredicateNodeId (problemName catText : String) (index : Nat) (predName : String) :
    String :=
  sanitizeId ("problem-" ++ problemName ++ "-" ++ catText ++ "-" ++ natLit index ++ "-" ++
    predName)

/-- Embeds the unique-predicate band loop of `createProblemGraph`
(`placePredicateNode` applied to each unique predicate): the per-category
label registry is consulted and a node is created only for an unseen
label.  Returns the elements, the extended registry and the new
`maxElementBottom`. -/
def placeProblemPredicates (problemName : String) (cat : PCat) (contentStartX baseY : ℚ)
    (cols : Nat) : List ExtractedPredicate → Nat → List (String × GraphNodeInfo) → ℚ →
    List Element × List (String × GraphNodeInfo) × ℚ
  | [], _, m, mEB => ([], m, mEB)
  | p :: rest, index, m, mEB =>
    let label := getPredicateLabel p
    if (m.find? (fun kv => kv.1 == label)).isSome then
      placeProblemPredicates problemName cat contentStartX baseY cols rest (index + 1) m mEB
    else
      let x := contentStartX + ((index % cols : Nat) : ℚ) * NODE_SPACING_X
      let y := baseY + ((index / cols : Nat) : ℚ) * NODE_SPACING_Y
      let nodeId := problemPredicateNodeId problemName cat.text index (jsNameI p.expr)
      let info := createGraphNodeInfo nodeId x y NODE_WIDTH NODE_HEIGHT .ellipse
      let elem := createPredicateNode label x y nodeId cat.fill
      let remaining := placeProblemPredicates problemName cat contentStartX baseY cols rest
        (index + 1) (m ++ [(label, info)]) (max mEB (y + NODE_HEIGHT))
      (elem :: remaining.1, remaining.2.1, remaining.2.2)

/-- Embeds the object band of `createProblemGraph`: every object entry
registers a rectangle (duplicate names overwrite the map entry but still
register an element). -/
def placeProblemObjects (problemName : String) (contentStartX baseY : ℚ) (cols : Nat) :
    List PddlObject → Nat → ℚ → List Element × List (String × GraphNodeInfo) × ℚ
  | [], _, mEB => ([], [], mEB)
  | o :: rest, index, mEB =>
    let x := contentStartX + ((index % cols : Nat) : ℚ) * NODE_SPACING_X
    let y := baseY + ((index / cols : Nat) : ℚ) * NODE_SPACING_Y
    let nodeId := sanitizeId ("object-" ++ problemName ++ "-" ++ o.name)
    let label := typedParamLabel o.name o.ty
    let elem := createGeometryNode label x y nodeId PARAMETER_NODE_WIDTH PARAMETER_NODE_HEIGHT
    let info := createGraphNodeInfo nodeId x y PARAMETER_NODE_WIDTH PARAMETER_NODE_HEIGHT
      .rectangle
    let remaining := placeProblemObjects problemName contentStartX baseY cols rest (index + 1)
      (max mEB (y + PARAMETER_NODE_HEIGHT))
    (elem :: remaining.1, (o.name, info) :: remaining.2.1, remaining.2.2)

/-- Embeds `assignPredicateNodesForEdges`: every predicate occurrence whose
label has a placed node contributes one `(node, expression)` record. -/
def assignPredicateNodesForEdges (predicates : List ExtractedPredicate)
    (m : List (String × GraphNodeInfo)) : List (GraphNodeInfo × PddlExpr) :=
  predicates.filterMap (fun p =>
    ((m.find? (fun kv => kv.1 == getPredicateLabel p)).map (·.2)).map (fun info =>
      (info, p.expr)))

/-- Result of `createProblemGraph`. -/
structure ProblemGraphResult where
  elements : List Element
  width : ℚ
  height : ℚ
  counter : Nat

/-- The goal expression list (`problem.goal ? [problem.goal] : []`). -/
def problemGoalExpressions (problem : PddlProblem) : List PddlExpr :=
  problem.goal.toList

/-- The column count of a problem diagram. -/
def problemColumnsOf (problem : PddlProblem) : Nat :=
  let uInit := (getUniquePredicates (extractAllPredicates problem.init)).length
  let uGoal :=
    (getUniquePredicates (extractAllPredicates (problemGoalExpressions problem))).length
  let iComp := (extractComparatorExpressions problem.init).length
  let gComp := (extractComparatorExpressions (problemGoalExpressions problem)).length
  min PROBLEM_MAX_COLUMNS
    (max 1 (max (uInit + iComp) (max problem.objects.length (uGoal + gComp))))

/-- The width of the problem content grid. -/
def problemWidthOf (problem : PddlProblem) : ℚ :=
  NODE_WIDTH + NODE_SPACING_X * ((problemColumnsOf problem - 1 : Nat) : ℚ)

/-- The sidebar description width. -/
def problemDescriptionWidth (problem : PddlProblem) : ℚ :=
  min (problemWidthOf problem) (NODE_WIDTH * 6)

/-- The x coordinate where the problem content grid starts. -/
def problemContentStartX (problem : PddlProblem) (startX : ℚ) : ℚ :=
  startX + problemDescriptionWidth problem + NODE_SPACING_X / 2

/-- The initial `ProbState` of `createProblemGraph`. -/
def problemS0 (startY : ℚ) : ProbState :=
  { elements := []
    functionNodeCounter := 0
    valueNodeCounter := 0
    comparatorNodeCounter := 0
    comparatorEdgeCounter := 0
    functionNodesInit := []
    functionNodesGoal := []
    comparatorNodesInit := []
    comparatorNodesGoal := []
    functionNodes := []
    maxElementBottom := startY
    lastSectionStartY := startY
    lastSectionRows := max 1 ((⌈(NODE_HEIGHT * 8) / NODE_SPACING_Y⌉ : ℤ) : ℚ) }

/-- The init comparator section (entered only when non-empty in the source;
the guard inside `placeComparatorSection` makes the unconditional call
equivalent). -/
def problemStep1 (problem : PddlProblem) (startX startY : ℚ) : ℚ × ProbState :=
  placeComparatorSection problem.name .init (problemContentStartX problem startX)
    (problemColumnsOf problem) (extractComparatorExpressions problem.init) startY
    (problemS0 startY)

/-- The init predicate band: elements, label registry and new bottom. -/
def problemInitBand (problem : PddlProblem) (startX startY : ℚ) :
    List Element × List (String × GraphNodeInfo) × ℚ :=
  placeProblemPredicates problem.name .init (problemContentStartX problem startX)
    (problemStep1 problem startX startY).1 (problemColumnsOf problem)
    (getUniquePredicates (extractAllPredicates problem.init)) 0 []
    (problemStep1 problem startX startY).2.maxElementBottom

/-- State after the init predicate band. -/
def problemS2 (problem : PddlProblem) (startX startY : ℚ) : ProbState :=
  let uniqueInitPredicates := getUniquePredicates (extractAllPredicates problem.init)
  let s1 := (problemStep1 problem startX startY).2
  let initBand := problemInitBand problem startX startY
  let initRows := ceilDivNat uniqueInitPredicates.length (problemColumnsOf problem)
  if uniqueInitPredicates.length > 0 then
    { s1 with
        elements := s1.elements ++ initBand.1
        maxElementBottom := initBand.2.2
        lastSectionStartY := (problemStep1 problem startX startY).1
        lastSectionRows := max s1.lastSectionRows (initRows : ℚ) }
  else { s1 with elements := s1.elements ++ initBand.1, maxElementBottom := initBand.2.2 }

/-- Section cursor after the init predicate band. -/
def problemNextY2 (problem : PddlProblem) (startX startY : ℚ) : ℚ :=
  let uniqueInitPredicates := getUniquePredicates (extractAllPredicates problem.init)
  let initRows := ceilDivNat uniqueInitPredicates.length (problemColumnsOf problem)
  (problemStep1 problem startX startY).1 +
    (if uniqueInitPredicates.length > 0 then
      (initRows : ℚ) * NODE_SPACING_Y + SECTION_GAP
     else 0)

/-- The object band: elements, object map and new bottom. -/
def problemObjectBand (problem : PddlProblem) (startX startY : ℚ) :
    List Element × List (String × GraphNodeInfo) × ℚ :=
  placeProblemObjects problem.name (problemContentStartX problem startX)
    (problemNextY2 problem startX startY) (problemColumnsOf problem) problem.objects 0
    (problemS2 problem startX startY).maxElementBottom

/-- The object row count. -/
def problemObjectRows (problem : PddlProblem) : Nat :=
  if problem.objects.length > 0 then
    ceilDivNat problem.objects.length (problemColumnsOf problem)
  else 0

/-- State after the object band. -/
def problemS3 (problem : PddlProblem) (startX startY : ℚ) : ProbState :=
  let s2 := problemS2 problem startX startY
  let objectBand := problemObjectBand problem startX startY
  if problem.objects.length > 0 then
    { s2 with
        elements := s2.elements ++ objectBand.1
        maxElementBottom := objectBand.2.2
        lastSectionStartY := problemNextY2 problem startX startY
        lastSectionRows := max s2.lastSectionRows ((problemObjectRows problem : Nat) : ℚ) }
  else { s2 with elements := s2.elements ++ objectBand.1, maxElementBottom := objectBand.2.2 }

/-- Section cursor after the object band. -/
def problemNextY3 (problem : PddlProblem) (startX startY : ℚ) : ℚ :=
  problemNextY2 problem startX startY +
    (if problem.objects.length > 0 then
      ((problemObjectRows problem : Nat) : ℚ) * NODE_SPACING_Y + SECTION_GAP
     else 0)

/-- Bottom edge of the object band. -/
def problemObjectSectionBottomY (problem : PddlProblem) (startX startY : ℚ) : ℚ :=
  if problemObjectRows problem > 0 then
    problemNextY2 problem startX startY +
      ((problemObjectRows problem : Nat) : ℚ) * NODE_SPACING_Y
  else problemNextY2 problem startX startY

/-- The goal predicate band. -/
def problemGoalBand (problem : PddlProblem) (startX startY : ℚ) :
    List Element × List (String × GraphNodeInfo) × ℚ :=
  placeProblemPredicates problem.name .goal (problemContentStartX problem startX)
    (problemNextY3 problem startX startY) (problemColumnsOf problem)
    (getUniquePredicates (extractAllPredicates (problemGoalExpressions problem))) 0 []
    (problemS3 problem startX startY).maxElementBottom

/-- State after the goal predicate band. -/
def problemS4 (problem : PddlProblem) (startX startY : ℚ) : ProbState :=
  let uniqueGoalPredicates :=
    getUniquePredicates (extractAllPredicates (problemGoalExpressions problem))
  let s3 := problemS3 problem startX startY
  let goalBand := problemGoalBand problem startX startY
  let goalRows := ceilDivNat uniqueGoalPredicates.length (problemColumnsOf problem)
  if uniqueGoalPredicates.length > 0 then
    { s3 with
        elements := s3.elements ++ goalBand.1
        maxElementBottom := goalBand.2.2
        lastSectionStartY := problemNextY3 problem startX startY
        lastSectionRows := max s3.lastSectionRows (goalRows : ℚ) }
  else { s3 with elements := s3.elements ++ goalBand.1, maxElementBottom := goalBand.2.2 }

/-- Section cursor after the goal predicate band. -/
def problemNextY4 (problem : PddlProblem) (startX startY : ℚ) : ℚ :=
  let uniqueGoalPredicates :=
    getUniquePredicates (extractAllPredicates (problemGoalExpressions problem))
  let goalRows := ceilDivNat uniqueGoalPredicates.length (problemColumnsOf problem)
  problemNextY3 problem startX startY +
    (if uniqueGoalPredicates.length > 0 then
      (goalRows : ℚ) * NODE_SPACING_Y + SECTION_GAP
     else 0)

/-- The goal comparator section (called unconditionally). -/
def problemStep5 (problem : PddlProblem) (startX startY : ℚ) : ℚ × ProbState :=
  placeComparatorSection problem.name .goal (problemContentStartX problem startX)
    (problemColumnsOf problem)
    (extractComparatorExpressions (problemGoalExpressions problem))
    (problemNextY4 problem startX startY) (problemS4 problem startX startY)

/-- The y position of the goal description node. -/
def problemGoalDescriptionY (problem : PddlProblem) (startX startY : ℚ) : ℚ :=
  let objectSectionBottomY := problemObjectSectionBottomY problem startX startY
  let minGoalDescriptionY := objectSectionBottomY + SECTION_GAP
  let goalDescriptionY0 := objectSectionBottomY - NODE_HEIGHT * 8
  if goalDescriptionY0 < minGoalDescriptionY then minGoalDescriptionY else goalDescriptionY0

/-- The two sidebar description nodes (their ids derive from the group
id). -/
def problemDescElems (problem : PddlProblem) (startX startY : ℚ) (groupId : String) :
    List Element :=
  [createDescriptionNode ((trimmedNonempty problem.initDescription).getD "Init description")
      startX 150 (sanitizeId (groupId ++ "-init-description"))
      (problemDescriptionWidth problem) (NODE_HEIGHT * 8) .problemInit,
   createDescriptionNode ((trimmedNonempty problem.goalDescription).getD "Goal description")
      startX (problemGoalDescriptionY problem startX startY)
      (sanitizeId (groupId ++ "-goal-description")) (problemDescriptionWidth problem)
      (NODE_HEIGHT * 8 / 2) .problemGoal]

/-- The predicate records fed to the problem argument-edge loop (one per
collected occurrence whose label has a placed node). -/
def problemPredicateEdgeInput (problem : PddlProblem) (startX startY : ℚ) :
    List (GraphNodeInfo × PddlExpr) :=
  assignPredicateNodesForEdges (extractAllPredicates problem.init)
      (problemInitBand problem startX startY).2.1 ++
    assignPredicateNodesForEdges (extractAllPredicates (problemGoalExpressions problem))
      (problemGoalBand problem startX startY).2.1

/-- The predicate argument edges of a problem diagram. -/
def problemPredEdges (problem : PddlProblem) (startX startY : ℚ) : List Element × Nat :=
  argEdgesLoop "problem-edge-" (problemObjectBand problem startX startY).2.1
    (problemPredicateEdgeInput problem startX startY) 0

/-- The function argument edges of a problem diagram. -/
def problemFuncEdges (problem : PddlProblem) (startX startY : ℚ) : List Element × Nat :=
  argEdgesLoop "problem-function-edge-" (problemObjectBand problem startX startY).2.1
    ((problemStep5 problem startX startY).2.functionNodes.map (fun r => (r.info, r.expr)))
    (problemPredEdges problem startX startY).2

/-- The registered (non-group) elements of a problem diagram, in
registration order. -/
def problemBody (problem : PddlProblem) (startX startY : ℚ) (groupId : String) :
    List Element :=
  (problemStep5 problem startX startY).2.elements ++
    problemDescElems problem startX startY groupId ++
    (problemPredEdges problem startX startY).1 ++
    (problemFuncEdges problem startX startY).1

/-- Embeds `createProblemGraph`, with the process-wide
`problemGroupCounter` passed and returned explicitly. -/
def createProblemGraph (problem : PddlProblem) (startX startY : ℚ)
    (problemGroupCounter : Nat) : ProblemGraphResult :=
  let groupId :=
    sanitizeId ("problem-" ++ problem.name ++ "-" ++ natLit problemGroupCounter)
  let s5 := (problemStep5 problem startX startY).2
  let initDescriptionY : ℚ := 150
  let descriptionHeight := NODE_HEIGHT * 8
  -- `maxElementBottom` after registering the two description nodes.
  let mEB6 :=
    max (max s5.maxElementBottom (initDescriptionY + descriptionHeight))
      (problemGoalDescriptionY problem startX startY + descriptionHeight)
  let body := problemBody problem startX startY groupId
  let groupedElementIds := body.map (·.id)
  let groupElem : Element :=
    { id := groupId
      groupId := none
      body := .group ("Problem: " ++ problem.name)
        (.problem problem.name (sanitizeId (groupId ++ "-init-description"))
          (sanitizeId (groupId ++ "-goal-description")) groupedElementIds) }
  let lastSectionBottomY :=
    max mEB6 (s5.lastSectionStartY + s5.lastSectionRows * NODE_SPACING_Y)
  { elements := groupElem :: body.map (setGroup groupId)
    width := problemDescriptionWidth problem + NODE_SPACING_X / 2 + problemWidthOf problem
    height := lastSectionBottomY - startY + NODE_HEIGHT
    counter := problemGroupCounter + 1 }

/-- Embeds `convertPddlProblemToGraph`. -/
def convertPddlProblemToGraph (problem : PddlProblem) (problemGroupCounter : Nat) :
    List Element × Nat :=
  let r := createProblemGraph problem START_X START_Y problemGroupCounter
  (r.elements, r.counter)

/-- The expression `(not (not … (not e) …))` with `n` enclosing `not`
wrappers. -/
def iterNot : Nat → PddlExpr → PddlExpr
  | 0, e => e
  | n + 1, e => .notE (iterNot n e)

/-! Observation helpers used by the claim statements. -/

/-- Whether the first characters of `s` spell `p`. -/
def strTakeIs (s p : String) : Bool := s.data.take p.data.length == p.data

/-- A precondition-band ellipse of an action diagram carrying the given
label (the precondition fill color is used by no other element of an action
block). -/
def isPrecondNode (label : String) (e : Element) : Bool :=
  match e.body with
  | .geometry .ellipse _ _ _ _ fill _ _ t _ => fill == PRECONDITION_COLOR && t.text == label
  | _ => false

/-- An effect-band ellipse of an action diagram carrying the given label:
effect fill color and a `predicate-` id (numeric-band operator nodes may
share the fill but never the id shape). -/
def isEffectNode (label : String) (e : Element) : Bool :=
  (match e.body with
   | .geometry .ellipse _ _ _ _ fill _ _ t _ => fill == EFFECT_COLOR && t.text == label
   | _ => false) && strTakeIs e.id "predicate-"

/-- An init-band ellipse of a problem diagram carrying the given label. -/
def isInitNode (label : String) (e : Element) : Bool :=
  match e.body with
  | .geometry .ellipse _ _ _ _ fill _ _ t _ => fill == PRECONDITION_COLOR && t.text == label
  | _ => false

/-- A goal-band ellipse of a problem diagram carrying the given label. -/
def isGoalNode (label : String) (e : Element) : Bool :=
  match e.body with
  | .geometry .ellipse _ _ _ _ fill _ _ t _ => fill == EFFECT_COLOR && t.text == label
  | _ => false

/-- An arrow line whose target binding is the given node id. -/
def isArrowWithTarget (nid : String) (e : Element) : Bool :=
  match e.body with
  | .arrowLine _ _ _ t _ _ _ _ => t.boundId == nid
  | _ => false

/-- An arrow line whose source binding is the given node id. -/
def isArrowWithSource (nid : String) (e : Element) : Bool :=
  match e.body with
  | .arrowLine _ _ s _ _ _ _ _ => s.boundId == nid
  | _ => false

/-- Well-formedness of one arrow within an element list: both bound ids
name geometry elements of the list and the two endpoints are distinct. -/
def arrowEndpointsOk (elems : List Element) (e : Element) : Prop :=
  match e.body with
  | .arrowLine _ _ s t _ _ _ _ =>
    (∃ g ∈ elems, g.isGeometry = true ∧ g.id = s.boundId) ∧
      (∃ g ∈ elems, g.isGeometry = true ∧ g.id = t.boundId) ∧ s.boundId ≠ t.boundId
  | _ => True

/-- Group metadata with the id-valued fields erased. -/
inductive GroupDataView where
  | action (description : String) (editableDescription : Bool)
  | problem (name : String)
deriving DecidableEq

/-- An element body with every id-valued field erased: shape, geometry,
styling, markers, connection points and text are kept; `boundId`s and the
id lists of group metadata are dropped. -/
inductive BodyView where
  | geometry (shape : ShapeKind) (p1 p2 : ℚ × ℚ) (angle opacity : ℚ)
      (fill strokeColor : String) (strokeWidth : ℚ) (text : TextBlock)
      (data : Option NodeData)
  | arrowLine (p1 p2 : ℚ × ℚ) (sourceConnection targetConnection : ℚ × ℚ)
      (sourceMarker targetMarker : Marker) (strokeColor : String)
      (strokeWidth opacity : ℚ) (texts : List TextBlock)
  | group (description : String) (data : GroupDataView)
deriving DecidableEq

/-- Projection of an element to its id-free view (the element id, the
`groupId` stamp, the arrow `boundId`s and the id fields of group metadata
are erased; everything visual is kept). -/
def projElement (e : Element) : BodyView :=
  match e.body with
  | .geometry shape p1 p2 angle opacity fill strokeColor strokeWidth text data =>
    .geometry shape p1 p2 angle opacity fill strokeColor strokeWidth text data
  | .arrowLine p1 p2 s t strokeColor strokeWidth opacity texts =>
    .arrowLine p1 p2 s.connection t.connection s.marker t.marker strokeColor strokeWidth
      opacity texts
  | .group description data =>
    .group description
      (match data with
       | .action d e _ _ => .action d e
       | .problem n _ _ _ => .problem n)

/-! Shape bookkeeping for the numeric band: every id the band mints is a
category prefix followed by material ending in `-` and a decimal counter
value. -/

/-- An id of the shape `catPrefix…-<counter>` with the counter in
`[lo, hi)`. -/
def counterIdSpec (catPrefix : String) (lo hi : Nat) (i : String) : Prop :=
  ∃ (t : List Char) (k : Nat), lo ≤ k ∧ k < hi ∧ i.data = t ++ natLitChars k ∧
    t.getLast? = some '-' ∧ t.take catPrefix.data.length = catPrefix.data

/-- Census entry for a geometry node the numeric band minted: a literal,
operator or function ellipse with its category id shape and counter below
the given bound. -/
def numGeomOk (litB opB funB : Nat) (e : Element) : Prop :=
  (∃ p1 p2 lbl, e.body = .geometry .ellipse p1 p2 0 1 LITERAL_NODE_COLOR "#444444" 2
      ⟨lbl, "center"⟩ none ∧ counterIdSpec "literal-" 0 litB e.id) ∨
  (∃ p1 p2 lbl fill, (fill = EFFECT_COLOR ∨ fill = OPERATOR_NODE_COLOR) ∧
    e.body = .geometry .ellipse p1 p2 0 1 fill "#444444" 2 ⟨lbl, "center"⟩ none ∧
    counterIdSpec "operator-" 0 opB e.id) ∨
  (∃ p1 p2 lbl, e.body = .geometry .ellipse p1 p2 0 1 FUNCTION_NODE_COLOR "#444444" 2
      ⟨lbl, "center"⟩ none ∧ counterIdSpec "function-" 0 funB e.id)

/-- Census entry for an arrow the numeric band minted: an `edge-…-numeric-`
id, a target bound to an already registered operator node and a source
bound to a registered band node or a parameter node, with distinct
endpoints. -/
def numArrowOk (actionName : String) (params : List (String × GraphNodeInfo))
    (elems : List Element) (edgeB opB : Nat) (e : Element) : Prop :=
  match e.body with
  | .arrowLine _ _ s t _ _ _ _ =>
    counterIdSpec (sanitizeId ("edge-" ++ actionName ++ "-numeric-")) 0 edgeB e.id ∧
    counterIdSpec "operator-" 0 opB t.boundId ∧
    (∃ g ∈ elems, g.isGeometry = true ∧ g.id = t.boundId) ∧
    ((∃ g ∈ elems, g.isGeometry = true ∧ g.id = s.boundId ∧
        (strTakeIs s.boundId "literal-" = true ∨ strTakeIs s.boundId "operator-" = true ∨
          strTakeIs s.boundId "function-" = true)) ∨
      (∃ kv ∈ params, kv.2.id = s.boundId)) ∧
    s.boundId ≠ t.boundId
  | _ => False

/-- Invariant of the numeric-band state: every accumulated element passes
the census, the accumulated ids are distinct, and every registry entry and
every `functionNodes` record points at a registered function node. -/
def NumInv (actionName : String) (params : List (String × GraphNodeInfo))
    (s : NumState) : Prop :=
  (∀ e ∈ s.elements,
    numGeomOk s.literalNodeCounter s.operatorNodeCounter s.functionNodeCounter e ∨
      numArrowOk actionName params s.elements s.numericEdgeCounter s.operatorNodeCounter e) ∧
  (s.elements.map (fun e => e.id)).Nodup ∧
  (∀ kv ∈ s.functionNodeMap,
    (∃ g ∈ s.elements, g.isGeometry = true ∧ g.id = kv.2.info.id) ∧
      counterIdSpec "function-" 0 s.functionNodeCounter kv.2.info.id) ∧
  (∀ r ∈ s.functionNodes,
    (∃ g ∈ s.elements, g.isGeometry = true ∧ g.id = r.info.id) ∧
      counterIdSpec "function-" 0 s.functionNodeCounter r.info.id)

/-- The parent node handed to `handleArgument` is an operator node the band
already registered. -/
def ParentOk (s : NumState) (p : GraphNodeInfo) : Prop :=
  counterIdSpec "operator-" 0 s.operatorNodeCounter p.id ∧
    ∃ g ∈ s.elements, g.isGeometry = true ∧ g.id = p.id

/-- Every entry of a parameter/object node map carries an id of the given
prefix shape. -/
def MapIdsPrefixed (pfx : String) (params : List (String × GraphNodeInfo)) : Prop :=
  ∀ kv ∈ params, strTakeIs kv.2.id pfx = true

/-- Monotone counter data between two numeric states. -/
def NumCountersLe (s s' : NumState) : Prop :=
  s.literalNodeCounter ≤ s'.literalNodeCounter ∧
    s.operatorNodeCounter ≤ s'.operatorNodeCounter ∧
    s.functionNodeCounter ≤ s'.functionNodeCounter ∧
    s.numericEdgeCounter ≤ s'.numericEdgeCounter

/-- One numeric-band step seen from outside: the invariant holds afterwards,
the counters only grew, and the element list was only appended to. -/
def NumEvolves (actionName : String) (params : List (String × GraphNodeInfo))
    (s s' : NumState) : Prop :=
  NumInv actionName params s' ∧ NumCountersLe s s' ∧
    ∃ t, s'.elements = s.elements ++ t

/-- Decidable endpoint well-formedness of one element within an element
list: an arrow line must bind two distinct ids, each naming a geometry
element of the list; every other element passes. -/
def elementEndpointsOkB (elems : List Element) (e : Element) : Bool :=
  match e.body with
  | .arrowLine _ _ s t _ _ _ _ =>
    (elems.any (fun g => g.isGeometry && g.id == s.boundId)) &&
      (elems.any (fun g => g.isGeometry && g.id == t.boundId)) &&
      !(s.boundId == t.boundId)
  | _ => true

/-- A geometry element with the given id occurs in the list. -/
def geomWithId (E : List Element) (i : String) : Prop :=
  ∃ g ∈ E, g.isGeometry = true ∧ g.id = i

/-- Well-formedness of a problem compilation state: every accumulated
arrow is endpoint-closed within the accumulated elements, and every
registry entry points at a registered geometry node carrying its category
id prefix. -/
def ProbWF (s : ProbState) : Prop :=
  (∀ e ∈ s.elements, arrowEndpointsOk s.elements e) ∧
  (∀ cat, ∀ kv ∈ s.catFuncMap cat,
    geomWithId s.elements kv.2.id ∧ strTakeIs kv.2.id "function-" = true) ∧
  (∀ cat, ∀ kv ∈ s.catCompMap cat,
    geomWithId s.elements kv.2.id ∧ strTakeIs kv.2.id "operator-" = true) ∧
  (∀ r ∈ s.functionNodes,
    geomWithId s.elements r.info.id ∧ strTakeIs r.info.id "function-" = true)

/-- One comparator-record side: absent, or a registered node with a
`function-` or `literal-` id. -/
def recNodeOk (E : List Element) : Option GraphNodeInfo → Prop
  | none => True
  | some n => geomWithId E n.id ∧
      (strTakeIs n.id "function-" = true ∨ strTakeIs n.id "literal-" = true)

/-- Both sides of a comparator record are well-formed. -/
def recordOk (E : List Element) (r : ComparatorRecord) : Prop :=
  recNodeOk E r.leftNode ∧ recNodeOk E r.rightNode

end Graph

/-!
Theorems.  Each claim of the specification review is settled by one named
theorem below; auxiliary lemmas carry their own names.
-/

open Drawnix in
/-- C6: tokenizing `"(a (b c))"` yields exactly
`["(", "a", "(", "b", "c", ")", ")"]`, building the S-expression from those
tokens succeeds with the single list `(a (b c))`, and serializing it
reproduces the text `"(a (b c))"` character for character. -/
theorem c6_tokenize_roundtrip :
    tokenize "(a (b c))" = ["(", "a", "(", "b", "c", ")", ")"] ∧
    (parseTokensToSExpr ["(", "a", "(", "b", "c", ")", ")"]).toOption.map
        (fun l => l.map formatSExpr) = some ["(a (b c))"] ∧
    formatSExpr (.list [.atom "a", .list [.atom "b", .atom "c"]]) = "(a (b c))" := by
  refine ⟨by decide, by decide, by decide⟩

open Drawnix in
/-- C7 counterexample: on the entry run `bot - robot room-a - location`
(six separate atoms, as the tokenizer produces for a spaced `:types`
segment) the typed-block renderer emits a single section child carrying the
whole run, not the two groups `bot - robot` and `room-a - location` the
claim asserts. -/
theorem c7_counterexample :
    appendTypedBlockChildren
        [.atom "bot", .atom "-", .atom "robot", .atom "room-a", .atom "-", .atom "location"] =
      ["bot - robot room-a - location"] ∧
    appendTypedBlockChildren
        [.atom "bot", .atom "-", .atom "robot", .atom "room-a", .atom "-", .atom "location"] ≠
      ["bot - robot", "room-a - location"] := by
  refine ⟨by decide, by decide⟩

open Drawnix in
/-- C7 amended: the typed-block renderer flushes a group only at an entry
that itself begins with `-` and carries further text (a type token glued to
the hyphen).  With separate `-` entries the whole run stays one section
child (`bot - robot room-a - location` gives exactly one child), while a
run whose types arrive as `-robot` / `-location` right after a lone `-`
entry closes the groups `bot - robot` and `room-a - location` as the spec
describes. -/
theorem c7_amended :
    appendTypedBlockChildren
        [.atom "bot", .atom "-", .atom "robot", .atom "room-a", .atom "-", .atom "location"] =
      ["bot - robot room-a - location"] ∧
    appendTypedBlockChildren
        [.atom "bot", .atom "-", .atom "-robot", .atom "room-a", .atom "-", .atom "-location"] =
      ["bot - robot", "room-a - location"] := by
  refine ⟨by decide, by decide⟩

namespace Graph

/-- Polarity bookkeeping of the extractor under iterated `not` wrappers:
each wrapper flips the ambient flag. -/
theorem extractPredsGo_iterNot (name : String) (args : List PddlArg) :
    ∀ (n : Nat) (b : Bool),
      extractPredsGo (iterNot n (.pred name args)) b =
        [⟨.pred name args, b.xor (n % 2 == 1)⟩] := by
  intro n
  induction n with
  | zero => intro b; simp [iterNot, extractPredsGo]
  | succ n ih =>
    intro b
    rw [iterNot]
    rw [extractPredsGo]
    rw [ih (!b)]
    rcases Nat.mod_two_eq_zero_or_one n with h | h <;> simp [Nat.add_mod, h]

/-- C3: the predicate extractor flips an ambient negation flag at every
`not` wrapper and never undoes the flip, so a predicate under `n` enclosing
`not` wrappers is collected with `isNegated` equal to the parity of `n`: in
particular `(not (not p))` yields `p` unnegated and `(not (not (not p)))`
yields `p` negated. -/
theorem c3_negation_parity (name : String) (args : List PddlArg) (n : Nat) :
    extractAllPredicates [iterNot n (.pred name args)] =
      [⟨.pred name args, n % 2 == 1⟩] := by
  have h := extractPredsGo_iterNot name args n false
  simp [extractAllPredicates] at h ⊢
  simpa using h

end Graph

namespace Drawnix

theorem closeCount_nil : closeCount [] = 0 := rfl

theorem openCount_nil : openCount [] = 0 := rfl

theorem closeCount_cons (t : String) (ts : List String) :
    closeCount (t :: ts) = (if t = ")" then 1 else 0) + closeCount ts := by
  simp [closeCount, List.countP_cons]
  omega

theorem openCount_cons (t : String) (ts : List String) :
    openCount (t :: ts) = (if t = "(" then 1 else 0) + openCount ts := by
  simp [openCount, List.countP_cons]
  omega

/-- Running the stack loop over a prefix that never pops past the implicit
top-level list and ends with the stack about to be emptied: the next `)`
fails with the unexpected-closing-parenthesis error, whatever follows. -/
theorem parseGo_excess (pre : List String) :
    ∀ (rest : List String) (top : List SExpr) (stack : List (List SExpr)),
      (∀ n, closeCount (pre.take n) ≤ stack.length + openCount (pre.take n)) →
      closeCount pre = stack.length + openCount pre →
      parseGo (pre ++ ")" :: rest) top stack = .error .unexpectedClose := by
  induction pre with
  | nil =>
    intro rest top stack _ hbal
    rw [closeCount_nil, openCount_nil] at hbal
    have hstack : stack = [] := by
      cases stack with
      | nil => rfl
      | cons a l => simp at hbal
    subst hstack
    simp [parseGo]
  | cons t pre ih =>
    intro rest top stack hsafe hbal
    rw [closeCount_cons, openCount_cons] at hbal
    by_cases hopen : t = "("
    · subst hopen
      have hbal' : closeCount pre = (top :: stack).length + openCount pre := by
        simp at hbal ⊢; omega
      have hsafe' : ∀ n,
          closeCount (pre.take n) ≤ (top :: stack).length + openCount (pre.take n) := by
        intro n
        have h := hsafe (n + 1)
        rw [List.take_succ_cons, closeCount_cons, openCount_cons] at h
        simp at h ⊢
        omega
      simpa [parseGo] using ih rest [] (top :: stack) hsafe' hbal'
    · by_cases hclose : t = ")"
      · subst hclose
        have h1 := hsafe 1
        rw [List.take_succ_cons, List.take_zero, closeCount_cons, openCount_cons,
          closeCount_nil, openCount_nil] at h1
        simp at h1
        cases stack with
        | nil => simp at h1
        | cons parent tail =>
          have hbal' : closeCount pre = tail.length + openCount pre := by
            simp at hbal ⊢; omega
          have hsafe' : ∀ n,
              closeCount (pre.take n) ≤ tail.length + openCount (pre.take n) := by
            intro n
            have h := hsafe (n + 1)
            rw [List.take_succ_cons, closeCount_cons, openCount_cons] at h
            simp at h ⊢
            omega
          simpa [parseGo] using
            ih rest (SExpr.list top.reverse :: parent) tail hsafe' hbal'
      · have hbal' : closeCount pre = stack.length + openCount pre := by
          rw [if_neg hclose] at hbal
          rw [if_neg hopen] at hbal
          omega
        have hsafe' : ∀ n, closeCount (pre.take n) ≤ stack.length + openCount (pre.take n) := by
          intro n
          have h := hsafe (n + 1)
          rw [List.take_succ_cons, closeCount_cons, openCount_cons, if_neg hclose,
            if_neg hopen] at h
          omega
        simpa [parseGo, hopen, hclose] using
          ih rest (SExpr.atom t :: top) stack hsafe' hbal'

/-- Running the stack loop over a whole safe token sequence: the build
returns normally exactly when opens and closes balance out, and fails with
the unbalanced-parentheses error when open lists remain. -/
theorem parseGo_total (ts : List String) :
    ∀ (top : List SExpr) (stack : List (List SExpr)),
      (∀ n, closeCount (ts.take n) ≤ stack.length + openCount (ts.take n)) →
      (closeCount ts = stack.length + openCount ts →
        ∃ r, parseGo ts top stack = .ok r) ∧
      (closeCount ts < stack.length + openCount ts →
        parseGo ts top stack = .error .unbalanced) := by
  induction ts with
  | nil =>
    intro top stack _
    rw [closeCount_nil, openCount_nil]
    constructor
    · intro hbal
      have hstack : stack = [] := by
        cases stack with
        | nil => rfl
        | cons a l => simp at hbal
      subst hstack
      exact ⟨top.reverse, by simp [parseGo]⟩
    · intro hlt
      have hstack : ∃ a l, stack = a :: l := by
        cases stack with
        | nil => simp at hlt
        | cons a l => exact ⟨a, l, rfl⟩
      obtain ⟨a, l, rfl⟩ := hstack
      simp [parseGo]
  | cons t ts ih =>
    intro top stack hsafe
    by_cases hopen : t = "("
    · subst hopen
      have hsafe' : ∀ n,
          closeCount (ts.take n) ≤ (top :: stack).length + openCount (ts.take n) := by
        intro n
        have h := hsafe (n + 1)
        rw [List.take_succ_cons, closeCount_cons, openCount_cons] at h
        simp at h ⊢
        omega
      have ihh := ih [] (top :: stack) hsafe'
      constructor
      · intro hbal
        rw [closeCount_cons, openCount_cons] at hbal
        simp at hbal
        have := ihh.1 (by simp; omega)
        simpa [parseGo] using this
      · intro hlt
        rw [closeCount_cons, openCount_cons] at hlt
        simp at hlt
        have := ihh.2 (by simp; omega)
        simpa [parseGo] using this
    · by_cases hclose : t = ")"
      · subst hclose
        have h1 := hsafe 1
        rw [List.take_succ_cons, List.take_zero, closeCount_cons, openCount_cons,
          closeCount_nil, openCount_nil] at h1
        simp at h1
        cases stack with
        | nil => simp at h1
        | cons parent tail =>
          have hsafe' : ∀ n,
              closeCount (ts.take n) ≤ tail.length + openCount (ts.take n) := by
            intro n
            have h := hsafe (n + 1)
            rw [List.take_succ_cons, closeCount_cons, openCount_cons] at h
            simp at h ⊢
            omega
          have ihh := ih (SExpr.list top.reverse :: parent) tail hsafe'
          constructor
          · intro hbal
            rw [closeCount_cons, openCount_cons] at hbal
            simp at hbal
            have := ihh.1 (by omega)
            simpa [parseGo] using this
          · intro hlt
            rw [closeCount_cons, openCount_cons] at hlt
            simp at hlt
            have := ihh.2 (by omega)
            simpa [parseGo] using this
      · have hsafe' : ∀ n, closeCount (ts.take n) ≤ stack.length + openCount (ts.take n) := by
          intro n
          have h := hsafe (n + 1)
          rw [List.take_succ_cons, closeCount_cons, openCount_cons, if_neg hclose,
            if_neg hopen] at h
          omega
        have ihh := ih (SExpr.atom t :: top) stack hsafe'
        constructor
        · intro hbal
          rw [closeCount_cons, openCount_cons, if_neg hclose, if_neg hopen] at hbal
          have := ihh.1 (by omega)
          simpa [parseGo, hopen, hclose] using this
        · intro hlt
          rw [closeCount_cons, openCount_cons, if_neg hclose, if_neg hopen] at hlt
          have := ihh.2 (by omega)
          simpa [parseGo, hopen, hclose] using this

end Drawnix

open Drawnix in
/-- C5: the S-expression builder fails exactly on unbalanced input.  If a
prefix `pre` never has more `)` than `(` and balances exactly, the next `)`
is the first excess close and the build fails with the
unexpected-closing-parenthesis error whatever tokens follow (they are not
consumed); a fully consumed sequence with no excess close but unclosed
opens fails with the unbalanced-parentheses error; and a balanced sequence
returns normally. -/
theorem c5_builder_fails_exactly_on_unbalanced :
    (∀ pre rest : List String,
      (∀ n, closeCount (pre.take n) ≤ openCount (pre.take n)) →
      closeCount pre = openCount pre →
      parseTokensToSExpr (pre ++ ")" :: rest) = .error .unexpectedClose) ∧
    (∀ ts : List String,
      (∀ n, closeCount (ts.take n) ≤ openCount (ts.take n)) →
      closeCount ts < openCount ts →
      parseTokensToSExpr ts = .error .unbalanced) ∧
    (∀ ts : List String,
      (∀ n, closeCount (ts.take n) ≤ openCount (ts.take n)) →
      closeCount ts = openCount ts →
      ∃ r, parseTokensToSExpr ts = .ok r) := by
  refine ⟨?_, ?_, ?_⟩
  · intro pre rest hsafe hbal
    exact parseGo_excess pre rest [] [] (by simpa using hsafe) (by simpa using hbal)
  · intro ts hsafe hlt
    exact (parseGo_total ts [] [] (by simpa using hsafe)).2 (by simpa using hlt)
  · intro ts hsafe hbal
    exact (parseGo_total ts [] [] (by simpa using hsafe)).1 (by simpa using hbal)

open Drawnix in
/-- C5 witness: the three branches of the claim at concrete inputs — `)` is
an excess close at the start, `(` leaves an unclosed list, and `( )` is
balanced. -/
theorem c5_witness :
    parseTokensToSExpr ([] ++ ")" :: ["x"]) = .error .unexpectedClose ∧
    parseTokensToSExpr ["("] = .error .unbalanced ∧
    ∃ r, parseTokensToSExpr ["(", ")"] = .ok r := by
  refine ⟨?_, ?_, ?_⟩
  · exact c5_builder_fails_exactly_on_unbalanced.1 [] ["x"]
      (by intro n; rw [List.take_nil]; decide) rfl
  · exact c5_builder_fails_exactly_on_unbalanced.2.1 ["("]
      (by
        intro n
        match n with
        | 0 => decide
        | Nat.succ m => rw [List.take_succ_cons, List.take_nil]; decide)
      (by decide)
  · exact c5_builder_fails_exactly_on_unbalanced.2.2 ["(", ")"]
      (by
        intro n
        match n with
        | 0 => decide
        | 1 => decide
        | Nat.succ (Nat.succ m) =>
          rw [List.take_succ_cons, List.take_succ_cons, List.take_nil]; decide)
      (by decide)

namespace Graph

/-- C2 counterexample: an action whose precondition expression list
mentions the predicate `p` twice produces two precondition-band ellipses
with the same rendered label `p` — the action diagram does not deduplicate
(only the problem diagram does). -/
theorem c2_counterexample :
    ((createActionGraph
        { name := "a", description := none, actionDescription := none, parameters := [],
          preconditions := [.pred "p" [], .pred "p" []], effects := [] }
        100 100 0).elements.countP (isPrecondNode "p")) = 2 := by decide

/-- Projection is blind to the `groupId` stamp. -/
theorem projElement_setGroup (g : String) (e : Element) :
    projElement (setGroup g e) = projElement e := rfl

/-- The projected body of an action block does not depend on the group
id (which enters only the description node's id and the stamps). -/
theorem actionBody_proj (a : PddlAction) (x y : ℚ) (g₁ g₂ : String) :
    (actionBody a x y g₁).map projElement = (actionBody a x y g₂).map projElement := by
  simp [actionBody, actionDescElem, createDescriptionNode, createGeometryNode, projElement]

/-- The projected element list of one action block does not depend on the
group counter, and the returned width never does. -/
theorem createActionGraph_proj (a : PddlAction) (x y : ℚ) (c₁ c₂ : Nat) :
    (createActionGraph a x y c₁).elements.map projElement =
      (createActionGraph a x y c₂).elements.map projElement ∧
    (createActionGraph a x y c₁).width = (createActionGraph a x y c₂).width := by
  constructor
  · show projElement _ :: _ = projElement _ :: _
    rw [List.map_map, List.map_map]
    have h1 : ∀ g, (projElement ∘ setGroup g) = projElement := by
      intro g; funext e; exact projElement_setGroup g e
    rw [h1, h1]
    have h2 := actionBody_proj a x y
      (sanitizeId ("group-" ++ a.name ++ "-" ++ natLit c₁))
      (sanitizeId ("group-" ++ a.name ++ "-" ++ natLit c₂))
    rw [h2]
    rfl
  · rfl

/-- The projected element list of a whole domain run does not depend on
the starting counter. -/
theorem createDomainGraphGo_proj (acts : List PddlAction) :
    ∀ (x : ℚ) (c₁ c₂ : Nat),
      (createDomainGraphGo acts x c₁).1.map projElement =
        (createDomainGraphGo acts x c₂).1.map projElement := by
  induction acts with
  | nil => intro x c₁ c₂; rfl
  | cons a rest ih =>
    intro x c₁ c₂
    show ((createActionGraph a x START_Y c₁).elements ++ _).map projElement =
      ((createActionGraph a x START_Y c₂).elements ++ _).map projElement
    rw [List.map_append, List.map_append, (createActionGraph_proj a x START_Y c₁ c₂).1]
    have hw : (createActionGraph a x START_Y c₁).width =
        (createActionGraph a x START_Y c₂).width := (createActionGraph_proj a x START_Y c₁ c₂).2
    have hcnt : (createActionGraph a x START_Y c₁).counter = c₁ + 1 := rfl
    rw [hw]
    congr 1
    exact ih _ _ _

/-- C9: the group counters influence only generated id strings, never
layout.  For every structured domain, runs of `convertPddlDomainToGraph`
from any two counter states produce element lists with identical
projections (same length, element kinds, shapes, geometric points, text
labels, fill and stroke styling — only id-valued fields may differ), and
runs from equal counter states produce fully identical output. -/
theorem c9_counter_independence (domain : PddlDomain) (c₁ c₂ : Nat) :
    ((convertPddlDomainToGraph domain c₁).1.map projElement =
      (convertPddlDomainToGraph domain c₂).1.map projElement) ∧
    (c₁ = c₂ → convertPddlDomainToGraph domain c₁ = convertPddlDomainToGraph domain c₂) := by
  refine ⟨?_, ?_⟩
  · exact createDomainGraphGo_proj domain.actions START_X c₁ c₂
  · intro h; rw [h]

/-- C9 witness: a concrete one-action domain, compiled from counters 0 and
5 (identical projections) and twice from counter 3 (identical output). -/
theorem c9_witness :
    ((convertPddlDomainToGraph
        ⟨"d", [], [⟨"a", none, none, [], [.pred "p" []], []⟩]⟩ 0).1.map projElement =
      (convertPddlDomainToGraph
        ⟨"d", [], [⟨"a", none, none, [], [.pred "p" []], []⟩]⟩ 5).1.map projElement) ∧
    convertPddlDomainToGraph ⟨"d", [], [⟨"a", none, none, [], [.pred "p" []], []⟩]⟩ 3 =
      convertPddlDomainToGraph ⟨"d", [], [⟨"a", none, none, [], [.pred "p" []], []⟩]⟩ 3 :=
  ⟨(c9_counter_independence _ 0 5).1, (c9_counter_independence _ 3 3).2 rfl⟩

end Graph

namespace Graph

theorem natLitCharsGo_congr :
    ∀ (f₁ : Nat) {f₂ n : Nat}, n ≤ f₁ → n ≤ f₂ →
      natLitCharsGo f₁ n = natLitCharsGo f₂ n := by
  intro f₁
  induction f₁ with
  | zero =>
    intro f₂ n h1 h2
    have hn : n = 0 := Nat.le_zero.mp h1
    subst hn
    cases f₂ with
    | zero => rfl
    | succ g => simp [natLitCharsGo]
  | succ f ih =>
    intro f₂ n h1 h2
    cases f₂ with
    | zero =>
      have hn : n = 0 := Nat.le_zero.mp h2
      subst hn
      simp [natLitCharsGo]
    | succ g =>
      by_cases hlt : n < 10
      · simp [natLitCharsGo, hlt]
      · have hrec : n / 10 < n := Nat.div_lt_self (by omega) (by omega)
        simp only [natLitCharsGo, if_neg hlt]
        rw [@ih g (n / 10) (by omega) (by omega)]

/-- The recursive unfolding of the decimal rendering. -/
theorem natLitChars_unfold (n : Nat) :
    natLitChars n =
      if n < 10 then [digitChar n]
      else natLitChars (n / 10) ++ [digitChar (n % 10)] := by
  cases n with
  | zero => simp [natLitChars, natLitCharsGo]
  | succ m =>
    by_cases hlt : m + 1 < 10
    · simp [natLitChars, natLitCharsGo, hlt]
    · have hrec : (m + 1) / 10 < m + 1 := Nat.div_lt_self (by omega) (by omega)
      simp only [natLitChars, natLitCharsGo, if_neg hlt]
      rw [@natLitCharsGo_congr m ((m + 1) / 10) ((m + 1) / 10) (by omega) (by omega)]

theorem natLitChars_ne_nil (n : Nat) : natLitChars n ≠ [] := by
  rw [natLitChars_unfold]
  split <;> simp

theorem digitChar_isDigit (n : Nat) : isAsciiDigit (digitChar n) = true := by
  have h : n % 10 < 10 := Nat.mod_lt _ (by norm_num)
  unfold digitChar
  set m := n % 10 with hm
  interval_cases m <;> decide

theorem natLitChars_digits (n : Nat) : ∀ c ∈ natLitChars n, isAsciiDigit c = true := by
  induction n using Nat.strong_induction_on with
  | _ n ih =>
    rw [natLitChars_unfold]
    split
    · intro c hc
      simp at hc
      subst hc
      exact digitChar_isDigit n
    · intro c hc
      rcases List.mem_append.mp hc with h | h
      · exact ih (n / 10) (Nat.div_lt_self (by omega) (by omega)) c h
      · simp at h
        subst h
        exact digitChar_isDigit (n % 10)

theorem digitChar_toNat (m : Nat) : (digitChar m).toNat = 48 + m % 10 := by
  have h : m % 10 < 10 := Nat.mod_lt _ (by norm_num)
  unfold digitChar
  set k := m % 10 with hk
  interval_cases k <;> decide

theorem natLitChars_decode (n : Nat) :
    (natLitChars n).foldl (fun a c => 10 * a + (c.toNat - 48)) 0 = n := by
  induction n using Nat.strong_induction_on with
  | _ n ih =>
    rw [natLitChars_unfold]
    split
    · rename_i hn
      simp [digitChar_toNat]
      omega
    · rename_i hn
      rw [List.foldl_append]
      rw [ih (n / 10) (Nat.div_lt_self (by omega) (by omega))]
      simp [digitChar_toNat]
      omega

theorem natLitChars_injective : ∀ {m n : Nat}, natLitChars m = natLitChars n → m = n := by
  intro m n h
  have hm := natLitChars_decode m
  have hn := natLitChars_decode n
  rw [h] at hm
  omega

end Graph

namespace Graph

/-- A take-prefix determines the characters of the underlying list. -/
theorem get?_of_take_pfx {l p : List Char} (h : l.take p.length = p) {k : Nat}
    (hk : k < p.length) : l.get? k = p.get? k := by
  rw [← h]
  exact (List.get?_take hk).symm

/-- Two take-prefixes of one list agree wherever both are defined. -/
theorem take_prefix_agree {l p q : List Char} (hp : l.take p.length = p)
    (hq : l.take q.length = q) {k : Nat} (hkp : k < p.length) (hkq : k < q.length) :
    p.get? k = q.get? k := by
  rw [← get?_of_take_pfx hp hkp, ← get?_of_take_pfx hq hkq]

/-- `takeWhile` over an append whose left part satisfies the predicate and
whose right part starts with a failing element. -/
theorem takeWhile_append_all {p : Char → Bool} :
    ∀ {a b : List Char}, (∀ c ∈ a, p c = true) →
      (∀ x, b.head? = some x → p x = false) → (a ++ b).takeWhile p = a := by
  intro a
  induction a with
  | nil =>
    intro b _ hb
    cases b with
    | nil => rfl
    | cons x xs =>
      have hx := hb x rfl
      simp [List.takeWhile, hx]
  | cons c rest ih =>
    intro b ha hb
    have hc : p c = true := ha c (by simp)
    simp [List.takeWhile, hc]
    exact ih (fun d hd => ha d (by simp [hd])) hb

/-- Digit suffixes after a `-` terminator are determined: if two such
decompositions produce the same character list, the digit parts and the
stems agree. -/
theorem digit_suffix_unique {t₁ t₂ d₁ d₂ : List Char}
    (h₁ : ∀ c ∈ d₁, isAsciiDigit c = true) (h₂ : ∀ c ∈ d₂, isAsciiDigit c = true)
    (hl₁ : t₁.getLast? = some '-') (hl₂ : t₂.getLast? = some '-')
    (h : t₁ ++ d₁ = t₂ ++ d₂) : t₁ = t₂ ∧ d₁ = d₂ := by
  have hr := congrArg List.reverse h
  rw [List.reverse_append, List.reverse_append] at hr
  have hw₁ : (d₁.reverse ++ t₁.reverse).takeWhile isAsciiDigit = d₁.reverse := by
    apply takeWhile_append_all
    · intro c hc
      exact h₁ c (List.mem_reverse.mp hc)
    · intro x hx
      rw [List.head?_reverse, hl₁] at hx
      cases hx
      decide
  have hw₂ : (d₂.reverse ++ t₂.reverse).takeWhile isAsciiDigit = d₂.reverse := by
    apply takeWhile_append_all
    · intro c hc
      exact h₂ c (List.mem_reverse.mp hc)
    · intro x hx
      rw [List.head?_reverse, hl₂] at hx
      cases hx
      decide
  have hd : d₁.reverse = d₂.reverse := by rw [← hw₁, ← hw₂, hr]
  have hd' : d₁ = d₂ := by
    have := congrArg List.reverse hd
    simpa using this
  constructor
  · subst hd'
    exact List.append_cancel_right h
  · exact hd'

/-- Two counter-shaped ids that are equal as strings carry the same counter
value and the same stem. -/
theorem counterIdSpec_eq {p₁ p₂ : String} {lo₁ hi₁ lo₂ hi₂ : Nat} {i₁ i₂ : String}
    (hs₁ : counterIdSpec p₁ lo₁ hi₁ i₁) (hs₂ : counterIdSpec p₂ lo₂ hi₂ i₂)
    (h : i₁ = i₂) :
    ∃ t k, lo₁ ≤ k ∧ k < hi₁ ∧ lo₂ ≤ k ∧ k < hi₂ ∧ i₁.data = t ++ natLitChars k ∧
      t.getLast? = some '-' ∧ t.take p₁.data.length = p₁.data ∧
      t.take p₂.data.length = p₂.data := by
  obtain ⟨t₁, k₁, hlo₁, hhi₁, hdata₁, hlast₁, htake₁⟩ := hs₁
  obtain ⟨t₂, k₂, hlo₂, hhi₂, hdata₂, hlast₂, htake₂⟩ := hs₂
  have hd : i₁.data = i₂.data := by rw [h]
  have heq : t₁ ++ natLitChars k₁ = t₂ ++ natLitChars k₂ := by
    rw [← hdata₁, ← hdata₂, hd]
  obtain ⟨ht, hdg⟩ := digit_suffix_unique (natLitChars_digits k₁) (natLitChars_digits k₂)
    hlast₁ hlast₂ heq
  have hk : k₁ = k₂ := natLitChars_injective hdg
  subst hk
  subst ht
  exact ⟨t₁, k₁, hlo₁, hhi₁, hlo₂, hhi₂, hdata₁, hlast₁, htake₁, htake₂⟩

/-- A take-prefix of the stem transfers to the whole id. -/
theorem counterIdSpec_take {p : String} {lo hi : Nat} {i : String}
    (hs : counterIdSpec p lo hi i) : i.data.take p.data.length = p.data := by
  obtain ⟨t, k, _, _, hdata, _, htake⟩ := hs
  have hlen : p.data.length ≤ t.length := by
    by_contra hlt
    push_neg at hlt
    have : t.take p.data.length = t := List.take_of_length_le (by omega)
    rw [this] at htake
    have := congrArg List.length htake
    omega
  rw [hdata, List.take_append_of_le_length hlen]
  exact htake

/-- Ids with clashing category prefixes differ: if the two prefixes
disagree at some position where both are defined, the ids cannot be
equal. -/
theorem counterIdSpec_ne_of_prefix {p₁ p₂ : String} {lo₁ hi₁ lo₂ hi₂ : Nat}
    {i₁ i₂ : String} (hs₁ : counterIdSpec p₁ lo₁ hi₁ i₁)
    (hs₂ : counterIdSpec p₂ lo₂ hi₂ i₂) (k : Nat) (hk₁ : k < p₁.data.length)
    (hk₂ : k < p₂.data.length) (hne : p₁.data.get? k ≠ p₂.data.get? k) : i₁ ≠ i₂ := by
  intro h
  have h₁ := counterIdSpec_take hs₁
  have h₂ := counterIdSpec_take hs₂
  rw [h] at h₁
  exact hne (take_prefix_agree h₁ h₂ hk₁ hk₂)

/-- Ids of the same category with distinct counters differ. -/
theorem counterIdSpec_ne_of_counter {p₁ p₂ : String} {lo₁ hi₁ lo₂ hi₂ : Nat}
    {i₁ i₂ : String} (hs₁ : counterIdSpec p₁ lo₁ hi₁ i₁)
    (hs₂ : counterIdSpec p₂ lo₂ hi₂ i₂) (hdisj : hi₁ ≤ lo₂) : i₁ ≠ i₂ := by
  intro h
  obtain ⟨t, k, hl1, hh1, hl2, hh2, _, _, _, _⟩ := counterIdSpec_eq hs₁ hs₂ h
  omega

end Graph

namespace Graph

theorem sanitizeId_data (s : String) : (sanitizeId s).data = s.data.map sanChar := rfl

theorem sanChar_digit {c : Char} (h : isAsciiDigit c = true) : sanChar c = c := by
  have hallowed : isAllowedIdChar c = true := by
    simp [isAsciiDigit] at h
    simp [isAllowedIdChar, h.1, h.2]
  simp [sanChar, hallowed]

theorem map_sanChar_natLitChars (k : Nat) : (natLitChars k).map sanChar = natLitChars k := by
  have h : ∀ c ∈ natLitChars k, sanChar c = id c :=
    fun c hc => sanChar_digit (natLitChars_digits k c hc)
  rw [List.map_congr_left h, List.map_id]

/-- Characters of a sanitized-stable prefix survive at the front of the
sanitized append. -/
theorem take_map_sanChar_prefix (p rest : String) (hfix : p.data.map sanChar = p.data) :
    ((p ++ rest).data.map sanChar).take p.data.length = p.data := by
  rw [String.data_append, List.map_append]
  have hlen : (p.data.map sanChar).length = p.data.length := by simp
  rw [← hlen, List.take_left, hfix]

/-- A trailing `-` survives sanitization of the stem. -/
theorem getLast_map_sanChar_dash {pre : String} (h : pre.data.getLast? = some '-') :
    (pre.data.map sanChar).getLast? = some '-' := by
  rw [List.getLast?_map, h]
  rfl

/-- The ids the numeric band mints satisfy their counter-id shape: the stem
is the sanitized prefix (ending in `-`), the digits are the counter. -/
theorem counterIdSpec_sanitized (p pre : String) (k lo hi : Nat) (hlo : lo ≤ k)
    (hhi : k < hi) (hpfx : ((pre.data.map sanChar).take p.data.length = p.data))
    (hlast : (pre.data.map sanChar).getLast? = some '-') :
    counterIdSpec p lo hi (sanitizeId (pre ++ natLit k)) := by
  refine ⟨pre.data.map sanChar, k, hlo, hhi, ?_, hlast, hpfx⟩
  rw [sanitizeId_data, String.data_append]
  show ((pre.data ++ (natLit k).data).map sanChar) = _
  rw [List.map_append]
  congr 1
  exact map_sanChar_natLitChars k

/-- The trailing `-` of stems of the form `… ++ "-" ++ counter`. -/
theorem data_getLast_dash (x : String) : ((x ++ "-").data).getLast? = some '-' := by
  rw [String.data_append]
  have : ("-" : String).data = ['-'] := rfl
  rw [this]
  exact List.getLast?_concat _

end Graph

namespace Graph

theorem strTakeIs_iff {s p : String} :
    strTakeIs s p = true ↔ s.data.take p.data.length = p.data := by
  simp [strTakeIs]

theorem counterIdSpec_strTakeIs {p : String} {lo hi : Nat} {i : String}
    (hs : counterIdSpec p lo hi i) : strTakeIs i p = true :=
  strTakeIs_iff.mpr (counterIdSpec_take hs)

theorem counterIdSpec_mono {p : String} {lo hi lo' hi' : Nat} {i : String}
    (hs : counterIdSpec p lo hi i) (hlo : lo' ≤ lo) (hhi : hi ≤ hi') :
    counterIdSpec p lo' hi' i := by
  obtain ⟨t, k, h1, h2, h3, h4, h5⟩ := hs
  exact ⟨t, k, le_trans hlo h1, lt_of_lt_of_le h2 hhi, h3, h4, h5⟩

theorem counterIdSpec_head {p : String} {lo hi : Nat} {i : String} {c : Char}
    (hs : counterIdSpec p lo hi i) (hc : p.data.get? 0 = some c) :
    i.data.get? 0 = some c := by
  have h := counterIdSpec_take hs
  have hlen : 0 < p.data.length := by
    cases hp : p.data with
    | nil => rw [hp] at hc; simp at hc
    | cons a l => simp [hp]
  rw [get?_of_take_pfx h hlen]
  exact hc

theorem counterIdSpec_ne_of_head {p₁ p₂ : String} {lo₁ hi₁ lo₂ hi₂ : Nat}
    {i₁ i₂ : String} (hs₁ : counterIdSpec p₁ lo₁ hi₁ i₁)
    (hs₂ : counterIdSpec p₂ lo₂ hi₂ i₂) {c₁ c₂ : Char}
    (h₁ : p₁.data.get? 0 = some c₁) (h₂ : p₂.data.get? 0 = some c₂)
    (hne : c₁ ≠ c₂) : i₁ ≠ i₂ := by
  intro h
  have a₁ := counterIdSpec_head hs₁ h₁
  have a₂ := counterIdSpec_head hs₂ h₂
  rw [h, a₂] at a₁
  exact hne (Option.some.inj a₁.symm)

/-- Counter-id shape of an id minted as `sanitizeId(pre ++ counter)` where
the whole sanitized stem is the tracked prefix. -/
theorem counterIdSpec_mint_full (pre : String) (lo hi k : Nat) (hlo : lo ≤ k)
    (hhi : k < hi) (hlast : pre.data.getLast? = some '-') :
    counterIdSpec (sanitizeId pre) lo hi (sanitizeId (pre ++ natLit k)) := by
  refine ⟨pre.data.map sanChar, k, hlo, hhi, ?_, getLast_map_sanChar_dash hlast, ?_⟩
  · rw [sanitizeId_data, String.data_append, List.map_append]
    congr 1
    exact map_sanChar_natLitChars k
  · rw [sanitizeId_data]
    exact List.take_length _

/-- Counter-id shape of a minted id whose stem extends the tracked literal
prefix. -/
theorem counterIdSpec_mint (p pre : String) {r : List Char} (lo hi k : Nat)
    (hlo : lo ≤ k) (hhi : k < hi) (hdata : pre.data = p.data ++ r)
    (hfix : p.data.map sanChar = p.data) (hlast : pre.data.getLast? = some '-') :
    counterIdSpec p lo hi (sanitizeId (pre ++ natLit k)) := by
  apply counterIdSpec_sanitized p pre k lo hi hlo hhi
  · rw [hdata, List.map_append, hfix, List.take_left]
  · exact getLast_map_sanChar_dash hlast

theorem numGeomOk_mono {l o f l' o' f' : Nat} {e : Element} (h : numGeomOk l o f e)
    (hl : l ≤ l') (ho : o ≤ o') (hf : f ≤ f') : numGeomOk l' o' f' e := by
  rcases h with ⟨p1, p2, lbl, hb, hs⟩ | ⟨p1, p2, lbl, fill, hc, hb, hs⟩ | ⟨p1, p2, lbl, hb, hs⟩
  · exact Or.inl ⟨p1, p2, lbl, hb, counterIdSpec_mono hs (le_refl 0) hl⟩
  · exact Or.inr (Or.inl ⟨p1, p2, lbl, fill, hc, hb, counterIdSpec_mono hs (le_refl 0) ho⟩)
  · exact Or.inr (Or.inr ⟨p1, p2, lbl, hb, counterIdSpec_mono hs (le_refl 0) hf⟩)

theorem numArrowOk_mono {A : String} {params : List (String × GraphNodeInfo)}
    {elems elems' : List Element} {eB oB eB' oB' : Nat} {e : Element}
    (h : numArrowOk A params elems eB oB e) (hsub : ∀ x ∈ elems, x ∈ elems')
    (he : eB ≤ eB') (ho : oB ≤ oB') : numArrowOk A params elems' eB' oB' e := by
  obtain ⟨eid, egid, ebody⟩ := e
  cases ebody with
  | arrowLine p1 p2 sE tE sc sw op txts =>
    obtain ⟨h1, h2, h3, h4, h5⟩ := h
    refine ⟨counterIdSpec_mono h1 (le_refl 0) he, counterIdSpec_mono h2 (le_refl 0) ho, ?_, ?_, h5⟩
    · obtain ⟨g, hg, hgg, hgi⟩ := h3
      exact ⟨g, hsub g hg, hgg, hgi⟩
    · rcases h4 with ⟨g, hg, hgg, hgi, hpf⟩ | hp
      · exact Or.inl ⟨g, hsub g hg, hgg, hgi, hpf⟩
      · exact Or.inr hp
  | geometry sh p1 p2 an opc fl st sw t d => exact h.elim
  | group d dat => exact h.elim

theorem numArrowOk_id_spec {A : String} {params : List (String × GraphNodeInfo)}
    {elems : List Element} {eB oB : Nat} {e : Element}
    (h : numArrowOk A params elems eB oB e) :
    counterIdSpec (sanitizeId ("edge-" ++ A ++ "-numeric-")) 0 eB e.id := by
  obtain ⟨eid, egid, ebody⟩ := e
  cases ebody with
  | arrowLine p1 p2 sE tE sc sw op txts => exact h.1
  | geometry sh p1 p2 an opc fl st sw t d => exact h.elim
  | group d dat => exact h.elim

theorem numArrowOk_isArrow {A : String} {params : List (String × GraphNodeInfo)}
    {elems : List Element} {eB oB : Nat} {e : Element}
    (h : numArrowOk A params elems eB oB e) : e.isArrow = true := by
  obtain ⟨eid, egid, ebody⟩ := e
  cases ebody with
  | arrowLine p1 p2 sE tE sc sw op txts => rfl
  | geometry sh p1 p2 an opc fl st sw t d => exact h.elim
  | group d dat => exact h.elim

/-- Head character of the numeric-edge id prefix. -/
theorem edgeNumPrefix_head (A : String) :
    (sanitizeId ("edge-" ++ A ++ "-numeric-")).data.get? 0 = some 'e' := by
  rw [sanitizeId_data]
  have h : ("edge-" ++ A ++ "-numeric-").data = 'e' :: ("dge-".data ++ A.data ++ "-numeric-".data) := by
    simp [String.data_append]
  rw [h]
  rfl

end Graph

namespace Graph

/-- Every element the numeric band has accumulated carries one of the four
counter-id shapes. -/
theorem census_id_spec {A : String} {params : List (String × GraphNodeInfo)}
    {s : NumState} (hinv : NumInv A params s) {e : Element} (he : e ∈ s.elements) :
    counterIdSpec "literal-" 0 s.literalNodeCounter e.id ∨
    counterIdSpec "operator-" 0 s.operatorNodeCounter e.id ∨
    counterIdSpec "function-" 0 s.functionNodeCounter e.id ∨
    counterIdSpec (sanitizeId ("edge-" ++ A ++ "-numeric-")) 0 s.numericEdgeCounter e.id := by
  rcases hinv.1 e he with hg | ha
  · rcases hg with ⟨_, _, _, _, hs⟩ | ⟨_, _, _, _, _, _, hs⟩ | ⟨_, _, _, _, hs⟩
    · exact Or.inl hs
    · exact Or.inr (Or.inl hs)
    · exact Or.inr (Or.inr (Or.inl hs))
  · exact Or.inr (Or.inr (Or.inr (numArrowOk_id_spec ha)))

theorem fresh_literal {A : String} {params : List (String × GraphNodeInfo)}
    {s : NumState} (hinv : NumInv A params s) {hi : Nat} {nid : String}
    (hspec : counterIdSpec "literal-" s.literalNodeCounter hi nid) :
    ∀ e ∈ s.elements, e.id ≠ nid := by
  intro e he
  rcases census_id_spec hinv he with h | h | h | h
  · exact counterIdSpec_ne_of_counter h hspec (le_refl _)
  · exact counterIdSpec_ne_of_head h hspec rfl rfl (by decide)
  · exact counterIdSpec_ne_of_head h hspec rfl rfl (by decide)
  · exact counterIdSpec_ne_of_head h hspec (edgeNumPrefix_head A) rfl (by decide)

theorem fresh_operator {A : String} {params : List (String × GraphNodeInfo)}
    {s : NumState} (hinv : NumInv A params s) {hi : Nat} {nid : String}
    (hspec : counterIdSpec "operator-" s.operatorNodeCounter hi nid) :
    ∀ e ∈ s.elements, e.id ≠ nid := by
  intro e he
  rcases census_id_spec hinv he with h | h | h | h
  · exact counterIdSpec_ne_of_head h hspec rfl rfl (by decide)
  · exact counterIdSpec_ne_of_counter h hspec (le_refl _)
  · exact counterIdSpec_ne_of_head h hspec rfl rfl (by decide)
  · exact counterIdSpec_ne_of_head h hspec (edgeNumPrefix_head A) rfl (by decide)

theorem fresh_function {A : String} {params : List (String × GraphNodeInfo)}
    {s : NumState} (hinv : NumInv A params s) {hi : Nat} {nid : String}
    (hspec : counterIdSpec "function-" s.functionNodeCounter hi nid) :
    ∀ e ∈ s.elements, e.id ≠ nid := by
  intro e he
  rcases census_id_spec hinv he with h | h | h | h
  · exact counterIdSpec_ne_of_head h hspec rfl rfl (by decide)
  · exact counterIdSpec_ne_of_head h hspec rfl rfl (by decide)
  · exact counterIdSpec_ne_of_counter h hspec (le_refl _)
  · exact counterIdSpec_ne_of_head h hspec (edgeNumPrefix_head A) rfl (by decide)

theorem fresh_edge {A : String} {params : List (String × GraphNodeInfo)}
    {s : NumState} (hinv : NumInv A params s) {hi : Nat} {nid : String}
    (hspec : counterIdSpec (sanitizeId ("edge-" ++ A ++ "-numeric-"))
      s.numericEdgeCounter hi nid) :
    ∀ e ∈ s.elements, e.id ≠ nid := by
  intro e he
  rcases census_id_spec hinv he with h | h | h | h
  · exact counterIdSpec_ne_of_head h hspec rfl (edgeNumPrefix_head A) (by decide)
  · exact counterIdSpec_ne_of_head h hspec rfl (edgeNumPrefix_head A) (by decide)
  · exact counterIdSpec_ne_of_head h hspec rfl (edgeNumPrefix_head A) (by decide)
  · exact counterIdSpec_ne_of_counter h hspec (le_refl _)

theorem nodup_ids_append {l : List Element} {el : Element}
    (h : (l.map (fun e => e.id)).Nodup) (hf : ∀ e ∈ l, e.id ≠ el.id) :
    (((l ++ [el]).map (fun e => e.id))).Nodup := by
  rw [List.map_append, List.nodup_append]
  refine ⟨h, List.nodup_singleton _, ?_⟩
  intro a ha hb
  simp at hb
  obtain ⟨e, he, hei⟩ := List.mem_map.mp ha
  exact hf e he (by rw [hei, hb])

end Graph

namespace Graph

/-- Rebuilding the invariant after appending one geometry element. -/
theorem numInv_snoc_geom {A : String} {params : List (String × GraphNodeInfo)}
    {s : NumState} (hinv : NumInv A params s) {el : Element} {s' : NumState}
    (hel : s'.elements = s.elements ++ [el]) (hcount : NumCountersLe s s')
    (hedge : s'.numericEdgeCounter = s.numericEdgeCounter)
    (hok : numGeomOk s'.literalNodeCounter s'.operatorNodeCounter s'.functionNodeCounter el)
    (hfresh : ∀ e ∈ s.elements, e.id ≠ el.id)
    (hreg : ∀ kv ∈ s'.functionNodeMap,
      (∃ g ∈ s'.elements, g.isGeometry = true ∧ g.id = kv.2.info.id) ∧
        counterIdSpec "function-" 0 s'.functionNodeCounter kv.2.info.id)
    (hrec : ∀ r ∈ s'.functionNodes,
      (∃ g ∈ s'.elements, g.isGeometry = true ∧ g.id = r.info.id) ∧
        counterIdSpec "function-" 0 s'.functionNodeCounter r.info.id) :
    NumInv A params s' := by
  obtain ⟨hcensus, hnodup, hmapinv, hrecinv⟩ := hinv
  refine ⟨?_, ?_, hreg, hrec⟩
  · intro e he
    rw [hel] at he
    rcases List.mem_append.mp he with hm | hm
    · rcases hcensus e hm with hg | ha
      · exact Or.inl (numGeomOk_mono hg hcount.1 hcount.2.1 hcount.2.2.1)
      · refine Or.inr (numArrowOk_mono ha ?_ (le_of_eq hedge.symm) hcount.2.1)
        intro x hx
        rw [hel]
        exact List.mem_append.mpr (Or.inl hx)
    · have : e = el := by simpa using hm
      subst this
      exact Or.inl hok
  · rw [hel]
    exact nodup_ids_append hnodup hfresh

/-- Rebuilding the invariant after appending one arrow element. -/
theorem numInv_snoc_arrow {A : String} {params : List (String × GraphNodeInfo)}
    {s : NumState} (hinv : NumInv A params s) {el : Element} {s' : NumState}
    (hel : s'.elements = s.elements ++ [el])
    (hlit : s'.literalNodeCounter = s.literalNodeCounter)
    (hop : s'.operatorNodeCounter = s.operatorNodeCounter)
    (hfc : s'.functionNodeCounter = s.functionNodeCounter)
    (hedge : s'.numericEdgeCounter = s.numericEdgeCounter + 1)
    (hok : numArrowOk A params s'.elements s'.numericEdgeCounter s'.operatorNodeCounter el)
    (hfresh : ∀ e ∈ s.elements, e.id ≠ el.id)
    (hmap : s'.functionNodeMap = s.functionNodeMap)
    (hfns : s'.functionNodes = s.functionNodes) :
    NumInv A params s' := by
  obtain ⟨hcensus, hnodup, hmapinv, hrecinv⟩ := hinv
  have hsub : ∀ x ∈ s.elements, x ∈ s'.elements := by
    intro x hx
    rw [hel]
    exact List.mem_append.mpr (Or.inl hx)
  refine ⟨?_, ?_, ?_, ?_⟩
  · intro e he
    rw [hel] at he
    rcases List.mem_append.mp he with hm | hm
    · rcases hcensus e hm with hg | ha
      · exact Or.inl (numGeomOk_mono hg (le_of_eq hlit.symm) (le_of_eq hop.symm)
          (le_of_eq hfc.symm))
      · exact Or.inr (numArrowOk_mono ha hsub (by omega) (le_of_eq hop.symm))
    · have : e = el := by simpa using hm
      subst this
      exact Or.inr hok
  · rw [hel]
    exact nodup_ids_append hnodup hfresh
  · intro kv hkv
    rw [hmap] at hkv
    obtain ⟨⟨g, hg, hgg, hgi⟩, hspec⟩ := hmapinv kv hkv
    exact ⟨⟨g, hsub g hg, hgg, hgi⟩, by rw [hfc]; exact hspec⟩
  · intro r hr
    rw [hfns] at hr
    obtain ⟨⟨g, hg, hgg, hgi⟩, hspec⟩ := hrecinv r hr
    exact ⟨⟨g, hsub g hg, hgg, hgi⟩, by rw [hfc]; exact hspec⟩

end Graph

namespace Graph

theorem numCreateLiteral_step (A : String) (params : List (String × GraphNodeInfo))
    (x y : ℚ) (label suffix : String) (s : NumState) (hinv : NumInv A params s) :
    NumEvolves A params s (numCreateLiteral A x y label suffix s).2 ∧
    counterIdSpec "literal-" s.literalNodeCounter
      ((numCreateLiteral A x y label suffix s).2.literalNodeCounter)
      (numCreateLiteral A x y label suffix s).1.id ∧
    ∃ g ∈ (numCreateLiteral A x y label suffix s).2.elements,
      g.isGeometry = true ∧ g.id = (numCreateLiteral A x y label suffix s).1.id := by
  obtain ⟨px, py, hel, hid⟩ :
      ∃ px py, (numCreateLiteral A x y label suffix s).2.elements =
        s.elements ++ [createPredicateNode label px py
          (sanitizeId ("literal-" ++ A ++ "-" ++ suffix ++ "-" ++
            natLit s.literalNodeCounter)) LITERAL_NODE_COLOR] ∧
        (numCreateLiteral A x y label suffix s).1.id =
          sanitizeId ("literal-" ++ A ++ "-" ++ suffix ++ "-" ++
            natLit s.literalNodeCounter) :=
    ⟨_, _, rfl, rfl⟩
  have hspec : counterIdSpec "literal-" s.literalNodeCounter (s.literalNodeCounter + 1)
      (sanitizeId ("literal-" ++ A ++ "-" ++ suffix ++ "-" ++ natLit s.literalNodeCounter)) := by
    apply counterIdSpec_mint "literal-" ("literal-" ++ A ++ "-" ++ suffix ++ "-")
      s.literalNodeCounter (s.literalNodeCounter + 1) s.literalNodeCounter (le_refl _)
      (Nat.lt_succ_self _)
    · show ("literal-" ++ A ++ "-" ++ suffix ++ "-" : String).data =
        ("literal-" : String).data ++ (A.data ++ ("-" : String).data ++ suffix.data ++
          ("-" : String).data)
      simp [String.data_append]
    · decide
    · exact data_getLast_dash ("literal-" ++ A ++ "-" ++ suffix)
  have hlitc : (numCreateLiteral A x y label suffix s).2.literalNodeCounter =
      s.literalNodeCounter + 1 := rfl
  have hcount : NumCountersLe s (numCreateLiteral A x y label suffix s).2 :=
    ⟨Nat.le_succ _, le_refl _, le_refl _, le_refl _⟩
  have hfresh : ∀ e ∈ s.elements,
      e.id ≠ (createPredicateNode label px py
        (sanitizeId ("literal-" ++ A ++ "-" ++ suffix ++ "-" ++
          natLit s.literalNodeCounter)) LITERAL_NODE_COLOR).id :=
    fresh_literal hinv hspec
  have hmem : createPredicateNode label px py
      (sanitizeId ("literal-" ++ A ++ "-" ++ suffix ++ "-" ++
        natLit s.literalNodeCounter)) LITERAL_NODE_COLOR ∈
      (numCreateLiteral A x y label suffix s).2.elements := by
    rw [hel]
    simp
  have hinv' : NumInv A params (numCreateLiteral A x y label suffix s).2 := by
    refine numInv_snoc_geom hinv hel hcount rfl ?_ hfresh ?_ ?_
    · refine Or.inl ⟨(px, py), (px + NODE_WIDTH, py + NODE_HEIGHT), label, rfl, ?_⟩
      rw [hlitc]
      exact counterIdSpec_mono hspec (Nat.zero_le _) (le_refl _)
    · intro kv hkv
      obtain ⟨⟨g, hg, hgg, hgi⟩, hsp⟩ := hinv.2.2.1 kv hkv
      refine ⟨⟨g, ?_, hgg, hgi⟩, hsp⟩
      rw [hel]
      exact List.mem_append.mpr (Or.inl hg)
    · intro rec hrec
      obtain ⟨⟨g, hg, hgg, hgi⟩, hsp⟩ := hinv.2.2.2 rec hrec
      refine ⟨⟨g, ?_, hgg, hgi⟩, hsp⟩
      rw [hel]
      exact List.mem_append.mpr (Or.inl hg)
  refine ⟨⟨hinv', hcount, ⟨_, hel⟩⟩, ?_, ?_⟩
  · rw [hid, hlitc]
    exact hspec
  · exact ⟨_, hmem, rfl, by rw [hid]; rfl⟩

end Graph

namespace Graph

theorem numCreateOperator_step (A : String) (params : List (String × GraphNodeInfo))
    (x y : ℚ) (label suffix fill : String) (s : NumState) (hinv : NumInv A params s)
    (hfill : fill = EFFECT_COLOR ∨ fill = OPERATOR_NODE_COLOR) :
    NumEvolves A params s (numCreateOperator A x y label suffix fill s).2 ∧
    counterIdSpec "operator-" s.operatorNodeCounter
      ((numCreateOperator A x y label suffix fill s).2.operatorNodeCounter)
      (numCreateOperator A x y label suffix fill s).1.id ∧
    ∃ g ∈ (numCreateOperator A x y label suffix fill s).2.elements,
      g.isGeometry = true ∧ g.id = (numCreateOperator A x y label suffix fill s).1.id := by
  obtain ⟨px, py, hel, hid⟩ :
      ∃ px py, (numCreateOperator A x y label suffix fill s).2.elements =
        s.elements ++ [createPredicateNode label px py
          (sanitizeId ("operator-" ++ A ++ "-" ++ suffix ++ "-" ++
            natLit s.operatorNodeCounter)) fill] ∧
        (numCreateOperator A x y label suffix fill s).1.id =
          sanitizeId ("operator-" ++ A ++ "-" ++ suffix ++ "-" ++
            natLit s.operatorNodeCounter) :=
    ⟨_, _, rfl, rfl⟩
  have hspec : counterIdSpec "operator-" s.operatorNodeCounter (s.operatorNodeCounter + 1)
      (sanitizeId ("operator-" ++ A ++ "-" ++ suffix ++ "-" ++
        natLit s.operatorNodeCounter)) := by
    apply counterIdSpec_mint "operator-" ("operator-" ++ A ++ "-" ++ suffix ++ "-")
      s.operatorNodeCounter (s.operatorNodeCounter + 1) s.operatorNodeCounter (le_refl _)
      (Nat.lt_succ_self _)
    · show ("operator-" ++ A ++ "-" ++ suffix ++ "-" : String).data =
        ("operator-" : String).data ++ (A.data ++ ("-" : String).data ++ suffix.data ++
          ("-" : String).data)
      simp [String.data_append]
    · decide
    · exact data_getLast_dash ("operator-" ++ A ++ "-" ++ suffix)
  have hopc : (numCreateOperator A x y label suffix fill s).2.operatorNodeCounter =
      s.operatorNodeCounter + 1 := rfl
  have hcount : NumCountersLe s (numCreateOperator A x y label suffix fill s).2 :=
    ⟨le_refl _, Nat.le_succ _, le_refl _, le_refl _⟩
  have hfresh : ∀ e ∈ s.elements,
      e.id ≠ (createPredicateNode label px py
        (sanitizeId ("operator-" ++ A ++ "-" ++ suffix ++ "-" ++
          natLit s.operatorNodeCounter)) fill).id :=
    fresh_operator hinv hspec
  have hmem : createPredicateNode label px py
      (sanitizeId ("operator-" ++ A ++ "-" ++ suffix ++ "-" ++
        natLit s.operatorNodeCounter)) fill ∈
      (numCreateOperator A x y label suffix fill s).2.elements := by
    rw [hel]
    simp
  have hinv' : NumInv A params (numCreateOperator A x y label suffix fill s).2 := by
    refine numInv_snoc_geom hinv hel hcount rfl ?_ hfresh ?_ ?_
    · refine Or.inr (Or.inl ⟨(px, py), (px + NODE_WIDTH, py + NODE_HEIGHT), label, fill,
        hfill, rfl, ?_⟩)
      rw [hopc]
      exact counterIdSpec_mono hspec (Nat.zero_le _) (le_refl _)
    · intro kv hkv
      obtain ⟨⟨g, hg, hgg, hgi⟩, hsp⟩ := hinv.2.2.1 kv hkv
      refine ⟨⟨g, ?_, hgg, hgi⟩, hsp⟩
      rw [hel]
      exact List.mem_append.mpr (Or.inl hg)
    · intro rec hrec
      obtain ⟨⟨g, hg, hgg, hgi⟩, hsp⟩ := hinv.2.2.2 rec hrec
      refine ⟨⟨g, ?_, hgg, hgi⟩, hsp⟩
      rw [hel]
      exact List.mem_append.mpr (Or.inl hg)
  refine ⟨⟨hinv', hcount, ⟨_, hel⟩⟩, ?_, ?_⟩
  · rw [hid, hopc]
    exact hspec
  · exact ⟨_, hmem, rfl, by rw [hid]; rfl⟩

end Graph

namespace Graph

theorem numEnsureFunction_step (A : String) (params : List (String × GraphNodeInfo))
    (x y : ℚ) (e : PddlExpr) (s : NumState) (hinv : NumInv A params s) :
    NumEvolves A params s (numEnsureFunction A x y e s).2 ∧
    counterIdSpec "function-" 0 ((numEnsureFunction A x y e s).2.functionNodeCounter)
      (numEnsureFunction A x y e s).1.id ∧
    ∃ g ∈ (numEnsureFunction A x y e s).2.elements,
      g.isGeometry = true ∧ g.id = (numEnsureFunction A x y e s).1.id := by
  rcases hm : (s.functionNodeMap.find? (fun p => p.1 == getFunctionNodeKey e)).map (·.2)
    with _ | existing
  · -- fresh node is minted
    obtain ⟨px, py, hel, hid, hmap, hfns, hfc⟩ :
        ∃ px py, (numEnsureFunction A x y e s).2.elements =
          s.elements ++ [createPredicateNode (formatFunctionLabelT e true) px py
            (sanitizeId ("function-" ++ A ++ "-" ++ sanitizeId (getFunctionNodeKey e) ++
              "-" ++ natLit s.functionNodeCounter)) FUNCTION_NODE_COLOR] ∧
          (numEnsureFunction A x y e s).1.id =
            sanitizeId ("function-" ++ A ++ "-" ++ sanitizeId (getFunctionNodeKey e) ++
              "-" ++ natLit s.functionNodeCounter) ∧
          (numEnsureFunction A x y e s).2.functionNodeMap =
            s.functionNodeMap ++ [(getFunctionNodeKey e,
              ⟨(numEnsureFunction A x y e s).1, e, formatFunctionLabelT e true⟩)] ∧
          (numEnsureFunction A x y e s).2.functionNodes =
            s.functionNodes ++ [(⟨(numEnsureFunction A x y e s).1, e,
              formatFunctionLabelT e true⟩ : FuncNodeRecord)] ∧
          (numEnsureFunction A x y e s).2.functionNodeCounter =
            s.functionNodeCounter + 1 := by
      simp only [numEnsureFunction, hm]
      exact ⟨_, _, rfl, rfl, rfl, rfl, rfl⟩
    have hspec : counterIdSpec "function-" s.functionNodeCounter (s.functionNodeCounter + 1)
        (sanitizeId ("function-" ++ A ++ "-" ++ sanitizeId (getFunctionNodeKey e) ++ "-" ++
          natLit s.functionNodeCounter)) := by
      apply counterIdSpec_mint "function-"
        ("function-" ++ A ++ "-" ++ sanitizeId (getFunctionNodeKey e) ++ "-")
        s.functionNodeCounter (s.functionNodeCounter + 1) s.functionNodeCounter (le_refl _)
        (Nat.lt_succ_self _)
      · show ("function-" ++ A ++ "-" ++ sanitizeId (getFunctionNodeKey e) ++ "-" : String).data =
          ("function-" : String).data ++ (A.data ++ ("-" : String).data ++
            (sanitizeId (getFunctionNodeKey e)).data ++ ("-" : String).data)
        simp [String.data_append]
      · decide
      · exact data_getLast_dash ("function-" ++ A ++ "-" ++ sanitizeId (getFunctionNodeKey e))
    have hlit : (numEnsureFunction A x y e s).2.literalNodeCounter =
        s.literalNodeCounter := by
      simp only [numEnsureFunction, hm]
      rfl
    have hop : (numEnsureFunction A x y e s).2.operatorNodeCounter =
        s.operatorNodeCounter := by
      simp only [numEnsureFunction, hm]
      rfl
    have hedge : (numEnsureFunction A x y e s).2.numericEdgeCounter =
        s.numericEdgeCounter := by
      simp only [numEnsureFunction, hm]
      rfl
    have hcount : NumCountersLe s (numEnsureFunction A x y e s).2 :=
      ⟨le_of_eq hlit.symm, le_of_eq hop.symm, by rw [hfc]; exact Nat.le_succ _,
        le_of_eq hedge.symm⟩
    have hfresh := fresh_function hinv hspec
    have hmem : createPredicateNode (formatFunctionLabelT e true) px py
        (sanitizeId ("function-" ++ A ++ "-" ++ sanitizeId (getFunctionNodeKey e) ++ "-" ++
          natLit s.functionNodeCounter)) FUNCTION_NODE_COLOR ∈
        (numEnsureFunction A x y e s).2.elements := by
      rw [hel]
      simp
    have hinv' : NumInv A params (numEnsureFunction A x y e s).2 := by
      refine numInv_snoc_geom hinv hel hcount hedge ?_ hfresh ?_ ?_
      · refine Or.inr (Or.inr ⟨(px, py), (px + NODE_WIDTH, py + NODE_HEIGHT),
          formatFunctionLabelT e true, rfl, ?_⟩)
        rw [hfc]
        exact counterIdSpec_mono hspec (Nat.zero_le _) (le_refl _)
      · intro kv hkv
        rw [hmap] at hkv
        rcases List.mem_append.mp hkv with hkv' | hkv'
        · obtain ⟨⟨g, hg, hgg, hgi⟩, hsp⟩ := hinv.2.2.1 kv hkv'
          refine ⟨⟨g, by rw [hel]; exact List.mem_append.mpr (Or.inl hg), hgg, hgi⟩, ?_⟩
          rw [hfc]
          exact counterIdSpec_mono hsp (le_refl 0) (Nat.le_succ _)
        · have hkv'' : kv = (getFunctionNodeKey e,
              (⟨(numEnsureFunction A x y e s).1, e, formatFunctionLabelT e true⟩ :
                FuncNodeRecord)) := by simpa using hkv'
          subst hkv''
          refine ⟨⟨_, hmem, rfl, by rw [hid]; rfl⟩, ?_⟩
          show counterIdSpec "function-" 0 _ (numEnsureFunction A x y e s).1.id
          rw [hid, hfc]
          exact counterIdSpec_mono hspec (Nat.zero_le _) (le_refl _)
      · intro rec hrec
        rw [hfns] at hrec
        rcases List.mem_append.mp hrec with hr' | hr'
        · obtain ⟨⟨g, hg, hgg, hgi⟩, hsp⟩ := hinv.2.2.2 rec hr'
          refine ⟨⟨g, by rw [hel]; exact List.mem_append.mpr (Or.inl hg), hgg, hgi⟩, ?_⟩
          rw [hfc]
          exact counterIdSpec_mono hsp (le_refl 0) (Nat.le_succ _)
        · have hr'' : rec = (⟨(numEnsureFunction A x y e s).1, e,
              formatFunctionLabelT e true⟩ : FuncNodeRecord) := by simpa using hr'
          subst hr''
          refine ⟨⟨_, hmem, rfl, by rw [hid]; rfl⟩, ?_⟩
          show counterIdSpec "function-" 0 _ (numEnsureFunction A x y e s).1.id
          rw [hid, hfc]
          exact counterIdSpec_mono hspec (Nat.zero_le _) (le_refl _)
    refine ⟨⟨hinv', hcount, ⟨_, hel⟩⟩, ?_, ?_⟩
    · rw [hid, hfc]
      exact counterIdSpec_mono hspec (Nat.zero_le _) (le_refl _)
    · exact ⟨_, hmem, rfl, by rw [hid]; rfl⟩
  · -- registry hit: the state is unchanged
    obtain ⟨kv, hfind, hkv2⟩ := Option.map_eq_some'.mp hm
    have hkvmem : kv ∈ s.functionNodeMap := List.mem_of_find?_eq_some hfind
    obtain ⟨⟨g, hg, hgg, hgi⟩, hsp⟩ := hinv.2.2.1 kv hkvmem
    have hres : numEnsureFunction A x y e s = (existing.info, s) := by
      simp only [numEnsureFunction, hm]
    rw [hres]
    refine ⟨⟨hinv, ⟨le_refl _, le_refl _, le_refl _, le_refl _⟩, ⟨[], by simp⟩⟩, ?_, ?_⟩
    · rw [← hkv2]
      exact hsp
    · rw [← hkv2]
      exact ⟨g, hg, hgg, hgi⟩

end Graph

namespace Graph

/-- A trailing `-` of the right part survives string append. -/
theorem data_getLast_str (x y : String) {c : Char} (hy : y.data.getLast? = some c) :
    ((x ++ y).data).getLast? = some c := by
  rw [String.data_append, List.getLast?_append, hy]
  rfl

theorem numCreateEdge_step (A : String) (params : List (String × GraphNodeInfo))
    (source target : GraphNodeInfo) (s : NumState) (hinv : NumInv A params s)
    (htspec : counterIdSpec "operator-" 0 s.operatorNodeCounter target.id)
    (htmem : ∃ g ∈ s.elements, g.isGeometry = true ∧ g.id = target.id)
    (hsrc : (∃ g ∈ s.elements, g.isGeometry = true ∧ g.id = source.id ∧
        (strTakeIs source.id "literal-" = true ∨ strTakeIs source.id "operator-" = true ∨
          strTakeIs source.id "function-" = true)) ∨
      (∃ kv ∈ params, kv.2.id = source.id))
    (hne : source.id ≠ target.id) :
    NumEvolves A params s (numCreateEdge A source target s) := by
  have hel : (numCreateEdge A source target s).elements =
      s.elements ++ [createArrowLine source target none
        (sanitizeId ("edge-" ++ A ++ "-numeric-" ++ natLit s.numericEdgeCounter))] := rfl
  have hedge : (numCreateEdge A source target s).numericEdgeCounter =
      s.numericEdgeCounter + 1 := rfl
  have hspec : counterIdSpec (sanitizeId ("edge-" ++ A ++ "-numeric-"))
      s.numericEdgeCounter (s.numericEdgeCounter + 1)
      (sanitizeId ("edge-" ++ A ++ "-numeric-" ++ natLit s.numericEdgeCounter)) := by
    apply counterIdSpec_mint_full ("edge-" ++ A ++ "-numeric-") s.numericEdgeCounter
      (s.numericEdgeCounter + 1) s.numericEdgeCounter (le_refl _) (Nat.lt_succ_self _)
    exact data_getLast_str ("edge-" ++ A) "-numeric-" (by decide)
  have hfresh := fresh_edge hinv hspec
  have hsub : ∀ g ∈ s.elements, g ∈ (numCreateEdge A source target s).elements := by
    intro g hg
    rw [hel]
    exact List.mem_append.mpr (Or.inl hg)
  have hok : numArrowOk A params (numCreateEdge A source target s).elements
      (numCreateEdge A source target s).numericEdgeCounter
      (numCreateEdge A source target s).operatorNodeCounter
      (createArrowLine source target none
        (sanitizeId ("edge-" ++ A ++ "-numeric-" ++ natLit s.numericEdgeCounter))) := by
    refine ⟨counterIdSpec_mono hspec (Nat.zero_le _) (le_of_eq hedge.symm), htspec, ?_, ?_, hne⟩
    · obtain ⟨g, hg, hgg, hgi⟩ := htmem
      exact ⟨g, hsub g hg, hgg, hgi⟩
    · rcases hsrc with ⟨g, hg, hgg, hgi, hpf⟩ | hp
      · exact Or.inl ⟨g, hsub g hg, hgg, hgi, hpf⟩
      · exact Or.inr hp
  have hinv' : NumInv A params (numCreateEdge A source target s) :=
    numInv_snoc_arrow hinv hel rfl rfl rfl hedge hok hfresh rfl rfl
  exact ⟨hinv', ⟨le_refl _, le_refl _, le_refl _, Nat.le_succ _⟩, ⟨_, hel⟩⟩

end Graph

namespace Graph

theorem numEvolves_refl {A : String} {params : List (String × GraphNodeInfo)}
    {s : NumState} (hinv : NumInv A params s) : NumEvolves A params s s :=
  ⟨hinv, ⟨le_refl _, le_refl _, le_refl _, le_refl _⟩, ⟨[], by simp⟩⟩

theorem numEvolves_trans {A : String} {params : List (String × GraphNodeInfo)}
    {s s' s'' : NumState} (h₁ : NumEvolves A params s s') (h₂ : NumEvolves A params s' s'') :
    NumEvolves A params s s'' := by
  obtain ⟨hinv₁, hc₁, t₁, ht₁⟩ := h₁
  obtain ⟨hinv₂, hc₂, t₂, ht₂⟩ := h₂
  refine ⟨hinv₂, ?_, ⟨t₁ ++ t₂, ?_⟩⟩
  · obtain ⟨a1, a2, a3, a4⟩ := hc₁
    obtain ⟨b1, b2, b3, b4⟩ := hc₂
    exact ⟨le_trans a1 b1, le_trans a2 b2, le_trans a3 b3, le_trans a4 b4⟩
  · rw [ht₂, ht₁, List.append_assoc]

theorem parentOk_transport {A : String} {params : List (String × GraphNodeInfo)}
    {s s' : NumState} {p : GraphNodeInfo} (hp : ParentOk s p)
    (h : NumEvolves A params s s') : ParentOk s' p := by
  obtain ⟨hspec, g, hg, hgg, hgi⟩ := hp
  obtain ⟨_, hc, t, ht⟩ := h
  refine ⟨counterIdSpec_mono hspec (le_refl 0) hc.2.1, g, ?_, hgg, hgi⟩
  rw [ht]
  exact List.mem_append.mpr (Or.inl hg)

theorem ne_of_get0 {i₁ i₂ : String} {c₁ c₂ : Char} (h₁ : i₁.data.get? 0 = some c₁)
    (h₂ : i₂.data.get? 0 = some c₂) (hne : c₁ ≠ c₂) : i₁ ≠ i₂ := by
  intro h
  rw [h, h₂] at h₁
  exact hne (Option.some.inj h₁.symm)

theorem strTakeIs_get0 {i p : String} {c : Char} (h : strTakeIs i p = true)
    (hc : p.data.get? 0 = some c) : i.data.get? 0 = some c := by
  have hlen : 0 < p.data.length := by
    cases hp : p.data with
    | nil => rw [hp] at hc; simp at hc
    | cons a l => simp [hp]
  rw [get?_of_take_pfx (strTakeIs_iff.mp h) hlen]
  exact hc

/-- The operator node just minted is a valid parent for the recursive
calls. -/
theorem parentOk_of_operator_step {A : String} {params : List (String × GraphNodeInfo)}
    {x y : ℚ} {label suffix fill : String} {s : NumState} (hinv : NumInv A params s)
    (hfill : fill = EFFECT_COLOR ∨ fill = OPERATOR_NODE_COLOR) :
    ParentOk (numCreateOperator A x y label suffix fill s).2
      (numCreateOperator A x y label suffix fill s).1 := by
  obtain ⟨hev, hspec, hmem⟩ := numCreateOperator_step A params x y label suffix fill s hinv hfill
  exact ⟨counterIdSpec_mono hspec (Nat.zero_le _) (le_refl _), hmem⟩

end Graph

namespace Graph

theorem mapGet_mem {m : List (String × GraphNodeInfo)} {k : String} {info : GraphNodeInfo}
    (h : mapGet m k = some info) : ∃ kv ∈ m, kv.2 = info := by
  obtain ⟨kv, hfind, hkv2⟩ := Option.map_eq_some'.mp h
  exact ⟨kv, List.mem_reverse.mp (List.mem_of_find?_eq_some hfind), hkv2⟩

theorem numOperatorFill_cases (e : PddlExpr) :
    numOperatorFill e = EFFECT_COLOR ∨ numOperatorFill e = OPERATOR_NODE_COLOR := by
  unfold numOperatorFill
  split
  · exact Or.inl rfl
  · exact Or.inr rfl

theorem litBranch_step (A : String) (params : List (String × GraphNodeInfo)) (x y : ℚ)
    (parent : GraphNodeInfo) (text sfx : String) (s : NumState)
    (hinv : NumInv A params s) (hp : ParentOk s parent) :
    NumEvolves A params s (numCreateEdge A (numCreateLiteral A x y text sfx s).1 parent
      (numCreateLiteral A x y text sfx s).2) := by
  obtain ⟨hev, hspec, hmem⟩ := numCreateLiteral_step A params x y text sfx s hinv
  have hp' := parentOk_transport hp hev
  refine numEvolves_trans hev (numCreateEdge_step A params _ parent _ hev.1 hp'.1 hp'.2 ?_ ?_)
  · obtain ⟨g, hg, hgg, hgi⟩ := hmem
    exact Or.inl ⟨g, hg, hgg, hgi, Or.inl (counterIdSpec_strTakeIs hspec)⟩
  · exact counterIdSpec_ne_of_head hspec hp'.1 rfl rfl (by decide)

theorem funcBranch_step (A : String) (params : List (String × GraphNodeInfo)) (x y : ℚ)
    (parent : GraphNodeInfo) (e : PddlExpr) (s : NumState)
    (hinv : NumInv A params s) (hp : ParentOk s parent) :
    NumEvolves A params s (numCreateEdge A (numEnsureFunction A x y e s).1 parent
      (numEnsureFunction A x y e s).2) := by
  obtain ⟨hev, hspec, hmem⟩ := numEnsureFunction_step A params x y e s hinv
  have hp' := parentOk_transport hp hev
  refine numEvolves_trans hev (numCreateEdge_step A params _ parent _ hev.1 hp'.1 hp'.2 ?_ ?_)
  · obtain ⟨g, hg, hgg, hgi⟩ := hmem
    exact Or.inl ⟨g, hg, hgg, hgi, Or.inr (Or.inr (counterIdSpec_strTakeIs hspec))⟩
  · exact counterIdSpec_ne_of_head hspec hp'.1 rfl rfl (by decide)

theorem numOpIntro_step (A : String) (params : List (String × GraphNodeInfo)) (x y : ℚ)
    (parent : GraphNodeInfo) (e : PddlExpr) (suffix : String) (s : NumState)
    (hinv : NumInv A params s) (hp : ParentOk s parent) :
    NumEvolves A params s (numOpIntro A x y parent e suffix s).2 ∧
    ParentOk (numOpIntro A x y parent e suffix s).2 (numOpIntro A x y parent e suffix s).1 := by
  obtain ⟨hev, hspec, hmem⟩ := numCreateOperator_step A params x y (numOperatorLabel e)
    ("operator-" ++ typeStr e ++ "-" ++ suffix) (numOperatorFill e) s hinv
    (numOperatorFill_cases e)
  have hp' := parentOk_transport hp hev
  have hne : (numCreateOperator A x y (numOperatorLabel e)
      ("operator-" ++ typeStr e ++ "-" ++ suffix) (numOperatorFill e) s).1.id ≠
      parent.id :=
    (counterIdSpec_ne_of_counter hp.1 hspec (le_refl _)).symm
  have hedge := numCreateEdge_step A params _ parent _ hev.1 hp'.1 hp'.2
    (Or.inl (by
      obtain ⟨g, hg, hgg, hgi⟩ := hmem
      exact ⟨g, hg, hgg, hgi, Or.inr (Or.inl (counterIdSpec_strTakeIs hspec))⟩)) hne
  refine ⟨numEvolves_trans hev hedge, ?_⟩
  exact parentOk_transport ⟨counterIdSpec_mono hspec (Nat.zero_le _) (le_refl _), hmem⟩ hedge

theorem handleTypedParamLike_step (A : String) (params : List (String × GraphNodeInfo))
    (x y : ℚ) (parent : GraphNodeInfo) (name : String) (tyO : Option String)
    (suffix : String) (s : NumState) (hmap : MapIdsPrefixed "param-" params)
    (hinv : NumInv A params s) (hp : ParentOk s parent) :
    NumEvolves A params s
      (match mapGet params name with
       | some paramNode => numCreateEdge A paramNode parent s
       | none =>
         let ls := numCreateLiteral A x y (typedParamLabel name tyO)
           ("param-" ++ name ++ "-" ++ suffix) s
         numCreateEdge A ls.1 parent ls.2) := by
  rcases hm : mapGet params name with _ | paramNode
  · exact litBranch_step A params x y parent (typedParamLabel name tyO)
      ("param-" ++ name ++ "-" ++ suffix) s hinv hp
  · obtain ⟨kv, hkv, hkv2⟩ := mapGet_mem hm
    refine numCreateEdge_step A params paramNode parent s hinv hp.1 hp.2
      (Or.inr ⟨kv, hkv, by rw [hkv2]⟩) ?_
    have h1 : strTakeIs paramNode.id "param-" = true := by
      rw [← hkv2]
      exact hmap kv hkv
    exact ne_of_get0 (strTakeIs_get0 h1 rfl) (counterIdSpec_head hp.1 rfl) (by decide)

end Graph

namespace Graph

/-- Reduction of `handleExprArg` on a value that is not of typed-parameter
shape: the function/number/operator chain. -/
theorem handleExprArg_red (A : String) (params : List (String × GraphNodeInfo))
    (x y : ℚ) (parent : GraphNodeInfo) (e : PddlExpr) (suffix : String) (s : NumState)
    (htv : typedParameterView (.expr e) = none) :
    handleExprArg A params x y parent e suffix s =
      if typeStr e = "function" then
        numCreateEdge A (numEnsureFunction A x y e s).1 parent (numEnsureFunction A x y e s).2
      else if typeStr e = "number" then
        numCreateEdge A
          (numCreateLiteral A x y
            (match e with
             | .numLit v => toString v
             | .composite _ _ _ _ _ v => jsValueText v
             | _ => "undefined") ("number-" ++ suffix) s).1 parent
          (numCreateLiteral A x y
            (match e with
             | .numLit v => toString v
             | .composite _ _ _ _ _ v => jsValueText v
             | _ => "undefined") ("number-" ++ suffix) s).2
      else if !(isPddlExpressionValue (.expr e)) then s
      else
        match e with
        | .pred _ as =>
          handleArgList A params x y (numOpIntro A x y parent e suffix s).1 as suffix 0
            (numOpIntro A x y parent e suffix s).2
        | .func _ as =>
          handleArgList A params x y (numOpIntro A x y parent e suffix s).1 as suffix 0
            (numOpIntro A x y parent e suffix s).2
        | .numeric _ as =>
          handleArgList A params x y (numOpIntro A x y parent e suffix s).1 as suffix 0
            (numOpIntro A x y parent e suffix s).2
        | .numLit _ => (numOpIntro A x y parent e suffix s).2
        | .notE a =>
          handleExprArg A params x y (numOpIntro A x y parent e suffix s).1 a
            (suffix ++ "-argument") (numOpIntro A x y parent e suffix s).2
        | .composite _ _ argsF argF chF _ =>
          let s2 := match argsF with
            | some as =>
              handleArgList A params x y (numOpIntro A x y parent e suffix s).1 as suffix 0
                (numOpIntro A x y parent e suffix s).2
            | none => (numOpIntro A x y parent e suffix s).2
          let s3 := match chF with
            | some cs =>
              handleChildList A params x y (numOpIntro A x y parent e suffix s).1 cs suffix
                0 s2
            | none => s2
          match argF with
          | some a =>
            handleExprArg A params x y (numOpIntro A x y parent e suffix s).1 a
              (suffix ++ "-argument") s3
          | none => s3 := by
  match e with
  | .pred nm as => rfl
  | .func nm as => rfl
  | .numeric op as => rfl
  | .numLit v => rfl
  | .notE a => rfl
  | .composite ty none none none none v => rfl
  | .composite ty none none none (some cs) v => rfl
  | .composite ty none none (some a) none v => rfl
  | .composite ty none none (some a) (some cs) v => rfl
  | .composite ty none (some as) none none v => rfl
  | .composite ty none (some as) none (some cs) v => rfl
  | .composite ty none (some as) (some a) none v => rfl
  | .composite ty none (some as) (some a) (some cs) v => rfl
  | .composite ty (some n) none none (some cs) v => rfl
  | .composite ty (some n) none (some a) none v => rfl
  | .composite ty (some n) none (some a) (some cs) v => rfl
  | .composite ty (some n) (some as) none none v => rfl
  | .composite ty (some n) (some as) none (some cs) v => rfl
  | .composite ty (some n) (some as) (some a) none v => rfl
  | .composite ty (some n) (some as) (some a) (some cs) v => rfl
  | .composite ty (some n) none none none v => simp [typedParameterView] at htv

/-- Reduction of `handleExprArg` on a typed-parameter-shaped value. -/
theorem handleExprArg_red_param (A : String) (params : List (String × GraphNodeInfo))
    (x y : ℚ) (parent : GraphNodeInfo) (e : PddlExpr) (suffix : String) (s : NumState)
    (name : String) (tyO : Option String)
    (htv : typedParameterView (.expr e) = some (name, tyO)) :
    handleExprArg A params x y parent e suffix s =
      match mapGet params name with
      | some paramNode => numCreateEdge A paramNode parent s
      | none =>
        numCreateEdge A
          (numCreateLiteral A x y (typedParamLabel name tyO)
            ("param-" ++ name ++ "-" ++ suffix) s).1 parent
          (numCreateLiteral A x y (typedParamLabel name tyO)
            ("param-" ++ name ++ "-" ++ suffix) s).2 := by
  match e with
  | .composite ty (some n) none none none v =>
    have h : n = name ∧ (some ty : Option String) = tyO := by
      simpa [typedParameterView] using htv
    obtain ⟨h1, h2⟩ := h
    subst h1
    subst h2
    rfl
  | .pred nm as => simp [typedParameterView] at htv
  | .func nm as => simp [typedParameterView] at htv
  | .numeric op as => simp [typedParameterView] at htv
  | .numLit v => simp [typedParameterView] at htv
  | .notE a => simp [typedParameterView] at htv
  | .composite ty none none none none v => simp [typedParameterView] at htv
  | .composite ty none none none (some cs) v => simp [typedParameterView] at htv
  | .composite ty none none (some a) none v => simp [typedParameterView] at htv
  | .composite ty none none (some a) (some cs) v => simp [typedParameterView] at htv
  | .composite ty none (some as) none none v => simp [typedParameterView] at htv
  | .composite ty none (some as) none (some cs) v => simp [typedParameterView] at htv
  | .composite ty none (some as) (some a) none v => simp [typedParameterView] at htv
  | .composite ty none (some as) (some a) (some cs) v => simp [typedParameterView] at htv
  | .composite ty (some n) none none (some cs) v => simp [typedParameterView] at htv
  | .composite ty (some n) none (some a) none v => simp [typedParameterView] at htv
  | .composite ty (some n) none (some a) (some cs) v => simp [typedParameterView] at htv
  | .composite ty (some n) (some as) none none v => simp [typedParameterView] at htv
  | .composite ty (some n) (some as) none (some cs) v => simp [typedParameterView] at htv
  | .composite ty (some n) (some as) (some a) none v => simp [typedParameterView] at htv
  | .composite ty (some n) (some as) (some a) (some cs) v => simp [typedParameterView] at htv

end Graph

namespace Graph

mutual

/-- The numeric band's `handleArgument` preserves the band invariant,
grows the counters monotonically and only appends elements. -/
theorem handleArgument_evolves (A : String) (params : List (String × GraphNodeInfo))
    (x y : ℚ) (parent : GraphNodeInfo) (arg : PddlArg) (suffix : String) (s : NumState)
    (hmap : MapIdsPrefixed "param-" params) (hinv : NumInv A params s)
    (hp : ParentOk s parent) :
    NumEvolves A params s (handleArgument A params x y parent arg suffix s) := by
  match arg with
  | .param name ty =>
    exact handleTypedParamLike_step A params x y parent name ty suffix s hmap hinv hp
  | .expr e =>
    exact handleExprArg_evolves A params x y parent e suffix s hmap hinv hp

/-- The expression-valued part of `handleArgument` preserves the band
invariant. -/
theorem handleExprArg_evolves (A : String) (params : List (String × GraphNodeInfo))
    (x y : ℚ) (parent : GraphNodeInfo) (e : PddlExpr) (suffix : String) (s : NumState)
    (hmap : MapIdsPrefixed "param-" params) (hinv : NumInv A params s)
    (hp : ParentOk s parent) :
    NumEvolves A params s (handleExprArg A params x y parent e suffix s) := by
  rcases htv : typedParameterView (.expr e) with _ | nt
  · rw [handleExprArg_red A params x y parent e suffix s htv]
    by_cases hc1 : typeStr e = "function"
    · rw [if_pos hc1]
      exact funcBranch_step A params x y parent e s hinv hp
    · rw [if_neg hc1]
      by_cases hc2 : typeStr e = "number"
      · rw [if_pos hc2]
        exact litBranch_step A params x y parent _ _ s hinv hp
      · rw [if_neg hc2]
        by_cases hc3 : (!(isPddlExpressionValue (PddlArg.expr e))) = true
        · rw [if_pos hc3]
          exact numEvolves_refl hinv
        · rw [if_neg hc3]
          match e with
          | .pred nm as =>
            obtain ⟨hev1, hp1⟩ := numOpIntro_step A params x y parent (.pred nm as)
              suffix s hinv hp
            exact numEvolves_trans hev1
              (handleArgList_evolves A params x y _ as suffix 0 _ hmap hev1.1 hp1)
          | .func nm as =>
            obtain ⟨hev1, hp1⟩ := numOpIntro_step A params x y parent (.func nm as)
              suffix s hinv hp
            exact numEvolves_trans hev1
              (handleArgList_evolves A params x y _ as suffix 0 _ hmap hev1.1 hp1)
          | .numeric op as =>
            obtain ⟨hev1, hp1⟩ := numOpIntro_step A params x y parent (.numeric op as)
              suffix s hinv hp
            exact numEvolves_trans hev1
              (handleArgList_evolves A params x y _ as suffix 0 _ hmap hev1.1 hp1)
          | .numLit v =>
            exact (numOpIntro_step A params x y parent (.numLit v) suffix s hinv hp).1
          | .notE a =>
            obtain ⟨hev1, hp1⟩ := numOpIntro_step A params x y parent (.notE a) suffix s
              hinv hp
            exact numEvolves_trans hev1
              (handleExprArg_evolves A params x y _ a (suffix ++ "-argument") _ hmap
                hev1.1 hp1)
          | .composite ty2 nm2 argsF argF2 chF v2 =>
            rcases argsF with _ | as <;> rcases argF2 with _ | a <;> rcases chF with _ | cs
            · exact (numOpIntro_step A params x y parent
                (.composite ty2 nm2 none none none v2) suffix s hinv hp).1
            · obtain ⟨hev1, hp1⟩ := numOpIntro_step A params x y parent
                (.composite ty2 nm2 none none (some cs) v2) suffix s hinv hp
              exact numEvolves_trans hev1
                (handleChildList_evolves A params x y _ cs suffix 0 _ hmap hev1.1 hp1)
            · obtain ⟨hev1, hp1⟩ := numOpIntro_step A params x y parent
                (.composite ty2 nm2 none (some a) none v2) suffix s hinv hp
              exact numEvolves_trans hev1
                (handleExprArg_evolves A params x y _ a (suffix ++ "-argument") _ hmap
                  hev1.1 hp1)
            · obtain ⟨hev1, hp1⟩ := numOpIntro_step A params x y parent
                (.composite ty2 nm2 none (some a) (some cs) v2) suffix s hinv hp
              have hev2 := handleChildList_evolves A params x y _ cs suffix 0 _ hmap
                hev1.1 hp1
              have hp2 := parentOk_transport hp1 hev2
              have hev3 := handleExprArg_evolves A params x y _ a (suffix ++ "-argument") _
                hmap hev2.1 hp2
              exact numEvolves_trans (numEvolves_trans hev1 hev2) hev3
            · obtain ⟨hev1, hp1⟩ := numOpIntro_step A params x y parent
                (.composite ty2 nm2 (some as) none none v2) suffix s hinv hp
              exact numEvolves_trans hev1
                (handleArgList_evolves A params x y _ as suffix 0 _ hmap hev1.1 hp1)
            · obtain ⟨hev1, hp1⟩ := numOpIntro_step A params x y parent
                (.composite ty2 nm2 (some as) none (some cs) v2) suffix s hinv hp
              have hev2 := handleArgList_evolves A params x y _ as suffix 0 _ hmap
                hev1.1 hp1
              have hp2 := parentOk_transport hp1 hev2
              have hev3 := handleChildList_evolves A params x y _ cs suffix 0 _ hmap
                hev2.1 hp2
              exact numEvolves_trans (numEvolves_trans hev1 hev2) hev3
            · obtain ⟨hev1, hp1⟩ := numOpIntro_step A params x y parent
                (.composite ty2 nm2 (some as) (some a) none v2) suffix s hinv hp
              have hev2 := handleArgList_evolves A params x y _ as suffix 0 _ hmap
                hev1.1 hp1
              have hp2 := parentOk_transport hp1 hev2
              have hev3 := handleExprArg_evolves A params x y _ a (suffix ++ "-argument") _
                hmap hev2.1 hp2
              exact numEvolves_trans (numEvolves_trans hev1 hev2) hev3
            · obtain ⟨hev1, hp1⟩ := numOpIntro_step A params x y parent
                (.composite ty2 nm2 (some as) (some a) (some cs) v2) suffix s hinv hp
              have hev2 := handleArgList_evolves A params x y _ as suffix 0 _ hmap
                hev1.1 hp1
              have hp2 := parentOk_transport hp1 hev2
              have hev3 := handleChildList_evolves A params x y _ cs suffix 0 _ hmap
                hev2.1 hp2
              have hp3 := parentOk_transport hp2 hev3
              have hev4 := handleExprArg_evolves A params x y _ a (suffix ++ "-argument") _
                hmap hev3.1 hp3
              exact numEvolves_trans (numEvolves_trans (numEvolves_trans hev1 hev2) hev3)
                hev4
  · rw [handleExprArg_red_param A params x y parent e suffix s nt.1 nt.2 (by
      rw [htv])]
    exact handleTypedParamLike_step A params x y parent nt.1 nt.2 suffix s hmap hinv hp

/-- The argument-list iteration preserves the band invariant. -/
theorem handleArgList_evolves (A : String) (params : List (String × GraphNodeInfo))
    (x y : ℚ) (parent : GraphNodeInfo) (args : List PddlArg) (suffix : String)
    (cidx : Nat) (s : NumState) (hmap : MapIdsPrefixed "param-" params)
    (hinv : NumInv A params s) (hp : ParentOk s parent) :
    NumEvolves A params s (handleArgList A params x y parent args suffix cidx s) := by
  match args with
  | [] => exact numEvolves_refl hinv
  | a :: rest =>
    have h1 := handleArgument_evolves A params x y parent a
      (suffix ++ "-arg-" ++ natLit cidx) s hmap hinv hp
    exact numEvolves_trans h1 (handleArgList_evolves A params x y parent rest suffix
      (cidx + 1) _ hmap h1.1 (parentOk_transport hp h1))

/-- The child-list iteration preserves the band invariant. -/
theorem handleChildList_evolves (A : String) (params : List (String × GraphNodeInfo))
    (x y : ℚ) (parent : GraphNodeInfo) (children : List PddlExpr) (suffix : String)
    (cidx : Nat) (s : NumState) (hmap : MapIdsPrefixed "param-" params)
    (hinv : NumInv A params s) (hp : ParentOk s parent) :
    NumEvolves A params s (handleChildList A params x y parent children suffix cidx s) := by
  match children with
  | [] => exact numEvolves_refl hinv
  | c :: rest =>
    have h1 := handleExprArg_evolves A params x y parent c
      (suffix ++ "-child-" ++ natLit cidx) s hmap hinv hp
    exact numEvolves_trans h1 (handleChildList_evolves A params x y parent rest suffix
      (cidx + 1) _ hmap h1.1 (parentOk_transport hp h1))

end

end Graph

namespace Graph

theorem strTakeIs_sanitized (p pre : String) {r : List Char}
    (hdata : pre.data = p.data ++ r) (hfix : p.data.map sanChar = p.data) :
    strTakeIs (sanitizeId pre) p = true := by
  rw [strTakeIs_iff, sanitizeId_data, hdata, List.map_append, hfix, List.take_left]

/-- The `forEach` driver over the collected numeric effects preserves the
band invariant. -/
theorem numTopLoop_evolves (A : String) (params : List (String × GraphNodeInfo))
    (x y : ℚ) (hmap : MapIdsPrefixed "param-" params) (nes : List PddlArg) :
    ∀ (idx : Nat) (s : NumState), NumInv A params s →
      NumEvolves A params s (numTopLoop A params x y nes idx s) := by
  induction nes with
  | nil =>
    intro idx s hinv
    exact numEvolves_refl hinv
  | cons ne rest ih =>
    intro idx s hinv
    obtain ⟨hev0, hspec0, hmem0⟩ := numCreateOperator_step A params x y
      (match (match (numericArgsOf ne).head? with
              | some (.expr e) => if typeStr e = "function" then some e else none
              | _ => none) with
       | some tf => numericTypeText ne ++ " " ++ formatFunctionLabelT tf false
       | none => numericTypeText ne)
      ("numeric-" ++ numericTypeText ne ++ "-" ++ natLit idx) EFFECT_COLOR s hinv
      (Or.inl rfl)
    have hpok := parentOk_transport
      (⟨counterIdSpec_mono hspec0 (Nat.zero_le _) (le_refl _), hmem0⟩ :
        ParentOk _ _) (numEvolves_refl hev0.1)
    have hev1 := handleArgList_evolves A params x y _ (numericArgsOf ne)
      ("numeric-" ++ natLit idx) 0 _ hmap hev0.1 hpok
    exact numEvolves_trans (numEvolves_trans hev0 hev1) (ih (idx + 1) _ hev1.1)

/-- The invariant holds of the band's empty starting state. -/
theorem numInv_init (A : String) (params : List (String × GraphNodeInfo)) (mEB : ℚ) :
    NumInv A params
      { elements := []
        numericNodeCount := 0
        numericEdgeCounter := 0
        operatorNodeCounter := 0
        literalNodeCounter := 0
        functionNodeCounter := 0
        functionNodeMap := []
        functionNodes := []
        maxElementBottom := mEB } := by
  refine ⟨?_, ?_, ?_, ?_⟩ <;> simp

/-- Every entry of the action parameter map carries a `param-` id. -/
theorem actionParamMap_prefixed (action : PddlAction) (x y : ℚ) :
    MapIdsPrefixed "param-" (actionParamMap action x y) := by
  intro kv hkv
  obtain ⟨pr, hpr, hkv2⟩ := List.mem_map.mp hkv
  obtain ⟨ip, hip, hpr2⟩ := List.mem_map.mp hpr
  rw [← hkv2, ← hpr2]
  show strTakeIs (sanitizeId ("param-" ++ action.name ++ "-" ++ ip.2.name)) "param-" = true
  apply strTakeIs_sanitized "param-" ("param-" ++ action.name ++ "-" ++ ip.2.name)
  · show ("param-" ++ action.name ++ "-" ++ ip.2.name : String).data =
      ("param-" : String).data ++ (action.name.data ++ ("-" : String).data ++ ip.2.name.data)
    simp [String.data_append]
  · decide

/-- The invariant holds of the finished numeric band of an action. -/
theorem actionNumeric_inv (action : PddlAction) (x y : ℚ) :
    NumInv action.name (actionParamMap action x y) (actionNumeric action x y) :=
  ((numTopLoop_evolves action.name (actionParamMap action x y) x
    (actionNumericStartY action y) (actionParamMap_prefixed action x y)
    (extractNumericEffects action.effects) 0 _
    (numInv_init action.name (actionParamMap action x y)
      (actionMaxBottomPreNumeric action x y))).1 : _)

end Graph

namespace Graph

theorem strTakeIs_false_of_get0 {i p : String} {c₁ c₂ : Char}
    (h₁ : i.data.get? 0 = some c₁) (h₂ : p.data.get? 0 = some c₂) (hne : c₁ ≠ c₂) :
    strTakeIs i p = false := by
  cases h : strTakeIs i p
  · rfl
  · exfalso
    have := strTakeIs_get0 h h₂
    rw [h₁] at this
    exact hne (Option.some.inj this)

/-- Arrows never count as band ellipses. -/
theorem isArrow_bands_false (l : String) (e : Element) (h : e.isArrow = true) :
    isPrecondNode l e = false ∧ isEffectNode l e = false := by
  obtain ⟨id, gid, body⟩ := e
  cases body with
  | arrowLine p1 p2 sE tE sc sw op txts => exact ⟨rfl, rfl⟩
  | geometry sh p1 p2 an opc fl st sw t d => simp [Element.isArrow] at h
  | group d dat => simp [Element.isArrow] at h

/-- Numeric-band geometry nodes never count as band ellipses: their fill is
never the precondition color, and their ids never start with
`predicate-`. -/
theorem numGeomOk_bands_false (l : String) {litB opB funB : Nat} {e : Element}
    (h : numGeomOk litB opB funB e) :
    isPrecondNode l e = false ∧ isEffectNode l e = false := by
  obtain ⟨id, gid, body⟩ := e
  rcases h with ⟨p1, p2, lbl, hb, hs⟩ | ⟨p1, p2, lbl, fill, hc, hb, hs⟩ | ⟨p1, p2, lbl, hb, hs⟩
  · simp only [Element.body] at hb
    subst hb
    have hid : strTakeIs id "predicate-" = false :=
      strTakeIs_false_of_get0 (counterIdSpec_head hs rfl) rfl (by decide)
    constructor
    · simp [isPrecondNode, LITERAL_NODE_COLOR, PRECONDITION_COLOR]
    · simp [isEffectNode, hid]
  · simp only [Element.body] at hb
    subst hb
    have hid : strTakeIs id "predicate-" = false :=
      strTakeIs_false_of_get0 (counterIdSpec_head hs rfl) rfl (by decide)
    constructor
    · rcases hc with hc | hc <;> subst hc <;>
        simp [isPrecondNode, EFFECT_COLOR, OPERATOR_NODE_COLOR, PRECONDITION_COLOR]
    · simp [isEffectNode, hid]
  · simp only [Element.body] at hb
    subst hb
    have hid : strTakeIs id "predicate-" = false :=
      strTakeIs_false_of_get0 (counterIdSpec_head hs rfl) rfl (by decide)
    constructor
    · simp [isPrecondNode, FUNCTION_NODE_COLOR, PRECONDITION_COLOR]
    · simp [isEffectNode, hid]

/-- Counting a property of the entry over an enumerated list. -/
theorem countP_enum {α : Type} (g : α → Bool) (l : List α) :
    l.enum.countP (fun ip => g ip.2) = l.countP g := by
  conv_rhs => rw [← List.enum_map_snd l]
  rw [List.countP_map]
  rfl

theorem outEdgeLoop_isArrow (pfx : String) (nodeMap : List (String × GraphNodeInfo))
    (info : GraphNodeInfo) :
    ∀ (names : List String) (k : Nat),
      ∀ e ∈ (outEdgeLoop pfx nodeMap info names k).1, e.isArrow = true := by
  intro names
  induction names with
  | nil => intro k e he; simp [outEdgeLoop] at he
  | cons a rest ih =>
    intro k e he
    rcases hm : mapGet nodeMap a with _ | target
    · rw [outEdgeLoop, hm] at he
      exact ih k e he
    · rw [outEdgeLoop, hm] at he
      rcases List.mem_cons.mp he with h | h
      · subst h; rfl
      · exact ih (k + 1) e h

theorem argEdgesForNode_isArrow (pfx : String) (nodeMap : List (String × GraphNodeInfo))
    (info : GraphNodeInfo) (expr : PddlExpr) (k : Nat) :
    ∀ e ∈ (argEdgesForNode pfx nodeMap info expr k).1, e.isArrow = true := by
  intro e he
  rw [argEdgesForNode] at he
  rcases hargs : extractExpressionArguments expr with _ | ⟨a0, rest⟩
  · rw [hargs] at he
    simp at he
  · rw [hargs] at he
    simp only at he
    rcases List.mem_append.mp he with h | h
    · rcases hm : mapGet nodeMap a0 with _ | firstNode
      · rw [hm] at h
        simp at h
      · rw [hm] at h
        simp at h
        subst h
        rfl
    · exact outEdgeLoop_isArrow pfx nodeMap info rest _ e h

theorem argEdgesLoop_isArrow (pfx : String) (nodeMap : List (String × GraphNodeInfo)) :
    ∀ (records : List (GraphNodeInfo × PddlExpr)) (k : Nat),
      ∀ e ∈ (argEdgesLoop pfx nodeMap records k).1, e.isArrow = true := by
  intro records
  induction records with
  | nil => intro k e he; simp [argEdgesLoop] at he
  | cons r rest ih =>
    intro k e he
    rw [argEdgesLoop] at he
    simp only at he
    rcases List.mem_append.mp he with h | h
    · exact argEdgesForNode_isArrow pfx nodeMap r.1 r.2 k e h
    · exact ih _ e h

end Graph

namespace Graph

theorem precondChunk_count (action : PddlAction) (x y : ℚ) (l : String) :
    ((actionPrecondPairs action x y).map (·.1)).countP (isPrecondNode l) =
      (extractAllPredicates action.preconditions).countP
        (fun p => getPredicateLabel p == l) := by
  rw [actionPrecondPairs, List.map_map, List.countP_map,
    ← countP_enum (fun p => getPredicateLabel p == l)
      (extractAllPredicates action.preconditions)]
  apply List.countP_congr
  intro ip hip
  simp [placeActionPredicate, createPredicateNode, isPrecondNode]

theorem precondChunk_count_eff (action : PddlAction) (x y : ℚ) (l : String) :
    ((actionPrecondPairs action x y).map (·.1)).countP (isEffectNode l) = 0 := by
  rw [List.countP_eq_zero]
  intro e he
  obtain ⟨pr, hpr, hpr2⟩ := List.mem_map.mp he
  obtain ⟨ip, hip, hip2⟩ := List.mem_map.mp hpr
  rw [← hpr2, ← hip2]
  simp [placeActionPredicate, createPredicateNode, isEffectNode, EFFECT_COLOR,
    PRECONDITION_COLOR]

theorem effectChunk_count (action : PddlAction) (x y : ℚ) (l : String) :
    ((actionEffectPairs action x y).map (·.1)).countP (isEffectNode l) =
      (extractAllPredicates action.effects).countP
        (fun p => getPredicateLabel p == l) := by
  rw [actionEffectPairs, List.map_map, List.countP_map,
    ← countP_enum (fun p => getPredicateLabel p == l)
      (extractAllPredicates action.effects)]
  apply List.countP_congr
  intro ip hip
  have hT : strTakeIs (actionPredicateNodeId action.name "effect" ip.1
      (jsNameI ip.2.expr)) "predicate-" = true := by
    apply strTakeIs_sanitized "predicate-"
      ("predicate-" ++ action.name ++ "-" ++ "effect" ++ "-" ++ natLit ip.1 ++ "-" ++
        jsNameI ip.2.expr)
    · show ("predicate-" ++ action.name ++ "-" ++ "effect" ++ "-" ++ natLit ip.1 ++ "-" ++
        jsNameI ip.2.expr : String).data =
        ("predicate-" : String).data ++ (action.name.data ++ ("-" : String).data ++
          ("effect" : String).data ++ ("-" : String).data ++ (natLit ip.1).data ++
          ("-" : String).data ++ (jsNameI ip.2.expr).data)
      simp [String.data_append]
    · decide
  simp [placeActionPredicate, createPredicateNode, isEffectNode, hT]

theorem effectChunk_count_pre (action : PddlAction) (x y : ℚ) (l : String) :
    ((actionEffectPairs action x y).map (·.1)).countP (isPrecondNode l) = 0 := by
  rw [List.countP_eq_zero]
  intro e he
  obtain ⟨pr, hpr, hpr2⟩ := List.mem_map.mp he
  obtain ⟨ip, hip, hip2⟩ := List.mem_map.mp hpr
  rw [← hpr2, ← hip2]
  simp [placeActionPredicate, createPredicateNode, isPrecondNode, EFFECT_COLOR,
    PRECONDITION_COLOR]

theorem paramChunk_zero (action : PddlAction) (x y : ℚ) (l : String) :
    ((actionParamPairs action x y).map (·.1)).countP (isPrecondNode l) = 0 ∧
    ((actionParamPairs action x y).map (·.1)).countP (isEffectNode l) = 0 := by
  constructor <;>
  · rw [List.countP_eq_zero]
    intro e he
    obtain ⟨pr, hpr, hpr2⟩ := List.mem_map.mp he
    obtain ⟨ip, hip, hip2⟩ := List.mem_map.mp hpr
    subst hpr2
    subst hip2
    simp [createGeometryNode, isPrecondNode, isEffectNode]

theorem numericChunk_zero (action : PddlAction) (x y : ℚ) (l : String) :
    (actionNumeric action x y).elements.countP (isPrecondNode l) = 0 ∧
    (actionNumeric action x y).elements.countP (isEffectNode l) = 0 := by
  have hinv := actionNumeric_inv action x y
  constructor <;>
  · rw [List.countP_eq_zero]
    intro e he
    rcases hinv.1 e he with hg | ha
    · have := numGeomOk_bands_false l hg
      simp [this.1, this.2]
    · have := isArrow_bands_false l e (numArrowOk_isArrow ha)
      simp [this.1, this.2]

theorem edgesChunk_zero (pfx : String) (nodeMap : List (String × GraphNodeInfo))
    (records : List (GraphNodeInfo × PddlExpr)) (k : Nat) (l : String) :
    (argEdgesLoop pfx nodeMap records k).1.countP (isPrecondNode l) = 0 ∧
    (argEdgesLoop pfx nodeMap records k).1.countP (isEffectNode l) = 0 := by
  constructor <;>
  · rw [List.countP_eq_zero]
    intro e he
    have := isArrow_bands_false l e (argEdgesLoop_isArrow pfx nodeMap records k e he)
    simp [this.1, this.2]

end Graph

namespace Graph

/-- Counting over a compiled action graph: the group wrapper never counts
and the `groupId` stamp is invisible, so the count is that of the raw
body. -/
theorem createActionGraph_countP (action : PddlAction) (x y : ℚ) (c : Nat)
    (p : Element → Bool)
    (hgroup : ∀ id gid d dat, p ⟨id, gid, .group d dat⟩ = false)
    (hsg : ∀ g e, p (setGroup g e) = p e) :
    (createActionGraph action x y c).elements.countP p =
      (actionBody action x y
        (sanitizeId ("group-" ++ action.name ++ "-" ++ natLit c))).countP p := by
  rw [show (createActionGraph action x y c).elements = _ ::
      (actionBody action x y
        (sanitizeId ("group-" ++ action.name ++ "-" ++ natLit c))).map
        (setGroup (sanitizeId ("group-" ++ action.name ++ "-" ++ natLit c))) from rfl]
  rw [List.countP_cons, hgroup, List.countP_map]
  simp only [if_false, Bool.false_eq_true, Nat.add_zero]
  exact List.countP_congr (fun e he => by rw [Function.comp_apply, hsg])

/-- C2 (corrected): the action diagram's precondition and effect bands
contain one ellipse per collected predicate occurrence, so for every
rendered label the number of band ellipses carrying it equals the number
of occurrences of that label among the extracted predicates, with no
deduplication. -/
theorem c2_per_occurrence (action : PddlAction) (x y : ℚ) (c : Nat) (l : String) :
    (createActionGraph action x y c).elements.countP (isPrecondNode l) =
      (extractAllPredicates action.preconditions).countP
        (fun p => getPredicateLabel p == l) ∧
    (createActionGraph action x y c).elements.countP (isEffectNode l) =
      (extractAllPredicates action.effects).countP
        (fun p => getPredicateLabel p == l) := by
  have ht1 : isPrecondNode l (actionTitleElem action x y) = false := rfl
  have ht2 : isEffectNode l (actionTitleElem action x y) = false := rfl
  have hd1 : ∀ g, isPrecondNode l (actionDescElem action x y g) = false := fun g => rfl
  have hd2 : ∀ g, isEffectNode l (actionDescElem action x y g) = false := fun g => rfl
  constructor
  · rw [createActionGraph_countP action x y c (isPrecondNode l)
      (fun id gid d dat => rfl) (fun g e => rfl)]
    rw [actionBody, actionPredEdges, actionFuncEdges]
    simp only [List.countP_append, List.countP_cons, List.countP_nil]
    rw [precondChunk_count, (paramChunk_zero action x y l).1,
      effectChunk_count_pre, (numericChunk_zero action x y l).1]
    rw [(edgesChunk_zero ("edge-" ++ action.name ++ "-") (actionParamMap action x y)
      (actionPredicateEdgeInput action x y) 0 l).1]
    rw [(edgesChunk_zero ("edge-" ++ action.name ++ "-") (actionParamMap action x y)
      (actionFunctionEdgeInput action x y)
      (actionPredEdges action x y).2 l).1]
    simp [ht1, hd1]
  · rw [createActionGraph_countP action x y c (isEffectNode l)
      (fun id gid d dat => rfl) (fun g e => rfl)]
    rw [actionBody, actionPredEdges, actionFuncEdges]
    simp only [List.countP_append, List.countP_cons, List.countP_nil]
    rw [effectChunk_count, (paramChunk_zero action x y l).2,
      precondChunk_count_eff, (numericChunk_zero action x y l).2]
    rw [(edgesChunk_zero ("edge-" ++ action.name ++ "-") (actionParamMap action x y)
      (actionPredicateEdgeInput action x y) 0 l).2]
    rw [(edgesChunk_zero ("edge-" ++ action.name ++ "-") (actionParamMap action x y)
      (actionFunctionEdgeInput action x y)
      (actionPredEdges action x y).2 l).2]
    simp [ht2, hd2]

end Graph

namespace Graph

/-- Labels surviving `getUniquePredicates`' loop: those of the input not
already seen. -/
theorem uniqueGo_label_mem (l : String) :
    ∀ (ps : List ExtractedPredicate) (seen : List String),
      l ∈ (getUniquePredicatesGo ps seen).map getPredicateLabel ↔
        l ∈ ps.map getPredicateLabel ∧ l ∉ seen := by
  intro ps
  induction ps with
  | nil =>
    intro seen
    simp [getUniquePredicatesGo]
  | cons p rest ih =>
    intro seen
    simp only [getUniquePredicatesGo]
    by_cases hc : seen.contains (getPredicateLabel p) = true
    · rw [if_pos hc]
      rw [ih seen]
      have hm : getPredicateLabel p ∈ seen := by simpa using hc
      simp only [List.map_cons, List.mem_cons]
      constructor
      · rintro ⟨ha, hb⟩
        exact ⟨Or.inr ha, hb⟩
      · rintro ⟨ha | ha, hb⟩
        · subst ha
          exact absurd hm hb
        · exact ⟨ha, hb⟩
    · rw [if_neg hc]
      have hm : getPredicateLabel p ∉ seen := by simpa using hc
      simp only [List.map_cons, List.mem_cons]
      rw [ih (seen ++ [getPredicateLabel p])]
      simp only [List.mem_append, List.mem_singleton]
      constructor
      · rintro (ha | ⟨ha, hb⟩)
        · subst ha
          exact ⟨Or.inl rfl, hm⟩
        · exact ⟨Or.inr ha, fun hx => hb (Or.inl hx)⟩
      · rintro ⟨ha | ha, hb⟩
        · exact Or.inl ha
        · by_cases hl : l = getPredicateLabel p
          · exact Or.inl hl
          · exact Or.inr ⟨ha, fun hx => (hx.elim hb hl)⟩

/-- Labels of `getUniquePredicates` are those of the input. -/
theorem getUniquePredicates_label_mem (l : String) (ps : List ExtractedPredicate) :
    l ∈ (getUniquePredicates ps).map getPredicateLabel ↔
      l ∈ ps.map getPredicateLabel := by
  rw [getUniquePredicates, uniqueGo_label_mem]
  simp

end Graph

namespace Graph

/-- Count of matching band nodes placed by the problem's unique-predicate
loop: one exactly when the label occurs in the input and is not yet in the
registry. -/
theorem pPP_count (pname : String) (cat : PCat) (cx by0 : ℚ) (cols : Nat) (l : String)
    (P : Element → Bool)
    (hP : ∀ lbl px py id, P (createPredicateNode lbl px py id cat.fill) = (lbl == l)) :
    ∀ (ps : List ExtractedPredicate) (idx : Nat) (m : List (String × GraphNodeInfo)) (mEB : ℚ),
      (placeProblemPredicates pname cat cx by0 cols ps idx m mEB).1.countP P =
        if l ∈ ps.map getPredicateLabel ∧ m.find? (fun kv => kv.1 == l) = none
        then 1 else 0 := by
  intro ps
  induction ps with
  | nil =>
    intro idx m mEB
    simp [placeProblemPredicates]
  | cons p rest ih =>
    intro idx m mEB
    cases hseen : (m.find? (fun kv => kv.1 == getPredicateLabel p)).isSome with
    | true =>
      have hred : (placeProblemPredicates pname cat cx by0 cols (p :: rest) idx m mEB).1 =
          (placeProblemPredicates pname cat cx by0 cols rest (idx + 1) m mEB).1 := by
        simp only [placeProblemPredicates]
        rw [if_pos hseen]
      rw [hred, ih]
      have hnn : ¬(m.find? (fun kv => kv.1 == getPredicateLabel p) = none) := by
        intro h
        rw [h] at hseen
        simp at hseen
      by_cases hl : getPredicateLabel p = l
      · subst hl
        rw [if_neg, if_neg]
        · rintro ⟨h1, h2⟩
          exact hnn h2
        · rintro ⟨h1, h2⟩
          exact hnn h2
      · apply if_congr _ rfl rfl
        simp only [List.map_cons, List.mem_cons]
        constructor
        · rintro ⟨h1, h2⟩
          exact ⟨Or.inr h1, h2⟩
        · rintro ⟨h1 | h1, h2⟩
          · exact absurd h1.symm hl
          · exact ⟨h1, h2⟩
    | false =>
      obtain ⟨px, py, hred⟩ : ∃ px py,
          (placeProblemPredicates pname cat cx by0 cols (p :: rest) idx m mEB).1 =
            createPredicateNode (getPredicateLabel p) px py
                (problemPredicateNodeId pname cat.text idx (jsNameI p.expr)) cat.fill ::
              (placeProblemPredicates pname cat cx by0 cols rest (idx + 1)
                (m ++ [(getPredicateLabel p, createGraphNodeInfo
                  (problemPredicateNodeId pname cat.text idx (jsNameI p.expr)) px py
                  NODE_WIDTH NODE_HEIGHT .ellipse)]) (max mEB (py + NODE_HEIGHT))).1 := by
        refine ⟨cx + ((idx % cols : Nat) : ℚ) * NODE_SPACING_X,
          by0 + ((idx / cols : Nat) : ℚ) * NODE_SPACING_Y, ?_⟩
        have hnc : ¬((m.find? (fun kv => kv.1 == getPredicateLabel p)).isSome = true) := by
          simp [hseen]
        simp only [placeProblemPredicates]
        rw [if_neg hnc]
      rw [hred, List.countP_cons, ih, hP]
      by_cases hl : getPredicateLabel p = l
      · subst hl
        have hfind : m.find? (fun kv => kv.1 == getPredicateLabel p) = none := by
          rcases h : m.find? (fun kv => kv.1 == getPredicateLabel p) with _ | v
          · exact h
          · rw [h] at hseen
            simp at hseen
        have hm2 : (m ++ [(getPredicateLabel p, createGraphNodeInfo
            (problemPredicateNodeId pname cat.text idx (jsNameI p.expr)) px py
            NODE_WIDTH NODE_HEIGHT .ellipse)]).find?
            (fun kv => kv.1 == getPredicateLabel p) ≠ none := by
          rw [List.find?_append, hfind]
          simp [List.find?]
        rw [if_neg, if_pos, if_pos]
        · exact ⟨by simp, hfind⟩
        · simp
        · rintro ⟨h1, h2⟩
          exact hm2 h2
      · have hm2 : (m ++ [(getPredicateLabel p, createGraphNodeInfo
            (problemPredicateNodeId pname cat.text idx (jsNameI p.expr)) px py
            NODE_WIDTH NODE_HEIGHT .ellipse)]).find? (fun kv => kv.1 == l) =
            m.find? (fun kv => kv.1 == l) := by
          rw [List.find?_append]
          have h1 : [((getPredicateLabel p : String), createGraphNodeInfo
              (problemPredicateNodeId pname cat.text idx (jsNameI p.expr)) px py
              NODE_WIDTH NODE_HEIGHT .ellipse)].find? (fun kv => kv.1 == l) = none := by
            have hb0 : (getPredicateLabel p == l) = false := by simp [hl]
            simp [List.find?, hb0]
          rw [h1]
          rcases h2 : m.find? (fun kv => kv.1 == l) with _ | v <;> rw [h2] <;> rfl
        rw [hm2]
        have hb : (getPredicateLabel p == l) = false := by
          simp [hl]
        rw [hb]
        simp only [Bool.false_eq_true, if_false, Nat.add_zero]
        apply if_congr _ rfl rfl
        simp only [List.map_cons, List.mem_cons]
        constructor
        · rintro ⟨h1, h2⟩
          exact ⟨Or.inr h1, h2⟩
        · rintro ⟨h1 | h1, h2⟩
          · exact absurd h1.symm hl
          · exact ⟨h1, h2⟩

/-- Band nodes of the other category never match. -/
theorem pPP_count_zero (pname : String) (cat : PCat) (cx by0 : ℚ) (cols : Nat)
    (P : Element → Bool)
    (hP : ∀ lbl px py id, P (createPredicateNode lbl px py id cat.fill) = false) :
    ∀ (ps : List ExtractedPredicate) (idx : Nat) (m : List (String × GraphNodeInfo)) (mEB : ℚ),
      (placeProblemPredicates pname cat cx by0 cols ps idx m mEB).1.countP P = 0 := by
  intro ps
  induction ps with
  | nil =>
    intro idx m mEB
    simp [placeProblemPredicates]
  | cons p rest ih =>
    intro idx m mEB
    cases hseen : (m.find? (fun kv => kv.1 == getPredicateLabel p)).isSome with
    | true =>
      have hred : (placeProblemPredicates pname cat cx by0 cols (p :: rest) idx m mEB).1 =
          (placeProblemPredicates pname cat cx by0 cols rest (idx + 1) m mEB).1 := by
        simp only [placeProblemPredicates]
        rw [if_pos hseen]
      rw [hred, ih]
    | false =>
      obtain ⟨px, py, hred⟩ : ∃ px py,
          (placeProblemPredicates pname cat cx by0 cols (p :: rest) idx m mEB).1 =
            createPredicateNode (getPredicateLabel p) px py
                (problemPredicateNodeId pname cat.text idx (jsNameI p.expr)) cat.fill ::
              (placeProblemPredicates pname cat cx by0 cols rest (idx + 1)
                (m ++ [(getPredicateLabel p, createGraphNodeInfo
                  (problemPredicateNodeId pname cat.text idx (jsNameI p.expr)) px py
                  NODE_WIDTH NODE_HEIGHT .ellipse)]) (max mEB (py + NODE_HEIGHT))).1 := by
        refine ⟨cx + ((idx % cols : Nat) : ℚ) * NODE_SPACING_X,
          by0 + ((idx / cols : Nat) : ℚ) * NODE_SPACING_Y, ?_⟩
        have hnc : ¬((m.find? (fun kv => kv.1 == getPredicateLabel p)).isSome = true) := by
          simp [hseen]
        simp only [placeProblemPredicates]
        rw [if_neg hnc]
      rw [hred, List.countP_cons, ih, hP]
      simp

end Graph

namespace Graph

theorem setCatFuncMap_elements (s : ProbState) (cat : PCat)
    (m : List (String × GraphNodeInfo)) :
    (s.setCatFuncMap cat m).elements = s.elements := by
  cases cat <;> rfl

theorem setCatCompMap_elements (s : ProbState) (cat : PCat)
    (m : List (String × GraphNodeInfo)) :
    (s.setCatCompMap cat m).elements = s.elements := by
  cases cat <;> rfl

theorem probCreateFunctionNode_countP (P : Element → Bool)
    (h1 : ∀ lbl px py id, P (createPredicateNode lbl px py id FUNCTION_NODE_COLOR) = false)
    (pname : String) (cat : PCat) (cx by0 : ℚ) (cols : Nat) (e : PddlExpr) (sfx : String)
    (argc : Nat) (s : ProbState) :
    (probCreateFunctionNode pname cat cx by0 cols e sfx argc s).2.2.elements.countP P =
      s.elements.countP P := by
  rcases hm : ((s.catFuncMap cat).find? (fun p => p.1 == formatFunctionLabelT e false)).map
      (·.2) with _ | info
  · have hel : (probCreateFunctionNode pname cat cx by0 cols e sfx argc s).2.2.elements =
        s.elements ++ [createPredicateNode (formatFunctionLabelT e false)
          (cx + ((argc % cols : Nat) : ℚ) * NODE_SPACING_X)
          (by0 + ((argc / cols : Nat) : ℚ) * NODE_SPACING_Y)
          (sanitizeId ("function-" ++ pname ++ "-" ++ cat.text ++ "-" ++ sfx ++ "-" ++
            natLit s.functionNodeCounter ++ "-" ++ jsNameI e)) FUNCTION_NODE_COLOR] := by
      simp only [probCreateFunctionNode, hm]
      rw [setCatFuncMap_elements]
      rfl
    rw [hel, List.countP_append]
    simp [h1]
  · have hel : (probCreateFunctionNode pname cat cx by0 cols e sfx argc s).2.2.elements =
        s.elements := by
      simp only [probCreateFunctionNode, hm]
    rw [hel]

theorem probCreateCompArgNode_countP (P : Element → Bool)
    (h1 : ∀ lbl px py id, P (createPredicateNode lbl px py id FUNCTION_NODE_COLOR) = false)
    (pname : String) (cat : PCat) (cx by0 : ℚ) (cols : Nat) (argO : Option PddlArg)
    (sfx : String) (argc : Nat) (s : ProbState) :
    (probCreateCompArgNode pname cat cx by0 cols argO sfx argc s).2.2.2.elements.countP P =
      s.elements.countP P := by
  rcases argO with _ | a
  · rfl
  · rcases a with e | ⟨n, ty⟩
    case expr =>
      by_cases hc : typeStr e = "function"
      · have hel : (probCreateCompArgNode pname cat cx by0 cols (some (.expr e)) sfx argc
            s).2.2.2 =
            (probCreateFunctionNode pname cat cx by0 cols e sfx argc s).2.2 := by
          simp only [probCreateCompArgNode]
          rw [if_pos hc]
        rw [hel]
        exact probCreateFunctionNode_countP P h1 pname cat cx by0 cols e sfx argc s
      · rcases hn : getNumericLiteralText (some (.expr e)) with _ | t
        · obtain ⟨px, py, hel⟩ : ∃ px py,
              (probCreateCompArgNode pname cat cx by0 cols (some (.expr e)) sfx argc
                s).2.2.2.elements =
              s.elements ++ [createPredicateNode (stringifyExpressionArgument (.expr e))
                px py (sanitizeId ("literal-" ++ pname ++ "-" ++ cat.text ++ "-" ++ sfx ++
                  "-" ++ natLit s.valueNodeCounter)) FUNCTION_NODE_COLOR] := by
            refine ⟨cx + ((argc % cols : Nat) : ℚ) * NODE_SPACING_X,
              by0 + ((argc / cols : Nat) : ℚ) * NODE_SPACING_Y, ?_⟩
            simp only [probCreateCompArgNode]
            rw [if_neg hc, hn]
            rfl
          rw [hel, List.countP_append]
          simp [h1]
        · have hel : (probCreateCompArgNode pname cat cx by0 cols (some (.expr e)) sfx argc
              s).2.2.2 = s := by
            simp only [probCreateCompArgNode]
            rw [if_neg hc, hn]
          rw [hel]
    case param =>
      rcases hn : getNumericLiteralText (some (.param n ty)) with _ | t
      · obtain ⟨px, py, hel⟩ : ∃ px py,
            (probCreateCompArgNode pname cat cx by0 cols (some (.param n ty)) sfx argc
              s).2.2.2.elements =
            s.elements ++ [createPredicateNode (stringifyExpressionArgument (.param n ty))
              px py (sanitizeId ("literal-" ++ pname ++ "-" ++ cat.text ++ "-" ++ sfx ++
                "-" ++ natLit s.valueNodeCounter)) FUNCTION_NODE_COLOR] := by
          refine ⟨cx + ((argc % cols : Nat) : ℚ) * NODE_SPACING_X,
            by0 + ((argc / cols : Nat) : ℚ) * NODE_SPACING_Y, ?_⟩
          simp only [probCreateCompArgNode]
          rw [hn]
          rfl
        rw [hel, List.countP_append]
        simp [h1]
      · have hel : (probCreateCompArgNode pname cat cx by0 cols (some (.param n ty)) sfx
            argc s).2.2.2 = s := by
          simp only [probCreateCompArgNode]
          rw [hn]
        rw [hel]

end Graph

namespace Graph

theorem compRecordsLoop_countP (P : Element → Bool)
    (h1 : ∀ lbl px py id, P (createPredicateNode lbl px py id FUNCTION_NODE_COLOR) = false)
    (pname : String) (cat : PCat) (cx by0 : ℚ) (cols : Nat) :
    ∀ (es : List PddlExpr) (index argc : Nat) (s : ProbState),
      (compRecordsLoop pname cat cx by0 cols es index argc s).2.2.elements.countP P =
        s.elements.countP P := by
  intro es
  induction es with
  | nil => intro index argc s; rfl
  | cons e rest ih =>
    intro index argc s
    simp only [compRecordsLoop]
    rw [ih]
    rw [probCreateCompArgNode_countP P h1]
    rw [probCreateCompArgNode_countP P h1]

theorem compOperatorLoop_countP (P : Element → Bool)
    (h2 : ∀ lbl px py id, P (createPredicateNode lbl px py id OPERATOR_NODE_COLOR) = false)
    (h3 : ∀ (a b : GraphNodeInfo) (d : String), P (createArrowLine a b none d) = false)
    (pname : String) (cat : PCat) (cx opY : ℚ) (cols : Nat) :
    ∀ (records : List ComparatorRecord) (opc : Nat) (s : ProbState),
      (compOperatorLoop pname cat cx opY cols records opc s).2.elements.countP P =
        s.elements.countP P := by
  intro records
  induction records with
  | nil => intro opc s; rfl
  | cons record rest ih =>
    intro opc s
    simp only [compOperatorLoop]
    rw [ih]
    repeat' split
    all_goals cases cat <;> simp [ProbState.setCatCompMap, List.countP_append, h2, h3]

end Graph

namespace Graph

theorem isArrow_problem_bands_false (l : String) (e : Element) (h : e.isArrow = true) :
    isInitNode l e = false ∧ isGoalNode l e = false := by
  obtain ⟨id, gid, body⟩ := e
  cases body with
  | arrowLine p1 p2 sE tE sc sw op txts => exact ⟨rfl, rfl⟩
  | geometry sh p1 p2 an opc fl st sw t d => simp [Element.isArrow] at h
  | group d dat => simp [Element.isArrow] at h

theorem placeComparatorSection_countP (P : Element → Bool)
    (h1 : ∀ lbl px py id, P (createPredicateNode lbl px py id FUNCTION_NODE_COLOR) = false)
    (h2 : ∀ lbl px py id, P (createPredicateNode lbl px py id OPERATOR_NODE_COLOR) = false)
    (h3 : ∀ (a b : GraphNodeInfo) (d : String), P (createArrowLine a b none d) = false)
    (pname : String) (cat : PCat) (cx : ℚ) (pcols : Nat) (comps : List PddlExpr)
    (baseY : ℚ) (s : ProbState) :
    (placeComparatorSection pname cat cx pcols comps baseY s).2.elements.countP P =
      s.elements.countP P := by
  rw [placeComparatorSection]
  split
  · rfl
  · simp only
    rw [compOperatorLoop_countP P h2 h3, compRecordsLoop_countP P h1]

theorem placeProblemObjects_zero (P : Element → Bool)
    (h4 : ∀ lbl px py id w h, P (createGeometryNode lbl px py id w h) = false)
    (pname : String) (cx by0 : ℚ) (cols : Nat) :
    ∀ (objs : List PddlObject) (idx : Nat) (mEB : ℚ),
      (placeProblemObjects pname cx by0 cols objs idx mEB).1.countP P = 0 := by
  intro objs
  induction objs with
  | nil => intro idx mEB; rfl
  | cons o rest ih =>
    intro idx mEB
    simp only [placeProblemObjects, List.countP_cons]
    rw [ih, h4]
    simp

/-- Counting over a compiled problem graph reduces to counting over the raw
body. -/
theorem createProblemGraph_countP (problem : PddlProblem) (x y : ℚ) (c : Nat)
    (p : Element → Bool)
    (hgroup : ∀ id gid d dat, p ⟨id, gid, .group d dat⟩ = false)
    (hsg : ∀ g e, p (setGroup g e) = p e) :
    (createProblemGraph problem x y c).elements.countP p =
      (problemBody problem x y
        (sanitizeId ("problem-" ++ problem.name ++ "-" ++ natLit c))).countP p := by
  rw [show (createProblemGraph problem x y c).elements = _ ::
      (problemBody problem x y
        (sanitizeId ("problem-" ++ problem.name ++ "-" ++ natLit c))).map
        (setGroup (sanitizeId ("problem-" ++ problem.name ++ "-" ++ natLit c))) from rfl]
  rw [List.countP_cons, hgroup, List.countP_map]
  simp only [if_false, Bool.false_eq_true, Nat.add_zero]
  exact List.countP_congr (fun e he => by rw [Function.comp_apply, hsg])

theorem problemS2_elements (problem : PddlProblem) (x y : ℚ) :
    (problemS2 problem x y).elements =
      (problemStep1 problem x y).2.elements ++ (problemInitBand problem x y).1 := by
  rw [problemS2]
  split <;> rfl

theorem problemS3_elements (problem : PddlProblem) (x y : ℚ) :
    (problemS3 problem x y).elements =
      (problemS2 problem x y).elements ++ (problemObjectBand problem x y).1 := by
  rw [problemS3]
  split <;> rfl

theorem problemS4_elements (problem : PddlProblem) (x y : ℚ) :
    (problemS4 problem x y).elements =
      (problemS3 problem x y).elements ++ (problemGoalBand problem x y).1 := by
  rw [problemS4]
  split <;> rfl

end Graph

namespace Graph

theorem probEdgesChunk_zero (l pfx : String) (nodeMap : List (String × GraphNodeInfo))
    (records : List (GraphNodeInfo × PddlExpr)) (k : Nat) :
    (argEdgesLoop pfx nodeMap records k).1.countP (isInitNode l) = 0 ∧
    (argEdgesLoop pfx nodeMap records k).1.countP (isGoalNode l) = 0 := by
  constructor <;>
  · rw [List.countP_eq_zero]
    intro e he
    have := isArrow_problem_bands_false l e (argEdgesLoop_isArrow pfx nodeMap records k e he)
    simp [this.1, this.2]

theorem probDescChunk_zero (problem : PddlProblem) (x y : ℚ) (g l : String) :
    (problemDescElems problem x y g).countP (isInitNode l) = 0 ∧
    (problemDescElems problem x y g).countP (isGoalNode l) = 0 := by
  constructor <;> rfl

/-- Band-node census of the state after the goal comparator section: both
comparator sections and the object band contribute nothing, and each
predicate band contributes one node for a label exactly when the label
occurs among the extracted predicates of its side. -/
theorem probS5_count (problem : PddlProblem) (x y : ℚ) (l : String) :
    (problemStep5 problem x y).2.elements.countP (isInitNode l) =
      (if l ∈ (extractAllPredicates problem.init).map getPredicateLabel then 1 else 0) ∧
    (problemStep5 problem x y).2.elements.countP (isGoalNode l) =
      (if l ∈ (extractAllPredicates (problemGoalExpressions problem)).map getPredicateLabel
       then 1 else 0) := by
  have hfI : ∀ (lbl : String) (px py : ℚ) (id : String),
      isInitNode l (createPredicateNode lbl px py id FUNCTION_NODE_COLOR) = false := by
    intro lbl px py id
    simp [isInitNode, createPredicateNode, FUNCTION_NODE_COLOR, PRECONDITION_COLOR]
  have hfG : ∀ (lbl : String) (px py : ℚ) (id : String),
      isGoalNode l (createPredicateNode lbl px py id FUNCTION_NODE_COLOR) = false := by
    intro lbl px py id
    simp [isGoalNode, createPredicateNode, FUNCTION_NODE_COLOR, EFFECT_COLOR]
  have hoI : ∀ (lbl : String) (px py : ℚ) (id : String),
      isInitNode l (createPredicateNode lbl px py id OPERATOR_NODE_COLOR) = false := by
    intro lbl px py id
    simp [isInitNode, createPredicateNode, OPERATOR_NODE_COLOR, PRECONDITION_COLOR]
  have hoG : ∀ (lbl : String) (px py : ℚ) (id : String),
      isGoalNode l (createPredicateNode lbl px py id OPERATOR_NODE_COLOR) = false := by
    intro lbl px py id
    simp [isGoalNode, createPredicateNode, OPERATOR_NODE_COLOR, EFFECT_COLOR]
  have haI : ∀ (a b : GraphNodeInfo) (d : String),
      isInitNode l (createArrowLine a b none d) = false := fun a b d => rfl
  have haG : ∀ (a b : GraphNodeInfo) (d : String),
      isGoalNode l (createArrowLine a b none d) = false := fun a b d => rfl
  have hInitP : ∀ (lbl : String) (px py : ℚ) (id : String),
      isInitNode l (createPredicateNode lbl px py id PCat.init.fill) = (lbl == l) := by
    intro lbl px py id
    simp [isInitNode, createPredicateNode, PCat.fill, PRECONDITION_COLOR]
  have hInitG : ∀ (lbl : String) (px py : ℚ) (id : String),
      isGoalNode l (createPredicateNode lbl px py id PCat.init.fill) = false := by
    intro lbl px py id
    simp [isGoalNode, createPredicateNode, PCat.fill, PRECONDITION_COLOR, EFFECT_COLOR]
  have hGoalP : ∀ (lbl : String) (px py : ℚ) (id : String),
      isGoalNode l (createPredicateNode lbl px py id PCat.goal.fill) = (lbl == l) := by
    intro lbl px py id
    simp [isGoalNode, createPredicateNode, PCat.fill, EFFECT_COLOR]
  have hGoalI : ∀ (lbl : String) (px py : ℚ) (id : String),
      isInitNode l (createPredicateNode lbl px py id PCat.goal.fill) = false := by
    intro lbl px py id
    simp [isInitNode, createPredicateNode, PCat.fill, PRECONDITION_COLOR, EFFECT_COLOR]
  have hobjI : ∀ (lbl : String) (px py : ℚ) (id : String) (w h : ℚ),
      isInitNode l (createGeometryNode lbl px py id w h) = false := fun _ _ _ _ _ _ => rfl
  have hobjG : ∀ (lbl : String) (px py : ℚ) (id : String) (w h : ℚ),
      isGoalNode l (createGeometryNode lbl px py id w h) = false := fun _ _ _ _ _ _ => rfl
  constructor
  · rw [problemStep5, placeComparatorSection_countP (isInitNode l) hfI hoI haI]
    rw [problemS4_elements, List.countP_append]
    rw [problemGoalBand, pPP_count_zero problem.name PCat.goal (problemContentStartX problem x)
      (problemNextY3 problem x y) (problemColumnsOf problem) (isInitNode l) hGoalI]
    rw [problemS3_elements, List.countP_append]
    rw [problemObjectBand, placeProblemObjects_zero (isInitNode l) hobjI problem.name
      (problemContentStartX problem x) (problemNextY2 problem x y) (problemColumnsOf problem)]
    rw [problemS2_elements, List.countP_append]
    rw [problemInitBand, pPP_count problem.name PCat.init (problemContentStartX problem x)
      (problemStep1 problem x y).1 (problemColumnsOf problem) l (isInitNode l) hInitP]
    rw [problemStep1, placeComparatorSection_countP (isInitNode l) hfI hoI haI]
    have hiffI : (∃ a ∈ getUniquePredicates (extractAllPredicates problem.init),
        getPredicateLabel a = l) ↔
        (∃ a ∈ extractAllPredicates problem.init, getPredicateLabel a = l) := by
      simpa [List.mem_map] using
        getUniquePredicates_label_mem l (extractAllPredicates problem.init)
    simp [problemS0, getUniquePredicates_label_mem]
    simp [hiffI]
  · rw [problemStep5, placeComparatorSection_countP (isGoalNode l) hfG hoG haG]
    rw [problemS4_elements, List.countP_append]
    rw [problemGoalBand, pPP_count problem.name PCat.goal (problemContentStartX problem x)
      (problemNextY3 problem x y) (problemColumnsOf problem) l (isGoalNode l) hGoalP]
    rw [problemS3_elements, List.countP_append]
    rw [problemObjectBand, placeProblemObjects_zero (isGoalNode l) hobjG problem.name
      (problemContentStartX problem x) (problemNextY2 problem x y) (problemColumnsOf problem)]
    rw [problemS2_elements, List.countP_append]
    rw [problemInitBand, pPP_count_zero problem.name PCat.init (problemContentStartX problem x)
      (problemStep1 problem x y).1 (problemColumnsOf problem) (isGoalNode l) hInitG]
    rw [problemStep1, placeComparatorSection_countP (isGoalNode l) hfG hoG haG]
    have hiffG : (∃ a ∈ getUniquePredicates
          (extractAllPredicates (problemGoalExpressions problem)),
        getPredicateLabel a = l) ↔
        (∃ a ∈ extractAllPredicates (problemGoalExpressions problem),
          getPredicateLabel a = l) := by
      simpa [List.mem_map] using
        getUniquePredicates_label_mem l (extractAllPredicates (problemGoalExpressions problem))
    simp [problemS0, getUniquePredicates_label_mem]
    simp [hiffG]

end Graph

namespace Graph

/-- C1: the predicate bands of a problem diagram are deduplicated by
rendered label: for every problem, position, counter and label, the compiled
element list contains exactly one init-band ellipse carrying that label when
the label occurs among the predicates extracted from `:init` (however many
times it occurs) and none otherwise, and likewise exactly one goal-band
ellipse per label occurring among the predicates extracted from the goal. -/
theorem c1_problem_band_dedup (problem : PddlProblem) (x y : ℚ) (c : Nat) (l : String) :
    (createProblemGraph problem x y c).elements.countP (isInitNode l) =
      (if l ∈ (extractAllPredicates problem.init).map getPredicateLabel then 1 else 0) ∧
    (createProblemGraph problem x y c).elements.countP (isGoalNode l) =
      (if l ∈ (extractAllPredicates (problemGoalExpressions problem)).map getPredicateLabel
       then 1 else 0) := by
  constructor
  · rw [createProblemGraph_countP problem x y c (isInitNode l)
      (fun id gid d dat => rfl) (fun g e => rfl)]
    rw [problemBody]
    simp only [List.countP_append]
    rw [problemFuncEdges]
    rw [(probEdgesChunk_zero l "problem-function-edge-" (problemObjectBand problem x y).2.1
      ((problemStep5 problem x y).2.functionNodes.map (fun r => (r.info, r.expr)))
      (problemPredEdges problem x y).2).1]
    rw [problemPredEdges]
    rw [(probEdgesChunk_zero l "problem-edge-" (problemObjectBand problem x y).2.1
      (problemPredicateEdgeInput problem x y) 0).1]
    rw [(probDescChunk_zero problem x y
      (sanitizeId ("problem-" ++ problem.name ++ "-" ++ natLit c)) l).1]
    rw [(probS5_count problem x y l).1]
    simp
  · rw [createProblemGraph_countP problem x y c (isGoalNode l)
      (fun id gid d dat => rfl) (fun g e => rfl)]
    rw [problemBody]
    simp only [List.countP_append]
    rw [problemFuncEdges]
    rw [(probEdgesChunk_zero l "problem-function-edge-" (problemObjectBand problem x y).2.1
      ((problemStep5 problem x y).2.functionNodes.map (fun r => (r.info, r.expr)))
      (problemPredEdges problem x y).2).2]
    rw [problemPredEdges]
    rw [(probEdgesChunk_zero l "problem-edge-" (problemObjectBand problem x y).2.1
      (problemPredicateEdgeInput problem x y) 0).2]
    rw [(probDescChunk_zero problem x y
      (sanitizeId ("problem-" ++ problem.name ++ "-" ++ natLit c)) l).2]
    rw [(probS5_count problem x y l).2]
    simp

end Graph

namespace Graph

/-- C4 counterexample: a problem whose `:init` repeats one fact.  The fact
gets a single deduplicated band node, but the edge loop runs once per
collected occurrence, so the object node is wired into that single node
twice — not "exactly one edge". -/
theorem c4_counterexample :
    ((createProblemGraph
        { name := "pr", objects := [⟨"a", none⟩],
          init := [.pred "p" [.param "a" none], .pred "p" [.param "a" none]],
          goal := none, initDescription := none, goalDescription := none }
        0 0 0).elements.countP
      (isArrowWithTarget (problemPredicateNodeId "pr" "init" 0 "p"))) = 2 := by decide

theorem outEdgeLoop_counts (idPrefix : String) (nodeMap : List (String × GraphNodeInfo))
    (info : GraphNodeInfo) (hno : ∀ kv ∈ nodeMap, kv.2.id ≠ info.id) :
    ∀ (as : List String) (k : Nat),
      (outEdgeLoop idPrefix nodeMap info as k).1.countP (isArrowWithTarget info.id) = 0 ∧
      (outEdgeLoop idPrefix nodeMap info as k).1.countP (isArrowWithSource info.id) =
        as.countP (fun a => (mapGet nodeMap a).isSome) ∧
      (outEdgeLoop idPrefix nodeMap info as k).1.length =
        as.countP (fun a => (mapGet nodeMap a).isSome) := by
  intro as
  induction as with
  | nil => intro k; exact ⟨rfl, rfl, rfl⟩
  | cons a rest ih =>
    intro k
    rcases hm : mapGet nodeMap a with _ | t
    · refine ⟨?_, ?_, ?_⟩ <;>
        simp [outEdgeLoop, hm, List.countP_cons, (ih k).1, (ih k).2.1, (ih k).2.2]
    · obtain ⟨kv, hkvm, hkv2⟩ := mapGet_mem hm
      have htid : (t.id == info.id) = false := by
        have h := hno kv hkvm
        rw [hkv2] at h
        simpa using h
      have hT : isArrowWithTarget info.id (createArrowLine info t none
          (sanitizeId (idPrefix ++ info.id ++ "-out-" ++ natLit k))) = false := by
        simpa [isArrowWithTarget, createArrowLine] using htid
      have hS : isArrowWithSource info.id (createArrowLine info t none
          (sanitizeId (idPrefix ++ info.id ++ "-out-" ++ natLit k))) = true := by
        simp [isArrowWithSource, createArrowLine]
      have hc : (mapGet nodeMap a).isSome = true := by simp [hm]
      refine ⟨?_, ?_, ?_⟩ <;>
        simp [outEdgeLoop, hm, List.countP_cons, hT, hS, hc, (ih (k + 1)).1,
          (ih (k + 1)).2.1, (ih (k + 1)).2.2]

/-- C4 amended: the first-argument-inbound / remaining-arguments-outbound
rule holds per collected predicate occurrence record, not per placed node.
For one record whose expression has named arguments `a0 :: rest`, provided
no mapped node shares the record node's id, the edges created for that
record are exactly: one arrow into the record's node when `a0` resolves in
the node map (none otherwise), plus one arrow out of the record's node per
occurrence in `rest` that resolves; unresolved arguments contribute
nothing.  A node placed once for a fact repeated n times in `:init` gets n
such records, hence n inbound edges (see the counterexample). -/
theorem c4_per_record (idPrefix : String) (nodeMap : List (String × GraphNodeInfo))
    (info : GraphNodeInfo) (expr : PddlExpr) (k : Nat) (a0 : String) (rest : List String)
    (hargs : extractExpressionArguments expr = a0 :: rest)
    (hno : ∀ kv ∈ nodeMap, kv.2.id ≠ info.id) :
    (argEdgesForNode idPrefix nodeMap info expr k).1.countP (isArrowWithTarget info.id) =
      (if (mapGet nodeMap a0).isSome then 1 else 0) ∧
    (argEdgesForNode idPrefix nodeMap info expr k).1.countP (isArrowWithSource info.id) =
      rest.countP (fun a => (mapGet nodeMap a).isSome) ∧
    (argEdgesForNode idPrefix nodeMap info expr k).1.length =
      (if (mapGet nodeMap a0).isSome then 1 else 0) +
        rest.countP (fun a => (mapGet nodeMap a).isSome) := by
  rcases hm0 : mapGet nodeMap a0 with _ | n
  · refine ⟨?_, ?_, ?_⟩ <;>
      simp [argEdgesForNode, hargs, hm0, List.countP_append,
        (outEdgeLoop_counts idPrefix nodeMap info hno rest k).1,
        (outEdgeLoop_counts idPrefix nodeMap info hno rest k).2.1,
        (outEdgeLoop_counts idPrefix nodeMap info hno rest k).2.2]
  · obtain ⟨kv, hkvm, hkv2⟩ := mapGet_mem hm0
    have hnid : (n.id == info.id) = false := by
      have h := hno kv hkvm
      rw [hkv2] at h
      simpa using h
    have hT : isArrowWithTarget info.id (createArrowLine n info none
        (sanitizeId (idPrefix ++ info.id ++ "-in-" ++ natLit k))) = true := by
      simp [isArrowWithTarget, createArrowLine]
    have hS : isArrowWithSource info.id (createArrowLine n info none
        (sanitizeId (idPrefix ++ info.id ++ "-in-" ++ natLit k))) = false := by
      simpa [isArrowWithSource, createArrowLine] using hnid
    refine ⟨?_, ?_, ?_⟩ <;>
      (simp [argEdgesForNode, hargs, hm0, List.countP_append, List.countP_cons, hT, hS,
        (outEdgeLoop_counts idPrefix nodeMap info hno rest (k + 1)).1,
        (outEdgeLoop_counts idPrefix nodeMap info hno rest (k + 1)).2.1,
        (outEdgeLoop_counts idPrefix nodeMap info hno rest (k + 1)).2.2]) <;> omega

/-- C4 witness: one record for `(p a b c)` against a node map binding `a`
and `b` only — one inbound edge (from `a`), one outbound edge (to `b`),
two edges in total. -/
theorem c4_witness :
    (extractExpressionArguments (.pred "p" [.param "a" none, .param "b" none,
        .param "c" none]) = ["a", "b", "c"]) ∧
    (∀ kv ∈ [("a", createGraphNodeInfo "na" 0 0 10 10 ShapeKind.rectangle),
        ("b", createGraphNodeInfo "nb" 0 20 10 10 ShapeKind.rectangle)],
      kv.2.id ≠ (createGraphNodeInfo "np" 50 50 10 10 ShapeKind.ellipse).id) ∧
    ((argEdgesForNode "e-"
          [("a", createGraphNodeInfo "na" 0 0 10 10 ShapeKind.rectangle),
            ("b", createGraphNodeInfo "nb" 0 20 10 10 ShapeKind.rectangle)]
          (createGraphNodeInfo "np" 50 50 10 10 ShapeKind.ellipse)
          (.pred "p" [.param "a" none, .param "b" none, .param "c" none]) 0).1.countP
        (isArrowWithTarget (createGraphNodeInfo "np" 50 50 10 10 ShapeKind.ellipse).id) = 1 ∧
      (argEdgesForNode "e-"
          [("a", createGraphNodeInfo "na" 0 0 10 10 ShapeKind.rectangle),
            ("b", createGraphNodeInfo "nb" 0 20 10 10 ShapeKind.rectangle)]
          (createGraphNodeInfo "np" 50 50 10 10 ShapeKind.ellipse)
          (.pred "p" [.param "a" none, .param "b" none, .param "c" none]) 0).1.countP
        (isArrowWithSource (createGraphNodeInfo "np" 50 50 10 10 ShapeKind.ellipse).id) = 1 ∧
      (argEdgesForNode "e-"
          [("a", createGraphNodeInfo "na" 0 0 10 10 ShapeKind.rectangle),
            ("b", createGraphNodeInfo "nb" 0 20 10 10 ShapeKind.rectangle)]
          (createGraphNodeInfo "np" 50 50 10 10 ShapeKind.ellipse)
          (.pred "p" [.param "a" none, .param "b" none, .param "c" none]) 0).1.length = 2) :=
  ⟨by decide, by decide,
    c4_per_record "e-" _ _ _ 0 "a" ["b", "c"] (by decide) (by decide)⟩

end Graph

namespace Graph

theorem arrowEndpointsOk_subset {E E' : List Element} (hsub : ∀ g ∈ E, g ∈ E')
    {e : Element} (h : arrowEndpointsOk E e) : arrowEndpointsOk E' e := by
  obtain ⟨id, gid, b⟩ := e
  cases b with
  | arrowLine p1 p2 s t sc sw op txts =>
    obtain ⟨⟨g1, hg1, h1⟩, ⟨g2, hg2, h2⟩, hne⟩ := h
    exact ⟨⟨g1, hsub g1 hg1, h1⟩, ⟨g2, hsub g2 hg2, h2⟩, hne⟩
  | geometry sh q1 q2 an opc fl st sw tb d => trivial
  | group d dat => trivial

theorem geomWithId_subset {E E' : List Element} (hsub : ∀ g ∈ E, g ∈ E') {i : String}
    (h : geomWithId E i) : geomWithId E' i := by
  obtain ⟨g, hg, h1, h2⟩ := h
  exact ⟨g, hsub g hg, h1, h2⟩

theorem arrowEndpointsOk_of_not_arrow {e : Element} (h : e.isArrow = false)
    (E : List Element) : arrowEndpointsOk E e := by
  obtain ⟨id, gid, b⟩ := e
  cases b with
  | arrowLine p1 p2 s t sc sw op txts => simp [Element.isArrow] at h
  | geometry sh q1 q2 an opc fl st sw tb d => trivial
  | group d dat => trivial

theorem elementEndpointsOkB_of_ok {E : List Element} {e : Element}
    (h : arrowEndpointsOk E e) : elementEndpointsOkB E e = true := by
  obtain ⟨id, gid, b⟩ := e
  cases b with
  | arrowLine p1 p2 s t sc sw op txts =>
    obtain ⟨⟨g1, hg1, h1a, h1b⟩, ⟨g2, hg2, h2a, h2b⟩, hne⟩ := h
    simp only [elementEndpointsOkB, Bool.and_eq_true, List.any_eq_true,
      Bool.not_eq_true', beq_eq_false_iff_ne]
    exact ⟨⟨⟨g1, hg1, by simp [h1a, h1b]⟩, ⟨g2, hg2, by simp [h2a, h2b]⟩⟩, hne⟩
  | geometry sh q1 q2 an opc fl st sw tb d => rfl
  | group d dat => rfl

theorem arrowEndpointsOk_create {U : List Element} {a b : GraphNodeInfo} {i : String}
    (h1 : geomWithId U a.id) (h2 : geomWithId U b.id) (h3 : a.id ≠ b.id) :
    arrowEndpointsOk U (createArrowLine a b none i) :=
  ⟨h1, h2, h3⟩

theorem ne_of_distinct_prefixes {p q : String} (hlen : p.data.length ≤ q.data.length)
    (hdiff : q.data.take p.data.length ≠ p.data) {i j : String}
    (hp : strTakeIs i p = true) (hq : strTakeIs j q = true) : i ≠ j := by
  intro hij
  subst hij
  rw [strTakeIs_iff] at hp hq
  have h := congrArg (List.take p.data.length) hq
  rw [List.take_take, min_eq_left hlen, hp] at h
  exact hdiff h.symm

theorem numGeomOk_not_arrow {a b c : Nat} {e : Element} (h : numGeomOk a b c e) :
    e.isArrow = false := by
  rcases h with ⟨p1, p2, lbl, hb, _⟩ | ⟨p1, p2, lbl, f, hf, hb, _⟩ | ⟨p1, p2, lbl, hb, _⟩ <;>
    simp [Element.isArrow, hb]

theorem numArrowOk_endpoints {A : String} {params : List (String × GraphNodeInfo)}
    {elems U : List Element} {edgeB opB : Nat} {e : Element}
    (ha : numArrowOk A params elems edgeB opB e)
    (hsub : ∀ g ∈ elems, g ∈ U)
    (hparamU : ∀ kv ∈ params, geomWithId U kv.2.id) :
    arrowEndpointsOk U e := by
  obtain ⟨id, gid, b⟩ := e
  cases b with
  | arrowLine p1 p2 s t sc sw op txts =>
    obtain ⟨_, _, ⟨g2, hg2, h2a, h2b⟩, hsrc, hne⟩ := ha
    refine ⟨?_, ⟨g2, hsub g2 hg2, h2a, h2b⟩, hne⟩
    rcases hsrc with ⟨g1, hg1, h1a, h1b, _⟩ | ⟨kv, hkv, hkvid⟩
    · exact ⟨g1, hsub g1 hg1, h1a, h1b⟩
    · obtain ⟨g1, hg1, h1a, h1b⟩ := hparamU kv hkv
      exact ⟨g1, hg1, h1a, h1b.trans hkvid⟩
  | geometry sh q1 q2 an opc fl st sw tb d => exact ha.elim
  | group d dat => exact ha.elim

theorem outEdgeLoop_endpoints (pfx : String) (nodeMap : List (String × GraphNodeInfo))
    (info : GraphNodeInfo) (U : List Element)
    (hmapU : ∀ kv ∈ nodeMap, geomWithId U kv.2.id)
    (hinfoU : geomWithId U info.id)
    (hne : ∀ kv ∈ nodeMap, kv.2.id ≠ info.id) :
    ∀ (as : List String) (k : Nat), ∀ e ∈ (outEdgeLoop pfx nodeMap info as k).1,
      arrowEndpointsOk U e := by
  intro as
  induction as with
  | nil => intro k e he; simp [outEdgeLoop] at he
  | cons a rest ih =>
    intro k e he
    rcases hm : mapGet nodeMap a with _ | t
    · rw [outEdgeLoop] at he
      simp only [hm] at he
      exact ih k e he
    · rw [outEdgeLoop] at he
      simp only [hm] at he
      rcases List.mem_cons.mp he with h | h
      · subst h
        obtain ⟨kv, hkvm, hkv2⟩ := mapGet_mem hm
        refine arrowEndpointsOk_create hinfoU ?_ ?_
        · have := hmapU kv hkvm
          rw [hkv2] at this
          exact this
        · intro hh
          exact (hne kv hkvm) (by rw [hkv2]; exact hh.symm)
      · exact ih (k + 1) e h

theorem argEdgesForNode_endpoints (pfx : String) (nodeMap : List (String × GraphNodeInfo))
    (info : GraphNodeInfo) (expr : PddlExpr) (U : List Element)
    (hmapU : ∀ kv ∈ nodeMap, geomWithId U kv.2.id)
    (hinfoU : geomWithId U info.id)
    (hne : ∀ kv ∈ nodeMap, kv.2.id ≠ info.id) :
    ∀ (k : Nat), ∀ e ∈ (argEdgesForNode pfx nodeMap info expr k).1,
      arrowEndpointsOk U e := by
  intro k e he
  rcases hargs : extractExpressionArguments expr with _ | ⟨a0, rest⟩
  · simp [argEdgesForNode, hargs] at he
  · simp only [argEdgesForNode, hargs] at he
    rcases hm0 : mapGet nodeMap a0 with _ | n
    · simp only [hm0, List.nil_append] at he
      exact outEdgeLoop_endpoints pfx nodeMap info U hmapU hinfoU hne rest k e he
    · simp only [hm0, List.singleton_append] at he
      rcases List.mem_cons.mp he with h | h
      · subst h
        obtain ⟨kv, hkvm, hkv2⟩ := mapGet_mem hm0
        refine arrowEndpointsOk_create ?_ hinfoU ?_
        · have := hmapU kv hkvm
          rw [hkv2] at this
          exact this
        · intro hh
          exact (hne kv hkvm) (by rw [hkv2]; exact hh)
      · exact outEdgeLoop_endpoints pfx nodeMap info U hmapU hinfoU hne rest (k + 1) e h

theorem argEdgesLoop_endpoints (pfx : String) (nodeMap : List (String × GraphNodeInfo))
    (U : List Element)
    (hmapU : ∀ kv ∈ nodeMap, geomWithId U kv.2.id) :
    ∀ (records : List (GraphNodeInfo × PddlExpr)) (k : Nat),
      (∀ r ∈ records, geomWithId U r.1.id) →
      (∀ kv ∈ nodeMap, ∀ r ∈ records, kv.2.id ≠ r.1.id) →
      ∀ e ∈ (argEdgesLoop pfx nodeMap records k).1, arrowEndpointsOk U e := by
  intro records
  induction records with
  | nil => intro k _ _ e he; simp [argEdgesLoop] at he
  | cons r rest ih =>
    intro k hrecU hne e he
    rw [argEdgesLoop] at he
    simp only at he
    rcases List.mem_append.mp he with h | h
    · exact argEdgesForNode_endpoints pfx nodeMap r.1 r.2 U hmapU
        (hrecU r (List.mem_cons_self _ _))
        (fun kv hkv => hne kv hkv r (List.mem_cons_self _ _)) k e h
    · exact ih _ (fun q hq => hrecU q (List.mem_cons_of_mem _ hq))
        (fun kv hkv q hq => hne kv hkv q (List.mem_cons_of_mem _ hq)) e h

end Graph

namespace Graph

theorem actionPredicateNodeId_prefixed (A tyTag : String) (i : Nat) (nm : String) :
    strTakeIs (actionPredicateNodeId A tyTag i nm) "predicate-" = true := by
  apply strTakeIs_sanitized "predicate-"
    ("predicate-" ++ A ++ "-" ++ tyTag ++ "-" ++ natLit i ++ "-" ++ nm)
  · show ("predicate-" ++ A ++ "-" ++ tyTag ++ "-" ++ natLit i ++ "-" ++ nm : String).data =
      ("predicate-" : String).data ++ (A.data ++ ("-" : String).data ++ tyTag.data ++
        ("-" : String).data ++ (natLit i).data ++ ("-" : String).data ++ nm.data)
    simp [String.data_append]
  · decide

theorem actionParamMap_geom (action : PddlAction) (x y : ℚ) :
    ∀ kv ∈ actionParamMap action x y,
      ∃ g ∈ (actionParamPairs action x y).map (·.1),
        g.isGeometry = true ∧ g.id = kv.2.id := by
  intro kv hkv
  obtain ⟨pr, hpr, hkv2⟩ := List.mem_map.mp hkv
  obtain ⟨ip, hip, hpr2⟩ := List.mem_map.mp hpr
  subst hpr2
  subst hkv2
  exact ⟨_, List.mem_map.mpr ⟨_, hpr, rfl⟩, rfl, rfl⟩

theorem actionPredInput_ok (action : PddlAction) (x y : ℚ) :
    ∀ r ∈ actionPredicateEdgeInput action x y,
      (∃ g ∈ (actionPrecondPairs action x y).map (·.1) ++
          (actionEffectPairs action x y).map (·.1),
        g.isGeometry = true ∧ g.id = r.1.id) ∧
      strTakeIs r.1.id "predicate-" = true := by
  intro r hr
  rw [actionPredicateEdgeInput] at hr
  obtain ⟨pr, hpr, hr2⟩ := List.mem_map.mp hr
  subst hr2
  rcases List.mem_append.mp hpr with h | h
  · obtain ⟨ip, hip, hpr2⟩ := List.mem_map.mp h
    subst hpr2
    refine ⟨⟨_, List.mem_append_left _ (List.mem_map.mpr ⟨_, h, rfl⟩), rfl, rfl⟩, ?_⟩
    exact actionPredicateNodeId_prefixed action.name "precondition" ip.1 (jsNameI ip.2.expr)
  · obtain ⟨ip, hip, hpr2⟩ := List.mem_map.mp h
    subst hpr2
    refine ⟨⟨_, List.mem_append_right _ (List.mem_map.mpr ⟨_, h, rfl⟩), rfl, rfl⟩, ?_⟩
    exact actionPredicateNodeId_prefixed action.name "effect" ip.1 (jsNameI ip.2.expr)

/-- Every element of one compiled action body is endpoint-closed within the
body: arrows bind two distinct geometry ids present in the body. -/
theorem actionBody_endpoints (action : PddlAction) (x y : ℚ) (g : String) :
    ∀ e ∈ actionBody action x y g, arrowEndpointsOk (actionBody action x y g) e := by
  have hiff : ∀ a, a ∈ actionBody action x y g ↔
      a = actionTitleElem action x y ∨ a = actionDescElem action x y g ∨
      a ∈ (actionPrecondPairs action x y).map (·.1) ∨
      a ∈ (actionParamPairs action x y).map (·.1) ∨
      a ∈ (actionEffectPairs action x y).map (·.1) ∨
      a ∈ (actionNumeric action x y).elements ∨
      a ∈ (actionPredEdges action x y).1 ∨
      a ∈ (actionFuncEdges action x y).1 := by
    intro a
    simp [actionBody, List.mem_append, or_assoc]
  have hsubNum : ∀ g0 ∈ (actionNumeric action x y).elements,
      g0 ∈ actionBody action x y g := by
    intro g0 hg0
    exact (hiff g0).mpr (Or.inr (Or.inr (Or.inr (Or.inr (Or.inr (Or.inl hg0))))))
  have hparamU : ∀ kv ∈ actionParamMap action x y,
      geomWithId (actionBody action x y g) kv.2.id := by
    intro kv hkv
    obtain ⟨g0, hg0, h1, h2⟩ := actionParamMap_geom action x y kv hkv
    exact ⟨g0, (hiff g0).mpr (Or.inr (Or.inr (Or.inr (Or.inl hg0)))), h1, h2⟩
  have hinv := actionNumeric_inv action x y
  have hne1 : ∀ kv ∈ actionParamMap action x y,
      ∀ r ∈ actionPredicateEdgeInput action x y, kv.2.id ≠ r.1.id := by
    intro kv hkv r hr
    exact ne_of_distinct_prefixes (p := "param-") (q := "predicate-") (by decide) (by decide)
      (actionParamMap_prefixed action x y kv hkv) ((actionPredInput_ok action x y r hr).2)
  have hrecU1 : ∀ r ∈ actionPredicateEdgeInput action x y,
      geomWithId (actionBody action x y g) r.1.id := by
    intro r hr
    obtain ⟨⟨g0, hg0, h1, h2⟩, _⟩ := actionPredInput_ok action x y r hr
    rcases List.mem_append.mp hg0 with h | h
    · exact ⟨g0, (hiff g0).mpr (Or.inr (Or.inr (Or.inl h))), h1, h2⟩
    · exact ⟨g0, (hiff g0).mpr (Or.inr (Or.inr (Or.inr (Or.inr (Or.inl h))))), h1, h2⟩
  have hrecU2 : ∀ r ∈ actionFunctionEdgeInput action x y,
      geomWithId (actionBody action x y g) r.1.id ∧
        strTakeIs r.1.id "function-" = true := by
    intro r hr
    rw [actionFunctionEdgeInput] at hr
    obtain ⟨fr, hfr, hr2⟩ := List.mem_map.mp hr
    subst hr2
    obtain ⟨⟨g0, hg0, h1, h2⟩, hspec⟩ := hinv.2.2.2 fr hfr
    exact ⟨⟨g0, hsubNum g0 hg0, h1, h2⟩, counterIdSpec_strTakeIs hspec⟩
  have hne2 : ∀ kv ∈ actionParamMap action x y,
      ∀ r ∈ actionFunctionEdgeInput action x y, kv.2.id ≠ r.1.id := by
    intro kv hkv r hr
    exact ne_of_distinct_prefixes (p := "param-") (q := "function-") (by decide) (by decide)
      (actionParamMap_prefixed action x y kv hkv) ((hrecU2 r hr).2)
  intro e he
  rcases (hiff e).mp he with h | h | h | h | h | h | h | h
  · subst h
    exact arrowEndpointsOk_of_not_arrow (by rfl) _
  · subst h
    exact arrowEndpointsOk_of_not_arrow (by rfl) _
  · obtain ⟨pr, hpr, h2⟩ := List.mem_map.mp h
    obtain ⟨ip, hip, hpr2⟩ := List.mem_map.mp hpr
    subst hpr2
    subst h2
    exact arrowEndpointsOk_of_not_arrow (by rfl) _
  · obtain ⟨pr, hpr, h2⟩ := List.mem_map.mp h
    obtain ⟨ip, hip, hpr2⟩ := List.mem_map.mp hpr
    subst hpr2
    subst h2
    exact arrowEndpointsOk_of_not_arrow (by rfl) _
  · obtain ⟨pr, hpr, h2⟩ := List.mem_map.mp h
    obtain ⟨ip, hip, hpr2⟩ := List.mem_map.mp hpr
    subst hpr2
    subst h2
    exact arrowEndpointsOk_of_not_arrow (by rfl) _
  · rcases hinv.1 e h with hg | ha
    · exact arrowEndpointsOk_of_not_arrow (numGeomOk_not_arrow hg) _
    · exact numArrowOk_endpoints ha hsubNum hparamU
  · exact argEdgesLoop_endpoints ("edge-" ++ action.name ++ "-")
      (actionParamMap action x y) (actionBody action x y g) hparamU
      (actionPredicateEdgeInput action x y) 0 hrecU1 hne1 e h
  · exact argEdgesLoop_endpoints ("edge-" ++ action.name ++ "-")
      (actionParamMap action x y) (actionBody action x y g) hparamU
      (actionFunctionEdgeInput action x y) (actionPredEdges action x y).2
      (fun r hr => (hrecU2 r hr).1) hne2 e h

end Graph

namespace Graph

theorem sanitized_prefixed (p rest : String) (hfix : p.data.map sanChar = p.data) :
    strTakeIs (sanitizeId (p ++ rest)) p = true := by
  apply strTakeIs_sanitized p (p ++ rest)
  · show (p ++ rest : String).data = p.data ++ rest.data
    simp [String.data_append]
  · exact hfix

theorem recNodeOk_mono {E E' : List Element} (hsub : ∀ g ∈ E, g ∈ E')
    {o : Option GraphNodeInfo} (h : recNodeOk E o) : recNodeOk E' o := by
  cases o with
  | none => trivial
  | some n => exact ⟨geomWithId_subset hsub h.1, h.2⟩

theorem recordOk_mono {E E' : List Element} (hsub : ∀ g ∈ E, g ∈ E')
    {r : ComparatorRecord} (h : recordOk E r) : recordOk E' r :=
  ⟨recNodeOk_mono hsub h.1, recNodeOk_mono hsub h.2⟩

theorem probWF_transport {s s' : ProbState} (h : ProbWF s) {t : List Element}
    (he : s'.elements = s.elements ++ t) (ht : ∀ e ∈ t, e.isArrow = false)
    (hf1 : s'.functionNodesInit = s.functionNodesInit)
    (hf2 : s'.functionNodesGoal = s.functionNodesGoal)
    (hc1 : s'.comparatorNodesInit = s.comparatorNodesInit)
    (hc2 : s'.comparatorNodesGoal = s.comparatorNodesGoal)
    (hfn : s'.functionNodes = s.functionNodes) : ProbWF s' := by
  have hsub : ∀ g ∈ s.elements, g ∈ s'.elements := by
    intro g hg
    rw [he]
    exact List.mem_append_left _ hg
  refine ⟨?_, ?_, ?_, ?_⟩
  · intro e hee
    rw [he] at hee
    rcases List.mem_append.mp hee with hh | hh
    · exact arrowEndpointsOk_subset hsub (h.1 e hh)
    · exact arrowEndpointsOk_of_not_arrow (ht e hh) _
  · intro cat kv hkv
    have hm : kv ∈ s.catFuncMap cat := by
      cases cat <;> simp only [ProbState.catFuncMap] at hkv ⊢ <;>
        [rw [hf1] at hkv; rw [hf2] at hkv] <;> exact hkv
    exact ⟨geomWithId_subset hsub (h.2.1 cat kv hm).1, (h.2.1 cat kv hm).2⟩
  · intro cat kv hkv
    have hm : kv ∈ s.catCompMap cat := by
      cases cat <;> simp only [ProbState.catCompMap] at hkv ⊢ <;>
        [rw [hc1] at hkv; rw [hc2] at hkv] <;> exact hkv
    exact ⟨geomWithId_subset hsub (h.2.2.1 cat kv hm).1, (h.2.2.1 cat kv hm).2⟩
  · intro r hr
    rw [hfn] at hr
    exact ⟨geomWithId_subset hsub (h.2.2.2 r hr).1, (h.2.2.2 r hr).2⟩

end Graph

namespace Graph

theorem probCreateFunctionNode_step (pname : String) (cat : PCat) (cx by0 : ℚ)
    (cols : Nat) (e : PddlExpr) (suffix : String) (argc : Nat) (s : ProbState)
    (h : ProbWF s) :
    ProbWF (probCreateFunctionNode pname cat cx by0 cols e suffix argc s).2.2 ∧
    (∃ t, (probCreateFunctionNode pname cat cx by0 cols e suffix argc s).2.2.elements =
      s.elements ++ t) ∧
    geomWithId (probCreateFunctionNode pname cat cx by0 cols e suffix argc s).2.2.elements
      (probCreateFunctionNode pname cat cx by0 cols e suffix argc s).1.id ∧
    strTakeIs (probCreateFunctionNode pname cat cx by0 cols e suffix argc s).1.id
      "function-" = true := by
  rcases hf : ((s.catFuncMap cat).find? (fun p => p.1 == formatFunctionLabelT e false)).map
      (·.2) with _ | info
  · -- fresh node
    cases cat with
    | init =>
      simp only [probCreateFunctionNode, ProbState.catFuncMap] at hf ⊢
      rw [hf]
      simp only [ProbState.setCatFuncMap]
      have hsub : ∀ g ∈ s.elements, g ∈ s.elements ++
          [createPredicateNode (formatFunctionLabelT e false)
            (compGridPos cx by0 cols argc).1 (compGridPos cx by0 cols argc).2
            (sanitizeId ("function-" ++ pname ++ "-" ++ PCat.init.text ++ "-" ++ suffix ++
              "-" ++ natLit s.functionNodeCounter ++ "-" ++ jsNameI e))
            FUNCTION_NODE_COLOR] := fun g hg => List.mem_append_left _ hg
      have hnew : geomWithId (s.elements ++
          [createPredicateNode (formatFunctionLabelT e false)
            (compGridPos cx by0 cols argc).1 (compGridPos cx by0 cols argc).2
            (sanitizeId ("function-" ++ pname ++ "-" ++ PCat.init.text ++ "-" ++ suffix ++
              "-" ++ natLit s.functionNodeCounter ++ "-" ++ jsNameI e))
            FUNCTION_NODE_COLOR])
          (sanitizeId ("function-" ++ pname ++ "-" ++ PCat.init.text ++ "-" ++ suffix ++
            "-" ++ natLit s.functionNodeCounter ++ "-" ++ jsNameI e)) := by
        refine ⟨_, List.mem_append_right _ (List.mem_singleton.mpr rfl), rfl, rfl⟩
      have hpfx : strTakeIs
          (sanitizeId ("function-" ++ pname ++ "-" ++ PCat.init.text ++ "-" ++ suffix ++
            "-" ++ natLit s.functionNodeCounter ++ "-" ++ jsNameI e)) "function-" = true := by
        exact sanitized_prefixed "function-" _ (by decide)
      refine ⟨⟨?_, ?_, ?_, ?_⟩, ⟨_, rfl⟩, hnew, hpfx⟩
      · intro e2 he2
        rcases List.mem_append.mp he2 with hh | hh
        · exact arrowEndpointsOk_subset hsub (h.1 e2 hh)
        · rw [List.mem_singleton.mp hh]
          exact arrowEndpointsOk_of_not_arrow (by rfl) _
      · intro cat2 kv hkv
        cases cat2 with
        | init =>
          simp only [ProbState.catFuncMap] at hkv
          rcases List.mem_append.mp hkv with hh | hh
          · exact ⟨geomWithId_subset hsub (h.2.1 .init kv hh).1, (h.2.1 .init kv hh).2⟩
          · rw [List.mem_singleton.mp hh]
            exact ⟨hnew, hpfx⟩
        | goal =>
          exact ⟨geomWithId_subset hsub (h.2.1 .goal kv hkv).1, (h.2.1 .goal kv hkv).2⟩
      · intro cat2 kv hkv
        cases cat2 with
        | init => exact ⟨geomWithId_subset hsub (h.2.2.1 .init kv hkv).1,
            (h.2.2.1 .init kv hkv).2⟩
        | goal => exact ⟨geomWithId_subset hsub (h.2.2.1 .goal kv hkv).1,
            (h.2.2.1 .goal kv hkv).2⟩
      · intro r hr
        rcases List.mem_append.mp hr with hh | hh
        · exact ⟨geomWithId_subset hsub (h.2.2.2 r hh).1, (h.2.2.2 r hh).2⟩
        · rw [List.mem_singleton.mp hh]
          exact ⟨hnew, hpfx⟩
    | goal =>
      simp only [probCreateFunctionNode, ProbState.catFuncMap] at hf ⊢
      rw [hf]
      simp only [ProbState.setCatFuncMap]
      have hsub : ∀ g ∈ s.elements, g ∈ s.elements ++
          [createPredicateNode (formatFunctionLabelT e false)
            (compGridPos cx by0 cols argc).1 (compGridPos cx by0 cols argc).2
            (sanitizeId ("function-" ++ pname ++ "-" ++ PCat.goal.text ++ "-" ++ suffix ++
              "-" ++ natLit s.functionNodeCounter ++ "-" ++ jsNameI e))
            FUNCTION_NODE_COLOR] := fun g hg => List.mem_append_left _ hg
      have hnew : geomWithId (s.elements ++
          [createPredicateNode (formatFunctionLabelT e false)
            (compGridPos cx by0 cols argc).1 (compGridPos cx by0 cols argc).2
            (sanitizeId ("function-" ++ pname ++ "-" ++ PCat.goal.text ++ "-" ++ suffix ++
              "-" ++ natLit s.functionNodeCounter ++ "-" ++ jsNameI e))
            FUNCTION_NODE_COLOR])
          (sanitizeId ("function-" ++ pname ++ "-" ++ PCat.goal.text ++ "-" ++ suffix ++
            "-" ++ natLit s.functionNodeCounter ++ "-" ++ jsNameI e)) := by
        refine ⟨_, List.mem_append_right _ (List.mem_singleton.mpr rfl), rfl, rfl⟩
      have hpfx : strTakeIs
          (sanitizeId ("function-" ++ pname ++ "-" ++ PCat.goal.text ++ "-" ++ suffix ++
            "-" ++ natLit s.functionNodeCounter ++ "-" ++ jsNameI e)) "function-" = true := by
        exact sanitized_prefixed "function-" _ (by decide)
      refine ⟨⟨?_, ?_, ?_, ?_⟩, ⟨_, rfl⟩, hnew, hpfx⟩
      · intro e2 he2
        rcases List.mem_append.mp he2 with hh | hh
        · exact arrowEndpointsOk_subset hsub (h.1 e2 hh)
        · rw [List.mem_singleton.mp hh]
          exact arrowEndpointsOk_of_not_arrow (by rfl) _
      · intro cat2 kv hkv
        cases cat2 with
        | init =>
          exact ⟨geomWithId_subset hsub (h.2.1 .init kv hkv).1, (h.2.1 .init kv hkv).2⟩
        | goal =>
          simp only [ProbState.catFuncMap] at hkv
          rcases List.mem_append.mp hkv with hh | hh
          · exact ⟨geomWithId_subset hsub (h.2.1 .goal kv hh).1, (h.2.1 .goal kv hh).2⟩
          · rw [List.mem_singleton.mp hh]
            exact ⟨hnew, hpfx⟩
      · intro cat2 kv hkv
        cases cat2 with
        | init => exact ⟨geomWithId_subset hsub (h.2.2.1 .init kv hkv).1,
            (h.2.2.1 .init kv hkv).2⟩
        | goal => exact ⟨geomWithId_subset hsub (h.2.2.1 .goal kv hkv).1,
            (h.2.2.1 .goal kv hkv).2⟩
      · intro r hr
        rcases List.mem_append.mp hr with hh | hh
        · exact ⟨geomWithId_subset hsub (h.2.2.2 r hh).1, (h.2.2.2 r hh).2⟩
        · rw [List.mem_singleton.mp hh]
          exact ⟨hnew, hpfx⟩
  · -- registry hit
    obtain ⟨kv, hfind, hkv2⟩ := Option.map_eq_some'.mp hf
    have hmem : kv ∈ s.catFuncMap cat := List.mem_of_find?_eq_some hfind
    have hreg := h.2.1 cat kv hmem
    rw [hkv2] at hreg
    simp only [probCreateFunctionNode] at hf ⊢
    rw [hf]
    refine ⟨⟨?_, ?_, ?_, ?_⟩, ⟨[], by simp⟩, hreg.1, hreg.2⟩
    · exact h.1
    · exact h.2.1
    · exact h.2.2.1
    · intro r hr
      rcases List.mem_append.mp hr with hh | hh
      · exact h.2.2.2 r hh
      · rw [List.mem_singleton.mp hh]
        exact hreg

end Graph

namespace Graph

theorem probWF_lit_step (pname : String) (cat : PCat) (cx by0 : ℚ) (cols : Nat)
    (label : String) (suffix : String) (argc : Nat) (s : ProbState) (h : ProbWF s) :
    ProbWF { s with
        elements := s.elements ++ [createPredicateNode label
          (compGridPos cx by0 cols argc).1 (compGridPos cx by0 cols argc).2
          (sanitizeId ("literal-" ++ pname ++ "-" ++ cat.text ++ "-" ++ suffix ++ "-" ++
            natLit s.valueNodeCounter)) FUNCTION_NODE_COLOR]
        valueNodeCounter := s.valueNodeCounter + 1
        maxElementBottom :=
          max s.maxElementBottom ((compGridPos cx by0 cols argc).2 + NODE_HEIGHT) } :=
  probWF_transport h rfl
    (by
      intro e2 he2
      rw [List.mem_singleton.mp he2]
      rfl)
    rfl rfl rfl rfl rfl

theorem probLit_node_ok (pname : String) (cat : PCat) (cx by0 : ℚ) (cols : Nat)
    (label : String) (suffix : String) (argc : Nat) (s : ProbState) :
    recNodeOk (s.elements ++ [createPredicateNode label
        (compGridPos cx by0 cols argc).1 (compGridPos cx by0 cols argc).2
        (sanitizeId ("literal-" ++ pname ++ "-" ++ cat.text ++ "-" ++ suffix ++ "-" ++
          natLit s.valueNodeCounter)) FUNCTION_NODE_COLOR])
      (some (createGraphNodeInfo
        (sanitizeId ("literal-" ++ pname ++ "-" ++ cat.text ++ "-" ++ suffix ++ "-" ++
          natLit s.valueNodeCounter))
        (compGridPos cx by0 cols argc).1 (compGridPos cx by0 cols argc).2
        NODE_WIDTH NODE_HEIGHT .ellipse)) := by
  refine ⟨⟨_, List.mem_append_right _ (List.mem_singleton.mpr rfl), rfl, rfl⟩, Or.inr ?_⟩
  exact sanitized_prefixed "literal-" _ (by decide)

theorem probCreateCompArgNode_step (pname : String) (cat : PCat) (cx by0 : ℚ)
    (cols : Nat) (argO : Option PddlArg) (suffix : String) (argc : Nat) (s : ProbState)
    (h : ProbWF s) :
    ProbWF (probCreateCompArgNode pname cat cx by0 cols argO suffix argc s).2.2.2 ∧
    (∃ t, (probCreateCompArgNode pname cat cx by0 cols argO suffix argc s).2.2.2.elements =
      s.elements ++ t) ∧
    recNodeOk (probCreateCompArgNode pname cat cx by0 cols argO suffix argc s).2.2.2.elements
      (probCreateCompArgNode pname cat cx by0 cols argO suffix argc s).1 := by
  rcases argO with _ | a
  · simp only [probCreateCompArgNode]
    exact ⟨h, ⟨[], by simp⟩, trivial⟩
  · rcases a with e | ⟨n, ty⟩
    · by_cases hfn : typeStr e = "function"
      · simp only [probCreateCompArgNode, if_pos hfn]
        obtain ⟨h1, h2, h3, h4⟩ :=
          probCreateFunctionNode_step pname cat cx by0 cols e suffix argc s h
        exact ⟨h1, h2, h3, Or.inl h4⟩
      · rcases hnl : getNumericLiteralText (some (.expr e)) with _ | t
        · simp only [probCreateCompArgNode, if_neg hfn, hnl]
          exact ⟨probWF_lit_step pname cat cx by0 cols _ suffix argc s h, ⟨_, rfl⟩,
            probLit_node_ok pname cat cx by0 cols _ suffix argc s⟩
        · simp only [probCreateCompArgNode, if_neg hfn, hnl]
          exact ⟨h, ⟨[], by simp⟩, trivial⟩
    · rcases hnl : getNumericLiteralText (some (.param n ty)) with _ | t
      · simp only [probCreateCompArgNode, hnl]
        exact ⟨probWF_lit_step pname cat cx by0 cols _ suffix argc s h, ⟨_, rfl⟩,
          probLit_node_ok pname cat cx by0 cols _ suffix argc s⟩
      · simp only [probCreateCompArgNode, hnl]
        exact ⟨h, ⟨[], by simp⟩, trivial⟩

end Graph

namespace Graph

theorem compRecordsLoop_wf (pname : String) (cat : PCat) (cx by0 : ℚ) (cols : Nat) :
    ∀ (es : List PddlExpr) (index argc : Nat) (s : ProbState), ProbWF s →
      ProbWF (compRecordsLoop pname cat cx by0 cols es index argc s).2.2 ∧
      (∃ t, (compRecordsLoop pname cat cx by0 cols es index argc s).2.2.elements =
        s.elements ++ t) ∧
      ∀ r ∈ (compRecordsLoop pname cat cx by0 cols es index argc s).1,
        recordOk (compRecordsLoop pname cat cx by0 cols es index argc s).2.2.elements r := by
  intro es
  induction es with
  | nil =>
    intro index argc s hs
    simp only [compRecordsLoop]
    exact ⟨hs, ⟨[], by simp⟩, by simp⟩
  | cons e rest ih =>
    intro index argc s hs
    have hLstep := probCreateCompArgNode_step pname cat cx by0 cols
      (argsOrEmpty e).head? ("comp-left-" ++ cat.text ++ "-" ++ natLit index) argc s hs
    rcases hL : probCreateCompArgNode pname cat cx by0 cols (argsOrEmpty e).head?
      ("comp-left-" ++ cat.text ++ "-" ++ natLit index) argc s with ⟨lN, lT, lA, lS⟩
    rw [hL] at hLstep
    dsimp only at hLstep
    obtain ⟨hl1, ⟨t1, hl2⟩, hl3⟩ := hLstep
    have hRstep := probCreateCompArgNode_step pname cat cx by0 cols
      ((argsOrEmpty e).drop 1).head? ("comp-right-" ++ cat.text ++ "-" ++ natLit index)
      lA lS hl1
    rcases hR : probCreateCompArgNode pname cat cx by0 cols ((argsOrEmpty e).drop 1).head?
      ("comp-right-" ++ cat.text ++ "-" ++ natLit index) lA lS with ⟨rN, rT, rA, rS⟩
    rw [hR] at hRstep
    dsimp only at hRstep
    obtain ⟨hr1, ⟨t2, hr2⟩, hr3⟩ := hRstep
    obtain ⟨hrest1, ⟨t3, hrest2⟩, hrest3⟩ := ih (index + 1) rA rS hr1
    simp only [compRecordsLoop, hL, hR]
    refine ⟨hrest1, ⟨t1 ++ (t2 ++ t3), ?_⟩, ?_⟩
    · rw [hrest2, hr2, hl2]
      simp [List.append_assoc]
    · intro r0 hr0
      rcases List.mem_cons.mp hr0 with hh | hh
      · subst hh
        have hsubL : ∀ g ∈ lS.elements,
            g ∈ (compRecordsLoop pname cat cx by0 cols rest (index + 1) rA rS).2.2.elements := by
          intro g hg
          rw [hrest2, hr2]
          exact List.mem_append_left _ (List.mem_append_left _ hg)
        have hsubR : ∀ g ∈ rS.elements,
            g ∈ (compRecordsLoop pname cat cx by0 cols rest (index + 1) rA rS).2.2.elements := by
          intro g hg
          rw [hrest2]
          exact List.mem_append_left _ hg
        exact ⟨recNodeOk_mono hsubL hl3, recNodeOk_mono hsubR hr3⟩
      · exact hrest3 r0 hh

end Graph

namespace Graph

theorem flOp_ne {i j : String}
    (hi : strTakeIs i "function-" = true ∨ strTakeIs i "literal-" = true)
    (hj : strTakeIs j "operator-" = true) : i ≠ j := by
  rcases hi with hi | hi
  · exact ne_of_distinct_prefixes (p := "function-") (q := "operator-") (by decide) (by decide)
      hi hj
  · exact ne_of_distinct_prefixes (p := "literal-") (q := "operator-") (by decide) (by decide)
      hi hj

theorem probWF_addArrow {s : ProbState} (h : ProbWF s) (a b : GraphNodeInfo) (eid : String)
    (ha : geomWithId s.elements a.id) (hb : geomWithId s.elements b.id) (hne : a.id ≠ b.id) :
    ProbWF { s with
        elements := s.elements ++ [createArrowLine a b none eid]
        comparatorEdgeCounter := s.comparatorEdgeCounter + 1 } ∧
    ({ s with
        elements := s.elements ++ [createArrowLine a b none eid]
        comparatorEdgeCounter := s.comparatorEdgeCounter + 1 } : ProbState).elements =
      s.elements ++ [createArrowLine a b none eid] := by
  have hsub : ∀ g ∈ s.elements, g ∈ s.elements ++ [createArrowLine a b none eid] :=
    fun g hg => List.mem_append_left _ hg
  refine ⟨⟨?_, ?_, ?_, ?_⟩, rfl⟩
  · intro e he
    rcases List.mem_append.mp he with hh | hh
    · exact arrowEndpointsOk_subset hsub (h.1 e hh)
    · rw [List.mem_singleton.mp hh]
      exact arrowEndpointsOk_create (geomWithId_subset hsub ha) (geomWithId_subset hsub hb)
        hne
  · intro cat kv hkv
    exact ⟨geomWithId_subset hsub (h.2.1 cat kv hkv).1, (h.2.1 cat kv hkv).2⟩
  · intro cat kv hkv
    exact ⟨geomWithId_subset hsub (h.2.2.1 cat kv hkv).1, (h.2.2.1 cat kv hkv).2⟩
  · intro r hr
    exact ⟨geomWithId_subset hsub (h.2.2.2 r hr).1, (h.2.2.2 r hr).2⟩

theorem probWF_opFresh (p1 p2 : ℚ) (rlbl oid : String) (cat : PCat)
    (info : GraphNodeInfo) (hid : info.id = oid)
    (hpfx : strTakeIs oid "operator-" = true) (key : String) (s : ProbState)
    (h : ProbWF s) :
    ProbWF (ProbState.setCatCompMap
      { s with
          elements := s.elements ++ [createPredicateNode rlbl p1 p2 oid OPERATOR_NODE_COLOR]
          comparatorNodeCounter := s.comparatorNodeCounter + 1
          maxElementBottom := max s.maxElementBottom (p2 + NODE_HEIGHT) }
      cat
      (ProbState.catCompMap
        { s with
            elements := s.elements ++
              [createPredicateNode rlbl p1 p2 oid OPERATOR_NODE_COLOR]
            comparatorNodeCounter := s.comparatorNodeCounter + 1
            maxElementBottom := max s.maxElementBottom (p2 + NODE_HEIGHT) } cat
        ++ [(key, info)])) ∧
    (ProbState.setCatCompMap
      { s with
          elements := s.elements ++ [createPredicateNode rlbl p1 p2 oid OPERATOR_NODE_COLOR]
          comparatorNodeCounter := s.comparatorNodeCounter + 1
          maxElementBottom := max s.maxElementBottom (p2 + NODE_HEIGHT) }
      cat
      (ProbState.catCompMap
        { s with
            elements := s.elements ++
              [createPredicateNode rlbl p1 p2 oid OPERATOR_NODE_COLOR]
            comparatorNodeCounter := s.comparatorNodeCounter + 1
            maxElementBottom := max s.maxElementBottom (p2 + NODE_HEIGHT) } cat
        ++ [(key, info)])).elements =
      s.elements ++ [createPredicateNode rlbl p1 p2 oid OPERATOR_NODE_COLOR] := by
  have hsub : ∀ g ∈ s.elements,
      g ∈ s.elements ++ [createPredicateNode rlbl p1 p2 oid OPERATOR_NODE_COLOR] :=
    fun g hg => List.mem_append_left _ hg
  have hnew : geomWithId
      (s.elements ++ [createPredicateNode rlbl p1 p2 oid OPERATOR_NODE_COLOR]) oid :=
    ⟨_, List.mem_append_right _ (List.mem_singleton.mpr rfl), rfl, rfl⟩
  cases cat with
  | init =>
    dsimp only [ProbState.setCatCompMap, ProbState.catCompMap]
    refine ⟨⟨?_, ?_, ?_, ?_⟩, rfl⟩
    · intro e he
      rcases List.mem_append.mp he with hh | hh
      · exact arrowEndpointsOk_subset hsub (h.1 e hh)
      · rw [List.mem_singleton.mp hh]
        exact arrowEndpointsOk_of_not_arrow (by rfl) _
    · intro cat2 kv hkv
      exact ⟨geomWithId_subset hsub (h.2.1 cat2 kv hkv).1, (h.2.1 cat2 kv hkv).2⟩
    · intro cat2 kv hkv
      cases cat2 with
      | init =>
        simp only [ProbState.catCompMap] at hkv
        rcases List.mem_append.mp hkv with hh | hh
        · exact ⟨geomWithId_subset hsub (h.2.2.1 .init kv hh).1, (h.2.2.1 .init kv hh).2⟩
        · rw [List.mem_singleton.mp hh]
          rw [hid]
          exact ⟨hnew, hpfx⟩
      | goal =>
        exact ⟨geomWithId_subset hsub (h.2.2.1 .goal kv hkv).1, (h.2.2.1 .goal kv hkv).2⟩
    · intro r hr
      exact ⟨geomWithId_subset hsub (h.2.2.2 r hr).1, (h.2.2.2 r hr).2⟩
  | goal =>
    dsimp only [ProbState.setCatCompMap, ProbState.catCompMap]
    refine ⟨⟨?_, ?_, ?_, ?_⟩, rfl⟩
    · intro e he
      rcases List.mem_append.mp he with hh | hh
      · exact arrowEndpointsOk_subset hsub (h.1 e hh)
      · rw [List.mem_singleton.mp hh]
        exact arrowEndpointsOk_of_not_arrow (by rfl) _
    · intro cat2 kv hkv
      exact ⟨geomWithId_subset hsub (h.2.1 cat2 kv hkv).1, (h.2.1 cat2 kv hkv).2⟩
    · intro cat2 kv hkv
      cases cat2 with
      | init =>
        exact ⟨geomWithId_subset hsub (h.2.2.1 .init kv hkv).1, (h.2.2.1 .init kv hkv).2⟩
      | goal =>
        simp only [ProbState.catCompMap] at hkv
        rcases List.mem_append.mp hkv with hh | hh
        · exact ⟨geomWithId_subset hsub (h.2.2.1 .goal kv hh).1, (h.2.2.1 .goal kv hh).2⟩
        · rw [List.mem_singleton.mp hh]
          rw [hid]
          exact ⟨hnew, hpfx⟩
    · intro r hr
      exact ⟨geomWithId_subset hsub (h.2.2.2 r hr).1, (h.2.2.2 r hr).2⟩

end Graph

namespace Graph

theorem appendTail_trans {x y z : List Element} (h1 : ∃ t, y = x ++ t)
    (h2 : ∃ t, z = y ++ t) : ∃ t, z = x ++ t := by
  obtain ⟨t1, h1⟩ := h1
  obtain ⟨t2, h2⟩ := h2
  exact ⟨t1 ++ t2, by rw [h2, h1, List.append_assoc]⟩

theorem subset_of_appendTail {x y : List Element} (h : ∃ t, y = x ++ t) :
    ∀ g ∈ x, g ∈ y := by
  obtain ⟨t, ht⟩ := h
  intro g hg
  rw [ht]
  exact List.mem_append_left _ hg

end Graph

namespace Graph

theorem geomWithId_of_appendNode {E E' : List Element} {el : Element}
    (h : E' = E ++ [el]) (hgeom : el.isGeometry = true) : geomWithId E' el.id := by
  subst h
  exact ⟨el, List.mem_append_right _ (List.mem_singleton.mpr rfl), hgeom, rfl⟩

theorem probWF_opFreshNoKey (p1 p2 : ℚ) (rlbl oid : String) (s : ProbState)
    (h : ProbWF s) :
    ProbWF { s with
        elements := s.elements ++ [createPredicateNode rlbl p1 p2 oid OPERATOR_NODE_COLOR]
        comparatorNodeCounter := s.comparatorNodeCounter + 1
        maxElementBottom := max s.maxElementBottom (p2 + NODE_HEIGHT) } ∧
    ({ s with
        elements := s.elements ++ [createPredicateNode rlbl p1 p2 oid OPERATOR_NODE_COLOR]
        comparatorNodeCounter := s.comparatorNodeCounter + 1
        maxElementBottom := max s.maxElementBottom (p2 + NODE_HEIGHT) } :
      ProbState).elements =
      s.elements ++ [createPredicateNode rlbl p1 p2 oid OPERATOR_NODE_COLOR] := by
  constructor
  · refine probWF_transport h rfl ?_ rfl rfl rfl rfl rfl
    intro e2 he2
    rw [List.mem_singleton.mp he2]
    rfl
  · rfl

end Graph

namespace Graph

theorem compOperatorLoop_wf (pname : String) (cat : PCat) (cx opY : ℚ) (cols : Nat) :
    ∀ (records : List ComparatorRecord) (opc : Nat) (s : ProbState), ProbWF s →
      (∀ r ∈ records, recordOk s.elements r) →
      ProbWF (compOperatorLoop pname cat cx opY cols records opc s).2 ∧
      (∃ t, (compOperatorLoop pname cat cx opY cols records opc s).2.elements =
        s.elements ++ t) := by
  intro records
  induction records with
  | nil =>
    intro opc s hs _
    simp only [compOperatorLoop]
    exact ⟨hs, ⟨[], by simp⟩⟩
  | cons record rest ih =>
    intro opc s hs hrec
    obtain ⟨ridx, rlbl, rkey, rleft, rright⟩ := record
    have hL : recNodeOk s.elements rleft := (hrec _ (List.mem_cons_self _ _)).1
    have hR : recNodeOk s.elements rright := (hrec _ (List.mem_cons_self _ _)).2
    have hrest : ∀ r ∈ rest, recordOk s.elements r :=
      fun r hr => hrec r (List.mem_cons_of_mem _ hr)
    rcases rkey with _ | key
    · -- no comparator key: a fresh operator node, no registry write
      obtain ⟨hs3, hels3⟩ := probWF_opFreshNoKey (compGridPos cx opY cols opc).1
        (compGridPos cx opY cols opc).2 rlbl
        (sanitizeId ("operator-" ++ pname ++ "-" ++ cat.text ++ "-" ++ natLit ridx ++ "-" ++
          natLit s.comparatorNodeCounter)) s hs
      have hop3 := geomWithId_of_appendNode hels3 (by rfl)
      have hoppfx : strTakeIs
          (sanitizeId ("operator-" ++ pname ++ "-" ++ cat.text ++ "-" ++ natLit ridx ++ "-" ++
            natLit s.comparatorNodeCounter)) "operator-" = true :=
        sanitized_prefixed "operator-" _ (by decide)
      have hsub3 := subset_of_appendTail ⟨_, hels3⟩
      rcases rleft with _ | lN <;> rcases rright with _ | rN
      · obtain ⟨hfin, happf⟩ := ih (opc + 1) _ hs3
          (fun r hr => recordOk_mono hsub3 (hrest r hr))
        simp only [compOperatorLoop]
        exact ⟨hfin, appendTail_trans ⟨_, hels3⟩ happf⟩
      · obtain ⟨hs5, hels5⟩ := probWF_addArrow hs3
          (createGraphNodeInfo
            (sanitizeId ("operator-" ++ pname ++ "-" ++ cat.text ++ "-" ++ natLit ridx ++
              "-" ++ natLit s.comparatorNodeCounter))
            (compGridPos cx opY cols opc).1 (compGridPos cx opY cols opc).2
            NODE_WIDTH NODE_HEIGHT .ellipse) rN
          (sanitizeId ("comp-edge-" ++ pname ++ "-" ++ cat.text ++ "-out-" ++
              natLit s.comparatorEdgeCounter))
          hop3 (recNodeOk_mono hsub3 hR).1
          (flOp_ne (recNodeOk_mono hsub3 hR).2 hoppfx).symm
        have hsub5 := subset_of_appendTail ⟨_, hels5⟩
        obtain ⟨hfin, happf⟩ := ih (opc + 1) _ hs5
          (fun r hr => recordOk_mono hsub5 (recordOk_mono hsub3 (hrest r hr)))
        simp only [compOperatorLoop]
        exact ⟨hfin, appendTail_trans ⟨_, hels3⟩ (appendTail_trans ⟨_, hels5⟩ happf)⟩
      · obtain ⟨hs4, hels4⟩ := probWF_addArrow hs3 lN
          (createGraphNodeInfo
            (sanitizeId ("operator-" ++ pname ++ "-" ++ cat.text ++ "-" ++ natLit ridx ++
              "-" ++ natLit s.comparatorNodeCounter))
            (compGridPos cx opY cols opc).1 (compGridPos cx opY cols opc).2
            NODE_WIDTH NODE_HEIGHT .ellipse)
          (sanitizeId ("comp-edge-" ++ pname ++ "-" ++ cat.text ++ "-in-" ++
              natLit s.comparatorEdgeCounter))
          (recNodeOk_mono hsub3 hL).1 hop3
          (flOp_ne (recNodeOk_mono hsub3 hL).2 hoppfx)
        have hsub4 := subset_of_appendTail ⟨_, hels4⟩
        obtain ⟨hfin, happf⟩ := ih (opc + 1) _ hs4
          (fun r hr => recordOk_mono hsub4 (recordOk_mono hsub3 (hrest r hr)))
        simp only [compOperatorLoop]
        exact ⟨hfin, appendTail_trans ⟨_, hels3⟩ (appendTail_trans ⟨_, hels4⟩ happf)⟩
      · obtain ⟨hs4, hels4⟩ := probWF_addArrow hs3 lN
          (createGraphNodeInfo
            (sanitizeId ("operator-" ++ pname ++ "-" ++ cat.text ++ "-" ++ natLit ridx ++
              "-" ++ natLit s.comparatorNodeCounter))
            (compGridPos cx opY cols opc).1 (compGridPos cx opY cols opc).2
            NODE_WIDTH NODE_HEIGHT .ellipse)
          (sanitizeId ("comp-edge-" ++ pname ++ "-" ++ cat.text ++ "-in-" ++
              natLit s.comparatorEdgeCounter))
          (recNodeOk_mono hsub3 hL).1 hop3
          (flOp_ne (recNodeOk_mono hsub3 hL).2 hoppfx)
        have hsub4 := subset_of_appendTail ⟨_, hels4⟩
        obtain ⟨hs5, hels5⟩ := probWF_addArrow hs4
          (createGraphNodeInfo
            (sanitizeId ("operator-" ++ pname ++ "-" ++ cat.text ++ "-" ++ natLit ridx ++
              "-" ++ natLit s.comparatorNodeCounter))
            (compGridPos cx opY cols opc).1 (compGridPos cx opY cols opc).2
            NODE_WIDTH NODE_HEIGHT .ellipse) rN
          (sanitizeId ("comp-edge-" ++ pname ++ "-" ++ cat.text ++ "-out-" ++
              natLit (s.comparatorEdgeCounter + 1)))
          (geomWithId_subset hsub4 hop3)
          (geomWithId_subset hsub4 (recNodeOk_mono hsub3 hR).1)
          (flOp_ne (recNodeOk_mono hsub3 hR).2 hoppfx).symm
        have hsub5 := subset_of_appendTail ⟨_, hels5⟩
        obtain ⟨hfin, happf⟩ := ih (opc + 1) _ hs5
          (fun r hr => recordOk_mono hsub5 (recordOk_mono hsub4
            (recordOk_mono hsub3 (hrest r hr))))
        simp only [compOperatorLoop]
        exact ⟨hfin, appendTail_trans ⟨_, hels3⟩ (appendTail_trans ⟨_, hels4⟩
          (appendTail_trans ⟨_, hels5⟩ happf))⟩
    · rcases hhit : ((s.catCompMap cat).find? (fun p => p.1 == key)).map (·.2)
        with _ | info
      · -- key present, no registry hit: fresh node and a registry write
        cases cat with
        | init =>
          obtain ⟨hs3, hels3⟩ := probWF_opFresh (compGridPos cx opY cols opc).1
            (compGridPos cx opY cols opc).2 rlbl
            (sanitizeId ("operator-" ++ pname ++ "-" ++ PCat.init.text ++ "-" ++ natLit ridx ++
              "-" ++ natLit s.comparatorNodeCounter)) PCat.init
            (createGraphNodeInfo
              (sanitizeId ("operator-" ++ pname ++ "-" ++ PCat.init.text ++ "-" ++ natLit ridx ++
                "-" ++ natLit s.comparatorNodeCounter))
              (compGridPos cx opY cols opc).1 (compGridPos cx opY cols opc).2
              NODE_WIDTH NODE_HEIGHT .ellipse) rfl
            (sanitized_prefixed "operator-" _ (by decide)) key s hs
          have hop3 := geomWithId_of_appendNode hels3 (by rfl)
          have hoppfx : strTakeIs
              (sanitizeId ("operator-" ++ pname ++ "-" ++ PCat.init.text ++ "-" ++ natLit ridx ++
                "-" ++ natLit s.comparatorNodeCounter)) "operator-" = true :=
            sanitized_prefixed "operator-" _ (by decide)
          have hsub3 := subset_of_appendTail ⟨_, hels3⟩
          rcases rleft with _ | lN <;> rcases rright with _ | rN
          · obtain ⟨hfin, happf⟩ := ih (opc + 1) _ hs3
              (fun r hr => recordOk_mono hsub3 (hrest r hr))
            simp only [compOperatorLoop, hhit]
            exact ⟨hfin, appendTail_trans ⟨_, hels3⟩ happf⟩
          · obtain ⟨hs5, hels5⟩ := probWF_addArrow hs3
              (createGraphNodeInfo
                (sanitizeId ("operator-" ++ pname ++ "-" ++ PCat.init.text ++ "-" ++ natLit ridx ++
                  "-" ++ natLit s.comparatorNodeCounter))
                (compGridPos cx opY cols opc).1 (compGridPos cx opY cols opc).2
                NODE_WIDTH NODE_HEIGHT .ellipse) rN
              (sanitizeId ("comp-edge-" ++ pname ++ "-" ++ PCat.init.text ++ "-out-" ++
                  natLit s.comparatorEdgeCounter))
              hop3 (recNodeOk_mono hsub3 hR).1
              (flOp_ne (recNodeOk_mono hsub3 hR).2 hoppfx).symm
            have hsub5 := subset_of_appendTail ⟨_, hels5⟩
            obtain ⟨hfin, happf⟩ := ih (opc + 1) _ hs5
              (fun r hr => recordOk_mono hsub5 (recordOk_mono hsub3 (hrest r hr)))
            simp only [compOperatorLoop, hhit]
            exact ⟨hfin, appendTail_trans ⟨_, hels3⟩ (appendTail_trans ⟨_, hels5⟩ happf)⟩
          · obtain ⟨hs4, hels4⟩ := probWF_addArrow hs3 lN
              (createGraphNodeInfo
                (sanitizeId ("operator-" ++ pname ++ "-" ++ PCat.init.text ++ "-" ++ natLit ridx ++
                  "-" ++ natLit s.comparatorNodeCounter))
                (compGridPos cx opY cols opc).1 (compGridPos cx opY cols opc).2
                NODE_WIDTH NODE_HEIGHT .ellipse)
              (sanitizeId ("comp-edge-" ++ pname ++ "-" ++ PCat.init.text ++ "-in-" ++
                  natLit s.comparatorEdgeCounter))
              (recNodeOk_mono hsub3 hL).1 hop3
              (flOp_ne (recNodeOk_mono hsub3 hL).2 hoppfx)
            have hsub4 := subset_of_appendTail ⟨_, hels4⟩
            obtain ⟨hfin, happf⟩ := ih (opc + 1) _ hs4
              (fun r hr => recordOk_mono hsub4 (recordOk_mono hsub3 (hrest r hr)))
            simp only [compOperatorLoop, hhit]
            exact ⟨hfin, appendTail_trans ⟨_, hels3⟩ (appendTail_trans ⟨_, hels4⟩ happf)⟩
          · obtain ⟨hs4, hels4⟩ := probWF_addArrow hs3 lN
              (createGraphNodeInfo
                (sanitizeId ("operator-" ++ pname ++ "-" ++ PCat.init.text ++ "-" ++ natLit ridx ++
                  "-" ++ natLit s.comparatorNodeCounter))
                (compGridPos cx opY cols opc).1 (compGridPos cx opY cols opc).2
                NODE_WIDTH NODE_HEIGHT .ellipse)
              (sanitizeId ("comp-edge-" ++ pname ++ "-" ++ PCat.init.text ++ "-in-" ++
                  natLit s.comparatorEdgeCounter))
              (recNodeOk_mono hsub3 hL).1 hop3
              (flOp_ne (recNodeOk_mono hsub3 hL).2 hoppfx)
            have hsub4 := subset_of_appendTail ⟨_, hels4⟩
            obtain ⟨hs5, hels5⟩ := probWF_addArrow hs4
              (createGraphNodeInfo
                (sanitizeId ("operator-" ++ pname ++ "-" ++ PCat.init.text ++ "-" ++ natLit ridx ++
                  "-" ++ natLit s.comparatorNodeCounter))
                (compGridPos cx opY cols opc).1 (compGridPos cx opY cols opc).2
                NODE_WIDTH NODE_HEIGHT .ellipse) rN
              (sanitizeId ("comp-edge-" ++ pname ++ "-" ++ PCat.init.text ++ "-out-" ++
                  natLit (s.comparatorEdgeCounter + 1)))
              (geomWithId_subset hsub4 hop3)
              (geomWithId_subset hsub4 (recNodeOk_mono hsub3 hR).1)
              (flOp_ne (recNodeOk_mono hsub3 hR).2 hoppfx).symm
            have hsub5 := subset_of_appendTail ⟨_, hels5⟩
            obtain ⟨hfin, happf⟩ := ih (opc + 1) _ hs5
              (fun r hr => recordOk_mono hsub5 (recordOk_mono hsub4
                (recordOk_mono hsub3 (hrest r hr))))
            simp only [compOperatorLoop, hhit]
            exact ⟨hfin, appendTail_trans ⟨_, hels3⟩ (appendTail_trans ⟨_, hels4⟩
              (appendTail_trans ⟨_, hels5⟩ happf))⟩
        | goal =>
          obtain ⟨hs3, hels3⟩ := probWF_opFresh (compGridPos cx opY cols opc).1
            (compGridPos cx opY cols opc).2 rlbl
            (sanitizeId ("operator-" ++ pname ++ "-" ++ PCat.goal.text ++ "-" ++ natLit ridx ++
              "-" ++ natLit s.comparatorNodeCounter)) PCat.goal
            (createGraphNodeInfo
              (sanitizeId ("operator-" ++ pname ++ "-" ++ PCat.goal.text ++ "-" ++ natLit ridx ++
                "-" ++ natLit s.comparatorNodeCounter))
              (compGridPos cx opY cols opc).1 (compGridPos cx opY cols opc).2
              NODE_WIDTH NODE_HEIGHT .ellipse) rfl
            (sanitized_prefixed "operator-" _ (by decide)) key s hs
          have hop3 := geomWithId_of_appendNode hels3 (by rfl)
          have hoppfx : strTakeIs
              (sanitizeId ("operator-" ++ pname ++ "-" ++ PCat.goal.text ++ "-" ++ natLit ridx ++
                "-" ++ natLit s.comparatorNodeCounter)) "operator-" = true :=
            sanitized_prefixed "operator-" _ (by decide)
          have hsub3 := subset_of_appendTail ⟨_, hels3⟩
          rcases rleft with _ | lN <;> rcases rright with _ | rN
          · obtain ⟨hfin, happf⟩ := ih (opc + 1) _ hs3
              (fun r hr => recordOk_mono hsub3 (hrest r hr))
            simp only [compOperatorLoop, hhit]
            exact ⟨hfin, appendTail_trans ⟨_, hels3⟩ happf⟩
          · obtain ⟨hs5, hels5⟩ := probWF_addArrow hs3
              (createGraphNodeInfo
                (sanitizeId ("operator-" ++ pname ++ "-" ++ PCat.goal.text ++ "-" ++ natLit ridx ++
                  "-" ++ natLit s.comparatorNodeCounter))
                (compGridPos cx opY cols opc).1 (compGridPos cx opY cols opc).2
                NODE_WIDTH NODE_HEIGHT .ellipse) rN
              (sanitizeId ("comp-edge-" ++ pname ++ "-" ++ PCat.goal.text ++ "-out-" ++
                  natLit s.comparatorEdgeCounter))
              hop3 (recNodeOk_mono hsub3 hR).1
              (flOp_ne (recNodeOk_mono hsub3 hR).2 hoppfx).symm
            have hsub5 := subset_of_appendTail ⟨_, hels5⟩
            obtain ⟨hfin, happf⟩ := ih (opc + 1) _ hs5
              (fun r hr => recordOk_mono hsub5 (recordOk_mono hsub3 (hrest r hr)))
            simp only [compOperatorLoop, hhit]
            exact ⟨hfin, appendTail_trans ⟨_, hels3⟩ (appendTail_trans ⟨_, hels5⟩ happf)⟩
          · obtain ⟨hs4, hels4⟩ := probWF_addArrow hs3 lN
              (createGraphNodeInfo
                (sanitizeId ("operator-" ++ pname ++ "-" ++ PCat.goal.text ++ "-" ++ natLit ridx ++
                  "-" ++ natLit s.comparatorNodeCounter))
                (compGridPos cx opY cols opc).1 (compGridPos cx opY cols opc).2
                NODE_WIDTH NODE_HEIGHT .ellipse)
              (sanitizeId ("comp-edge-" ++ pname ++ "-" ++ PCat.goal.text ++ "-in-" ++
                  natLit s.comparatorEdgeCounter))
              (recNodeOk_mono hsub3 hL).1 hop3
              (flOp_ne (recNodeOk_mono hsub3 hL).2 hoppfx)
            have hsub4 := subset_of_appendTail ⟨_, hels4⟩
            obtain ⟨hfin, happf⟩ := ih (opc + 1) _ hs4
              (fun r hr => recordOk_mono hsub4 (recordOk_mono hsub3 (hrest r hr)))
            simp only [compOperatorLoop, hhit]
            exact ⟨hfin, appendTail_trans ⟨_, hels3⟩ (appendTail_trans ⟨_, hels4⟩ happf)⟩
          · obtain ⟨hs4, hels4⟩ := probWF_addArrow hs3 lN
              (createGraphNodeInfo
                (sanitizeId ("operator-" ++ pname ++ "-" ++ PCat.goal.text ++ "-" ++ natLit ridx ++
                  "-" ++ natLit s.comparatorNodeCounter))
                (compGridPos cx opY cols opc).1 (compGridPos cx opY cols opc).2
                NODE_WIDTH NODE_HEIGHT .ellipse)
              (sanitizeId ("comp-edge-" ++ pname ++ "-" ++ PCat.goal.text ++ "-in-" ++
                  natLit s.comparatorEdgeCounter))
              (recNodeOk_mono hsub3 hL).1 hop3
              (flOp_ne (recNodeOk_mono hsub3 hL).2 hoppfx)
            have hsub4 := subset_of_appendTail ⟨_, hels4⟩
            obtain ⟨hs5, hels5⟩ := probWF_addArrow hs4
              (createGraphNodeInfo
                (sanitizeId ("operator-" ++ pname ++ "-" ++ PCat.goal.text ++ "-" ++ natLit ridx ++
                  "-" ++ natLit s.comparatorNodeCounter))
                (compGridPos cx opY cols opc).1 (compGridPos cx opY cols opc).2
                NODE_WIDTH NODE_HEIGHT .ellipse) rN
              (sanitizeId ("comp-edge-" ++ pname ++ "-" ++ PCat.goal.text ++ "-out-" ++
                  natLit (s.comparatorEdgeCounter + 1)))
              (geomWithId_subset hsub4 hop3)
              (geomWithId_subset hsub4 (recNodeOk_mono hsub3 hR).1)
              (flOp_ne (recNodeOk_mono hsub3 hR).2 hoppfx).symm
            have hsub5 := subset_of_appendTail ⟨_, hels5⟩
            obtain ⟨hfin, happf⟩ := ih (opc + 1) _ hs5
              (fun r hr => recordOk_mono hsub5 (recordOk_mono hsub4
                (recordOk_mono hsub3 (hrest r hr))))
            simp only [compOperatorLoop, hhit]
            exact ⟨hfin, appendTail_trans ⟨_, hels3⟩ (appendTail_trans ⟨_, hels4⟩
              (appendTail_trans ⟨_, hels5⟩ happf))⟩
      · -- registry hit: reuse the stored operator node, state unchanged
        obtain ⟨kv, hfind, hkv2⟩ := Option.map_eq_some'.mp hhit
        have hmem : kv ∈ s.catCompMap cat := List.mem_of_find?_eq_some hfind
        have hreg := hs.2.2.1 cat kv hmem
        rw [hkv2] at hreg
        have hs3 := hs
        have hop3 := hreg.1
        have hoppfx := hreg.2
        have hsub3 : ∀ g ∈ s.elements, g ∈ s.elements := fun g hg => hg
        rcases rleft with _ | lN <;> rcases rright with _ | rN
        · obtain ⟨hfin, happf⟩ := ih opc _ hs3
            (fun r hr => recordOk_mono hsub3 (hrest r hr))
          simp only [compOperatorLoop, hhit]
          exact ⟨hfin, appendTail_trans (⟨[], by simp⟩ : ∃ t, s.elements = s.elements ++ t) happf⟩
        · obtain ⟨hs5, hels5⟩ := probWF_addArrow hs3
            info rN
            (sanitizeId ("comp-edge-" ++ pname ++ "-" ++ cat.text ++ "-out-" ++
                natLit s.comparatorEdgeCounter))
            hop3 (recNodeOk_mono hsub3 hR).1
            (flOp_ne (recNodeOk_mono hsub3 hR).2 hoppfx).symm
          have hsub5 := subset_of_appendTail ⟨_, hels5⟩
          obtain ⟨hfin, happf⟩ := ih opc _ hs5
            (fun r hr => recordOk_mono hsub5 (recordOk_mono hsub3 (hrest r hr)))
          simp only [compOperatorLoop, hhit]
          exact ⟨hfin, appendTail_trans (⟨[], by simp⟩ : ∃ t, s.elements = s.elements ++ t) (appendTail_trans ⟨_, hels5⟩ happf)⟩
        · obtain ⟨hs4, hels4⟩ := probWF_addArrow hs3 lN
            info
            (sanitizeId ("comp-edge-" ++ pname ++ "-" ++ cat.text ++ "-in-" ++
                natLit s.comparatorEdgeCounter))
            (recNodeOk_mono hsub3 hL).1 hop3
            (flOp_ne (recNodeOk_mono hsub3 hL).2 hoppfx)
          have hsub4 := subset_of_appendTail ⟨_, hels4⟩
          obtain ⟨hfin, happf⟩ := ih opc _ hs4
            (fun r hr => recordOk_mono hsub4 (recordOk_mono hsub3 (hrest r hr)))
          simp only [compOperatorLoop, hhit]
          exact ⟨hfin, appendTail_trans (⟨[], by simp⟩ : ∃ t, s.elements = s.elements ++ t) (appendTail_trans ⟨_, hels4⟩ happf)⟩
        · obtain ⟨hs4, hels4⟩ := probWF_addArrow hs3 lN
            info
            (sanitizeId ("comp-edge-" ++ pname ++ "-" ++ cat.text ++ "-in-" ++
                natLit s.comparatorEdgeCounter))
            (recNodeOk_mono hsub3 hL).1 hop3
            (flOp_ne (recNodeOk_mono hsub3 hL).2 hoppfx)
          have hsub4 := subset_of_appendTail ⟨_, hels4⟩
          obtain ⟨hs5, hels5⟩ := probWF_addArrow hs4
            info rN
            (sanitizeId ("comp-edge-" ++ pname ++ "-" ++ cat.text ++ "-out-" ++
                natLit (s.comparatorEdgeCounter + 1)))
            (geomWithId_subset hsub4 hop3)
            (geomWithId_subset hsub4 (recNodeOk_mono hsub3 hR).1)
            (flOp_ne (recNodeOk_mono hsub3 hR).2 hoppfx).symm
          have hsub5 := subset_of_appendTail ⟨_, hels5⟩
          obtain ⟨hfin, happf⟩ := ih opc _ hs5
            (fun r hr => recordOk_mono hsub5 (recordOk_mono hsub4
              (recordOk_mono hsub3 (hrest r hr))))
          simp only [compOperatorLoop, hhit]
          exact ⟨hfin, appendTail_trans (⟨[], by simp⟩ : ∃ t, s.elements = s.elements ++ t) (appendTail_trans ⟨_, hels4⟩
            (appendTail_trans ⟨_, hels5⟩ happf))⟩

end Graph

namespace Graph

theorem probWF_scalars {s : ProbState} (h : ProbWF s) (a b c : ℚ) :
    ProbWF { s with maxElementBottom := a, lastSectionStartY := b, lastSectionRows := c } :=
  ⟨h.1, h.2.1, h.2.2.1, h.2.2.2⟩

theorem placeComparatorSection_wf (pname : String) (cat : PCat) (cx : ℚ) (pcols : Nat)
    (comps : List PddlExpr) (baseY : ℚ) (s : ProbState) (h : ProbWF s) :
    ProbWF (placeComparatorSection pname cat cx pcols comps baseY s).2 ∧
    (∃ t, (placeComparatorSection pname cat cx pcols comps baseY s).2.elements =
      s.elements ++ t) := by
  obtain ⟨h1, happ1, hrec⟩ := compRecordsLoop_wf pname cat cx baseY
    (max 1 (min PROBLEM_MAX_COLUMNS pcols)) comps 0 0 s h
  obtain ⟨h2, happ2⟩ := compOperatorLoop_wf pname cat cx
    (baseY + ((((if (compRecordsLoop pname cat cx baseY (max 1 (min PROBLEM_MAX_COLUMNS pcols))
        comps 0 0 s).2.1 = 0 then 0
        else ceilDivNat (compRecordsLoop pname cat cx baseY (max 1 (min PROBLEM_MAX_COLUMNS pcols))
        comps 0 0 s).2.1 (max 1 (min PROBLEM_MAX_COLUMNS pcols))) : Nat) : ℚ) * NODE_SPACING_Y) +
        (if ((((if (compRecordsLoop pname cat cx baseY (max 1 (min PROBLEM_MAX_COLUMNS pcols))
        comps 0 0 s).2.1 = 0 then 0
        else ceilDivNat (compRecordsLoop pname cat cx baseY (max 1 (min PROBLEM_MAX_COLUMNS pcols))
        comps 0 0 s).2.1 (max 1 (min PROBLEM_MAX_COLUMNS pcols))) : Nat) : ℚ) * NODE_SPACING_Y) > 0 then SECTION_GAP else 0))
    (max 1 (min PROBLEM_MAX_COLUMNS pcols))
    (compRecordsLoop pname cat cx baseY (max 1 (min PROBLEM_MAX_COLUMNS pcols))
        comps 0 0 s).1 0 (compRecordsLoop pname cat cx baseY (max 1 (min PROBLEM_MAX_COLUMNS pcols))
        comps 0 0 s).2.2 h1 hrec
  rw [placeComparatorSection]
  split
  · exact ⟨h, ⟨[], by simp⟩⟩
  · constructor
    · exact probWF_scalars h2 _ _ _
    · exact appendTail_trans happ1 happ2

end Graph

namespace Graph

theorem pPP_elems_not_arrow (pname : String) (cat : PCat) (cx by0 : ℚ) (cols : Nat) :
    ∀ (ps : List ExtractedPredicate) (idx : Nat) (m : List (String × GraphNodeInfo)) (mEB : ℚ),
      ∀ e ∈ (placeProblemPredicates pname cat cx by0 cols ps idx m mEB).1,
        e.isArrow = false := by
  intro ps
  induction ps with
  | nil =>
    intro idx m mEB e he
    simp [placeProblemPredicates] at he
  | cons p rest ih =>
    intro idx m mEB e he
    rw [placeProblemPredicates] at he
    split at he
    · exact ih _ _ _ e he
    · dsimp only at he
      rcases List.mem_cons.mp he with hh | hh
      · subst hh
        rfl
      · exact ih _ _ _ e hh

theorem pPP_registry (pname : String) (cat : PCat) (cx by0 : ℚ) (cols : Nat) :
    ∀ (ps : List ExtractedPredicate) (idx : Nat) (m : List (String × GraphNodeInfo)) (mEB : ℚ),
      ∀ kv ∈ (placeProblemPredicates pname cat cx by0 cols ps idx m mEB).2.1,
        kv ∈ m ∨
        ((∃ g ∈ (placeProblemPredicates pname cat cx by0 cols ps idx m mEB).1,
            g.isGeometry = true ∧ g.id = kv.2.id) ∧
          strTakeIs kv.2.id "problem-" = true) := by
  intro ps
  induction ps with
  | nil =>
    intro idx m mEB kv hkv
    simp only [placeProblemPredicates] at hkv
    exact Or.inl hkv
  | cons p rest ih =>
    intro idx m mEB kv hkv
    rw [placeProblemPredicates] at hkv ⊢
    split at hkv
    · rename_i hseen
      rw [if_pos hseen]
      exact ih _ _ _ kv hkv
    · rename_i hseen
      rw [if_neg hseen]
      dsimp only at hkv ⊢
      rcases ih _ _ _ kv hkv with hh | ⟨⟨g, hg, h1, h2⟩, h3⟩
      · rcases List.mem_append.mp hh with hm | hnew
        · exact Or.inl hm
        · refine Or.inr ⟨⟨_, List.mem_cons_self _ _, rfl, ?_⟩, ?_⟩
          · rw [List.mem_singleton.mp hnew]
            rfl
          · rw [List.mem_singleton.mp hnew]
            exact sanitized_prefixed "problem-" _ (by decide)
      · exact Or.inr ⟨⟨g, List.mem_cons_of_mem _ hg, h1, h2⟩, h3⟩

theorem pPO_elems_not_arrow (pname : String) (cx by0 : ℚ) (cols : Nat) :
    ∀ (objs : List PddlObject) (idx : Nat) (mEB : ℚ),
      ∀ e ∈ (placeProblemObjects pname cx by0 cols objs idx mEB).1, e.isArrow = false := by
  intro objs
  induction objs with
  | nil =>
    intro idx mEB e he
    simp [placeProblemObjects] at he
  | cons o rest ih =>
    intro idx mEB e he
    rw [placeProblemObjects] at he
    dsimp only at he
    rcases List.mem_cons.mp he with hh | hh
    · subst hh
      rfl
    · exact ih _ _ e hh

theorem pPO_registry (pname : String) (cx by0 : ℚ) (cols : Nat) :
    ∀ (objs : List PddlObject) (idx : Nat) (mEB : ℚ),
      ∀ kv ∈ (placeProblemObjects pname cx by0 cols objs idx mEB).2.1,
        (∃ g ∈ (placeProblemObjects pname cx by0 cols objs idx mEB).1,
          g.isGeometry = true ∧ g.id = kv.2.id) ∧
        strTakeIs kv.2.id "object-" = true := by
  intro objs
  induction objs with
  | nil =>
    intro idx mEB kv hkv
    simp [placeProblemObjects] at hkv
  | cons o rest ih =>
    intro idx mEB kv hkv
    rw [placeProblemObjects] at hkv ⊢
    dsimp only at hkv ⊢
    rcases List.mem_cons.mp hkv with hh | hh
    · subst hh
      exact ⟨⟨_, List.mem_cons_self _ _, rfl, rfl⟩,
        sanitized_prefixed "object-" _ (by decide)⟩
    · obtain ⟨⟨g, hg, h1, h2⟩, h3⟩ := ih _ _ kv hh
      exact ⟨⟨g, List.mem_cons_of_mem _ hg, h1, h2⟩, h3⟩

theorem problemS2_regs (problem : PddlProblem) (x y : ℚ) :
    (problemS2 problem x y).functionNodesInit =
      (problemStep1 problem x y).2.functionNodesInit ∧
    (problemS2 problem x y).functionNodesGoal =
      (problemStep1 problem x y).2.functionNodesGoal ∧
    (problemS2 problem x y).comparatorNodesInit =
      (problemStep1 problem x y).2.comparatorNodesInit ∧
    (problemS2 problem x y).comparatorNodesGoal =
      (problemStep1 problem x y).2.comparatorNodesGoal ∧
    (problemS2 problem x y).functionNodes = (problemStep1 problem x y).2.functionNodes := by
  rw [problemS2]
  split <;> exact ⟨rfl, rfl, rfl, rfl, rfl⟩

theorem problemS3_regs (problem : PddlProblem) (x y : ℚ) :
    (problemS3 problem x y).functionNodesInit = (problemS2 problem x y).functionNodesInit ∧
    (problemS3 problem x y).functionNodesGoal = (problemS2 problem x y).functionNodesGoal ∧
    (problemS3 problem x y).comparatorNodesInit =
      (problemS2 problem x y).comparatorNodesInit ∧
    (problemS3 problem x y).comparatorNodesGoal =
      (problemS2 problem x y).comparatorNodesGoal ∧
    (problemS3 problem x y).functionNodes = (problemS2 problem x y).functionNodes := by
  rw [problemS3]
  split <;> exact ⟨rfl, rfl, rfl, rfl, rfl⟩

theorem problemS4_regs (problem : PddlProblem) (x y : ℚ) :
    (problemS4 problem x y).functionNodesInit = (problemS3 problem x y).functionNodesInit ∧
    (problemS4 problem x y).functionNodesGoal = (problemS3 problem x y).functionNodesGoal ∧
    (problemS4 problem x y).comparatorNodesInit =
      (problemS3 problem x y).comparatorNodesInit ∧
    (problemS4 problem x y).comparatorNodesGoal =
      (problemS3 problem x y).comparatorNodesGoal ∧
    (problemS4 problem x y).functionNodes = (problemS3 problem x y).functionNodes := by
  rw [problemS4]
  split <;> exact ⟨rfl, rfl, rfl, rfl, rfl⟩

end Graph

namespace Graph

theorem problemS0_wf (y : ℚ) : ProbWF (problemS0 y) := by
  refine ⟨?_, ?_, ?_, ?_⟩
  · intro e he
    simp [problemS0] at he
  · intro cat kv hkv
    cases cat <;> simp [problemS0, ProbState.catFuncMap] at hkv
  · intro cat kv hkv
    cases cat <;> simp [problemS0, ProbState.catCompMap] at hkv
  · intro r hr
    simp [problemS0] at hr

theorem problemStep1_wf (problem : PddlProblem) (x y : ℚ) :
    ProbWF (problemStep1 problem x y).2 ∧
    ∃ t, (problemStep1 problem x y).2.elements = (problemS0 y).elements ++ t := by
  rw [problemStep1]
  exact placeComparatorSection_wf _ _ _ _ _ _ _ (problemS0_wf y)

theorem problemS2_wf (problem : PddlProblem) (x y : ℚ) :
    ProbWF (problemS2 problem x y) := by
  have hregs := problemS2_regs problem x y
  refine probWF_transport (problemStep1_wf problem x y).1 (problemS2_elements problem x y)
    ?_ hregs.1 hregs.2.1 hregs.2.2.1 hregs.2.2.2.1 hregs.2.2.2.2
  rw [problemInitBand]
  exact pPP_elems_not_arrow _ _ _ _ _ _ _ _ _

theorem problemS3_wf (problem : PddlProblem) (x y : ℚ) :
    ProbWF (problemS3 problem x y) := by
  have hregs := problemS3_regs problem x y
  refine probWF_transport (problemS2_wf problem x y) (problemS3_elements problem x y)
    ?_ hregs.1 hregs.2.1 hregs.2.2.1 hregs.2.2.2.1 hregs.2.2.2.2
  rw [problemObjectBand]
  exact pPO_elems_not_arrow _ _ _ _ _ _ _

theorem problemS4_wf (problem : PddlProblem) (x y : ℚ) :
    ProbWF (problemS4 problem x y) := by
  have hregs := problemS4_regs problem x y
  refine probWF_transport (problemS3_wf problem x y) (problemS4_elements problem x y)
    ?_ hregs.1 hregs.2.1 hregs.2.2.1 hregs.2.2.2.1 hregs.2.2.2.2
  rw [problemGoalBand]
  exact pPP_elems_not_arrow _ _ _ _ _ _ _ _ _

theorem problemStep5_wf (problem : PddlProblem) (x y : ℚ) :
    ProbWF (problemStep5 problem x y).2 ∧
    ∃ t, (problemStep5 problem x y).2.elements = (problemS4 problem x y).elements ++ t := by
  rw [problemStep5]
  exact placeComparatorSection_wf _ _ _ _ _ _ _ (problemS4_wf problem x y)

theorem problem_band_sub (problem : PddlProblem) (x y : ℚ) :
    (∀ g ∈ (problemInitBand problem x y).1, g ∈ (problemStep5 problem x y).2.elements) ∧
    (∀ g ∈ (problemObjectBand problem x y).1, g ∈ (problemStep5 problem x y).2.elements) ∧
    (∀ g ∈ (problemGoalBand problem x y).1, g ∈ (problemStep5 problem x y).2.elements) := by
  have hsub5 := subset_of_appendTail (problemStep5_wf problem x y).2
  refine ⟨?_, ?_, ?_⟩
  · intro g hg
    apply hsub5
    rw [problemS4_elements]
    apply List.mem_append_left
    rw [problemS3_elements]
    apply List.mem_append_left
    rw [problemS2_elements]
    exact List.mem_append_right _ hg
  · intro g hg
    apply hsub5
    rw [problemS4_elements]
    apply List.mem_append_left
    rw [problemS3_elements]
    exact List.mem_append_right _ hg
  · intro g hg
    apply hsub5
    rw [problemS4_elements]
    exact List.mem_append_right _ hg

end Graph

namespace Graph

theorem problemBody_endpoints (problem : PddlProblem) (x y : ℚ) (gid : String) :
    ∀ e ∈ problemBody problem x y gid, arrowEndpointsOk (problemBody problem x y gid) e := by
  have hiff : ∀ a, a ∈ problemBody problem x y gid ↔
      a ∈ (problemStep5 problem x y).2.elements ∨
      a ∈ problemDescElems problem x y gid ∨
      a ∈ (problemPredEdges problem x y).1 ∨
      a ∈ (problemFuncEdges problem x y).1 := by
    intro a
    simp [problemBody, List.mem_append, or_assoc]
  have hsubS5 : ∀ g0 ∈ (problemStep5 problem x y).2.elements,
      g0 ∈ problemBody problem x y gid :=
    fun g0 hg0 => (hiff g0).mpr (Or.inl hg0)
  have hband := problem_band_sub problem x y
  have h5 := (problemStep5_wf problem x y).1
  have hmapU : ∀ kv ∈ (problemObjectBand problem x y).2.1,
      geomWithId (problemBody problem x y gid) kv.2.id ∧
        strTakeIs kv.2.id "object-" = true := by
    intro kv hkv
    rw [problemObjectBand] at hkv
    obtain ⟨⟨g0, hg0, h1, h2⟩, h3⟩ := pPO_registry _ _ _ _ _ _ _ kv hkv
    exact ⟨⟨g0, hsubS5 g0 (hband.2.1 g0 hg0), h1, h2⟩, h3⟩
  have hrecP : ∀ r ∈ problemPredicateEdgeInput problem x y,
      geomWithId (problemBody problem x y gid) r.1.id ∧
        strTakeIs r.1.id "problem-" = true := by
    intro r hr
    rw [problemPredicateEdgeInput] at hr
    rcases List.mem_append.mp hr with hh | hh
    · rw [assignPredicateNodesForEdges] at hh
      obtain ⟨p, hp, hfm⟩ := List.mem_filterMap.mp hh
      rcases hfind : ((problemInitBand problem x y).2.1.find?
          (fun kv => kv.1 == getPredicateLabel p)) with _ | kv0
      · rw [hfind] at hfm
        simp at hfm
      · rw [hfind] at hfm
        simp only [Option.map_some'] at hfm
        have hfm2 := Option.some.inj hfm
        have hmem := List.mem_of_find?_eq_some hfind
        rw [problemInitBand] at hmem
        rcases pPP_registry _ _ _ _ _ _ _ _ _ kv0 hmem with hin | ⟨⟨g0, hg0, h1, h2⟩, h3⟩
        · simp at hin
        · rw [← hfm2]
          exact ⟨⟨g0, hsubS5 g0 (hband.1 g0 hg0), h1, h2⟩, h3⟩
    · rw [assignPredicateNodesForEdges] at hh
      obtain ⟨p, hp, hfm⟩ := List.mem_filterMap.mp hh
      rcases hfind : ((problemGoalBand problem x y).2.1.find?
          (fun kv => kv.1 == getPredicateLabel p)) with _ | kv0
      · rw [hfind] at hfm
        simp at hfm
      · rw [hfind] at hfm
        simp only [Option.map_some'] at hfm
        have hfm2 := Option.some.inj hfm
        have hmem := List.mem_of_find?_eq_some hfind
        rw [problemGoalBand] at hmem
        rcases pPP_registry _ _ _ _ _ _ _ _ _ kv0 hmem with hin | ⟨⟨g0, hg0, h1, h2⟩, h3⟩
        · simp at hin
        · rw [← hfm2]
          exact ⟨⟨g0, hsubS5 g0 (hband.2.2 g0 hg0), h1, h2⟩, h3⟩
  have hrecF : ∀ r ∈ (problemStep5 problem x y).2.functionNodes.map
        (fun r => (r.info, r.expr)),
      geomWithId (problemBody problem x y gid) r.1.id ∧
        strTakeIs r.1.id "function-" = true := by
    intro r hr
    obtain ⟨fr, hfr, hr2⟩ := List.mem_map.mp hr
    subst hr2
    obtain ⟨⟨g0, hg0, h1, h2⟩, h3⟩ := h5.2.2.2 fr hfr
    exact ⟨⟨g0, hsubS5 g0 hg0, h1, h2⟩, h3⟩
  intro e he
  rcases (hiff e).mp he with h | h | h | h
  · exact arrowEndpointsOk_subset hsubS5 (h5.1 e h)
  · rw [problemDescElems] at h
    simp only [List.mem_cons, List.not_mem_nil, or_false] at h
    rcases h with h | h <;> subst h <;>
      exact arrowEndpointsOk_of_not_arrow (by rfl) _
  · rw [problemPredEdges] at h
    exact argEdgesLoop_endpoints "problem-edge-" (problemObjectBand problem x y).2.1
      (problemBody problem x y gid) (fun kv hkv => (hmapU kv hkv).1)
      (problemPredicateEdgeInput problem x y) 0 (fun r hr => (hrecP r hr).1)
      (fun kv hkv r hr => ne_of_distinct_prefixes (p := "object-") (q := "problem-")
        (by decide) (by decide) (hmapU kv hkv).2 (hrecP r hr).2) e h
  · rw [problemFuncEdges] at h
    exact argEdgesLoop_endpoints "problem-function-edge-" (problemObjectBand problem x y).2.1
      (problemBody problem x y gid) (fun kv hkv => (hmapU kv hkv).1)
      ((problemStep5 problem x y).2.functionNodes.map (fun r => (r.info, r.expr)))
      (problemPredEdges problem x y).2 (fun r hr => (hrecF r hr).1)
      (fun kv hkv r hr => ne_of_distinct_prefixes (p := "object-") (q := "function-")
        (by decide) (by decide) (hmapU kv hkv).2 (hrecF r hr).2) e h

end Graph

namespace Graph

theorem arrowEndpointsOk_setGroup {body : List Element} {hd : Element} {gid : String}
    {e : Element} (h : arrowEndpointsOk body e) :
    arrowEndpointsOk (hd :: body.map (setGroup gid)) (setGroup gid e) := by
  obtain ⟨id, gid0, b⟩ := e
  cases b with
  | arrowLine p1 p2 s t sc sw op txts =>
    obtain ⟨⟨g1, hg1, h1a, h1b⟩, ⟨g2, hg2, h2a, h2b⟩, hne⟩ := h
    exact ⟨⟨setGroup gid g1, List.mem_cons_of_mem _ (List.mem_map.mpr ⟨g1, hg1, rfl⟩),
        h1a, h1b⟩,
      ⟨setGroup gid g2, List.mem_cons_of_mem _ (List.mem_map.mpr ⟨g2, hg2, rfl⟩),
        h2a, h2b⟩,
      hne⟩
  | geometry sh q1 q2 an opc fl st sw tb d => trivial
  | group d dat => trivial

theorem createActionGraph_endpoints (action : PddlAction) (x y : ℚ) (c : Nat) :
    ∀ e ∈ (createActionGraph action x y c).elements,
      arrowEndpointsOk (createActionGraph action x y c).elements e := by
  intro e he
  rcases List.mem_cons.mp he with h | h
  · subst h
    exact arrowEndpointsOk_of_not_arrow (by rfl) _
  · obtain ⟨e0, he0, he2⟩ := List.mem_map.mp h
    subst he2
    exact arrowEndpointsOk_setGroup (actionBody_endpoints action x y _ e0 he0)

theorem createProblemGraph_endpoints (problem : PddlProblem) (x y : ℚ) (c : Nat) :
    ∀ e ∈ (createProblemGraph problem x y c).elements,
      arrowEndpointsOk (createProblemGraph problem x y c).elements e := by
  intro e he
  rcases List.mem_cons.mp he with h | h
  · subst h
    exact arrowEndpointsOk_of_not_arrow (by rfl) _
  · obtain ⟨e0, he0, he2⟩ := List.mem_map.mp h
    subst he2
    exact arrowEndpointsOk_setGroup (problemBody_endpoints problem x y _ e0 he0)

/-- C8: in the element list returned by one call to `createActionGraph` or
`createProblemGraph`, every arrow line's source and target bindings each
name a geometry element present in that same list, and the two bound ids
are distinct — no edge dangles and no edge loops back to its own node. -/
theorem c8_arrow_endpoints (action : PddlAction) (problem : PddlProblem)
    (x y x2 y2 : ℚ) (c c2 : Nat) :
    ((createActionGraph action x y c).elements.all
      (elementEndpointsOkB (createActionGraph action x y c).elements)) = true ∧
    ((createProblemGraph problem x2 y2 c2).elements.all
      (elementEndpointsOkB (createProblemGraph problem x2 y2 c2).elements)) = true := by
  constructor
  · rw [List.all_eq_true]
    intro e he
    exact elementEndpointsOkB_of_ok (createActionGraph_endpoints action x y c e he)
  · rw [List.all_eq_true]
    intro e he
    exact elementEndpointsOkB_of_ok (createProblemGraph_endpoints problem x2 y2 c2 e he)

end Graph

namespace Graph

theorem sanChar_idem (c : Char) : sanChar (sanChar c) = sanChar c := by
  by_cases h : isAllowedIdChar c = true
  · simp [sanChar, h]
  · simp [sanChar, h]

theorem map_sanChar_idem (l : List Char) :
    (l.map sanChar).map sanChar = l.map sanChar := by
  rw [List.map_map]
  exact List.map_congr_left (fun c _ => sanChar_idem c)

theorem strTakeIs_trans {i : String} {P : List Char} (h : i.data.take P.length = P)
    {q : String} (hq : P.take q.data.length = q.data) (hlen : q.data.length ≤ P.length) :
    strTakeIs i q = true := by
  rw [strTakeIs_iff]
  have h2 := congrArg (List.take q.data.length) h
  rw [List.take_take, min_eq_left hlen] at h2
  rw [h2]
  exact hq

theorem sanitized_take (a b : String) :
    (sanitizeId (a ++ b)).data.take (a.data.map sanChar).length = a.data.map sanChar := by
  rw [sanitizeId_data, String.data_append, List.map_append, List.take_left]

theorem mid_counter_eq {P : List Char} {i₁ i₂ : Nat} {r₁ r₂ : List Char}
    (h : P ++ (natLitChars i₁ ++ '-' :: r₁) = P ++ (natLitChars i₂ ++ '-' :: r₂)) :
    i₁ = i₂ := by
  have h2 := List.append_cancel_left h
  have hw₁ : ((natLitChars i₁ ++ '-' :: r₁).takeWhile isAsciiDigit) = natLitChars i₁ := by
    apply takeWhile_append_all (natLitChars_digits i₁)
    intro x hx
    cases hx
    decide
  have hw₂ : ((natLitChars i₂ ++ '-' :: r₂).takeWhile isAsciiDigit) = natLitChars i₂ := by
    apply takeWhile_append_all (natLitChars_digits i₂)
    intro x hx
    cases hx
    decide
  apply natLitChars_injective
  rw [← hw₁, ← hw₂, h2]

theorem ne_of_getn {i₁ i₂ : String} (n : Nat) {c₁ c₂ : Char}
    (h₁ : i₁.data.get? n = some c₁) (h₂ : i₂.data.get? n = some c₂) (hne : c₁ ≠ c₂) :
    i₁ ≠ i₂ := by
  intro h
  rw [h, h₂] at h₁
  exact hne (Option.some.inj h₁.symm)

theorem counterIdSpec_mint_san (pfx pre : String) {r : List Char} (lo hi k : Nat)
    (hlo : lo ≤ k) (hhi : k < hi) (hdata : pre.data = pfx.data ++ r)
    (hlast : pre.data.getLast? = some '-') :
    counterIdSpec (sanitizeId pfx) lo hi (sanitizeId (pre ++ natLit k)) := by
  refine ⟨pre.data.map sanChar, k, hlo, hhi, ?_, getLast_map_sanChar_dash hlast, ?_⟩
  · rw [sanitizeId_data, String.data_append, List.map_append]
    congr 1
    show (natLitChars k).map sanChar = natLitChars k
    exact map_sanChar_natLitChars k
  · rw [sanitizeId_data, hdata, List.map_append]
    rw [List.take_left]

end Graph

namespace Graph

theorem getLast_append_dash (a b : String) (hb : b.data.getLast? = some '-') :
    (a ++ b).data.getLast? = some '-' := by
  rw [String.data_append, List.getLast?_append, hb]
  rfl

theorem sanitized_get_pfxlen (pfx rest : String) {c : Char}
    (hc : rest.data.get? 0 = some c) :
    (sanitizeId (pfx ++ rest)).data.get? pfx.data.length = some (sanChar c) := by
  rw [sanitizeId_data, String.data_append, List.map_append]
  have hlen : (pfx.data.map sanChar).length = pfx.data.length := by simp
  rw [List.get?_append_right (le_of_eq hlen), hlen]
  simp only [Nat.sub_self]
  rw [List.get?_map, hc]
  rfl

theorem strGet0_append {a : String} (b : String) {c : Char}
    (h : a.data.get? 0 = some c) : (a ++ b).data.get? 0 = some c := by
  obtain ⟨hlt, _⟩ := List.get?_eq_some.mp h
  rw [String.data_append, List.get?_append hlt]
  exact h

theorem outEdgeLoop_ids (pfx : String) (nodeMap : List (String × GraphNodeInfo))
    (info : GraphNodeInfo) (c0 : Char) (hc0 : info.id.data.get? 0 = some c0) :
    ∀ (as : List String) (k : Nat),
      k ≤ (outEdgeLoop pfx nodeMap info as k).2 ∧
      (∀ e ∈ (outEdgeLoop pfx nodeMap info as k).1,
        counterIdSpec (sanitizeId pfx) k (outEdgeLoop pfx nodeMap info as k).2 e.id ∧
        e.id.data.get? pfx.data.length = some (sanChar c0)) ∧
      ((outEdgeLoop pfx nodeMap info as k).1.map (fun e => e.id)).Nodup := by
  intro as
  induction as with
  | nil =>
    intro k
    exact ⟨le_refl _, by intro e he; simp [outEdgeLoop] at he, by simp [outEdgeLoop]⟩
  | cons a rest ih =>
    intro k
    rcases hm : mapGet nodeMap a with _ | t
    · have hred : outEdgeLoop pfx nodeMap info (a :: rest) k =
          outEdgeLoop pfx nodeMap info rest k := by
        simp only [outEdgeLoop, hm]
      rw [hred]
      exact ih k
    · have hred : outEdgeLoop pfx nodeMap info (a :: rest) k =
          (createArrowLine info t none
              (sanitizeId (pfx ++ info.id ++ "-out-" ++ natLit k)) ::
            (outEdgeLoop pfx nodeMap info rest (k + 1)).1,
           (outEdgeLoop pfx nodeMap info rest (k + 1)).2) := by
        simp only [outEdgeLoop, hm]
      rw [hred]
      obtain ⟨ihk, ihcensus, ihnodup⟩ := ih (k + 1)
      have hspec0 : counterIdSpec (sanitizeId pfx) k (k + 1)
          (sanitizeId (pfx ++ info.id ++ "-out-" ++ natLit k)) := by
        have heq : (pfx ++ info.id ++ "-out-" ++ natLit k) =
            (pfx ++ (info.id ++ "-out-")) ++ natLit k := by
          simp [String.append_assoc]
        rw [heq]
        refine @counterIdSpec_mint_san pfx (pfx ++ (info.id ++ "-out-"))
          (info.id ++ "-out-").data k (k + 1) k (le_refl k) (by omega) ?_ ?_
        · rw [String.data_append]
        · apply getLast_append_dash
          apply getLast_append_dash
          rfl
      have hspec : counterIdSpec (sanitizeId pfx) k
          (outEdgeLoop pfx nodeMap info rest (k + 1)).2
          (sanitizeId (pfx ++ info.id ++ "-out-" ++ natLit k)) :=
        counterIdSpec_mono hspec0 (le_refl k) (by omega)
      have hchar : (sanitizeId (pfx ++ info.id ++ "-out-" ++ natLit k)).data.get?
          pfx.data.length = some (sanChar c0) := by
        have heq : (pfx ++ info.id ++ "-out-" ++ natLit k) =
            pfx ++ (info.id ++ ("-out-" ++ natLit k)) := by
          simp [String.append_assoc]
        rw [heq]
        exact sanitized_get_pfxlen pfx _ (strGet0_append _ hc0)
      refine ⟨by omega, ?_, ?_⟩
      · intro e he
        rcases List.mem_cons.mp he with hh | hh
        · subst hh
          exact ⟨hspec, hchar⟩
        · obtain ⟨hs1, hs2⟩ := ihcensus e hh
          exact ⟨counterIdSpec_mono hs1 (by omega) (le_refl _), hs2⟩
      · rw [List.map_cons, List.nodup_cons]
        refine ⟨?_, ihnodup⟩
        intro hmem
        obtain ⟨e, he, heid⟩ := List.mem_map.mp hmem
        have hs := (ihcensus e he).1
        exact counterIdSpec_ne_of_counter hspec0 hs (le_refl (k + 1)) heid.symm

end Graph

namespace Graph

theorem argEdgesForNode_ids (pfx : String) (nodeMap : List (String × GraphNodeInfo))
    (info : GraphNodeInfo) (expr : PddlExpr) (c0 : Char)
    (hc0 : info.id.data.get? 0 = some c0) (k : Nat) :
    k ≤ (argEdgesForNode pfx nodeMap info expr k).2 ∧
    (∀ e ∈ (argEdgesForNode pfx nodeMap info expr k).1,
      counterIdSpec (sanitizeId pfx) k (argEdgesForNode pfx nodeMap info expr k).2 e.id ∧
      e.id.data.get? pfx.data.length = some (sanChar c0)) ∧
    ((argEdgesForNode pfx nodeMap info expr k).1.map (fun e => e.id)).Nodup := by
  rcases hargs : extractExpressionArguments expr with _ | ⟨a0, rest⟩
  · refine ⟨?_, ?_, ?_⟩ <;> simp [argEdgesForNode, hargs]
  · simp only [argEdgesForNode, hargs]
    rcases hm0 : mapGet nodeMap a0 with _ | n
    · simp only [hm0, List.nil_append]
      exact outEdgeLoop_ids pfx nodeMap info c0 hc0 rest k
    · simp only [hm0, List.singleton_append]
      obtain ⟨ihk, ihc, ihn⟩ := outEdgeLoop_ids pfx nodeMap info c0 hc0 rest (k + 1)
      have hspec0 : counterIdSpec (sanitizeId pfx) k (k + 1)
          (sanitizeId (pfx ++ info.id ++ "-in-" ++ natLit k)) := by
        have heq : (pfx ++ info.id ++ "-in-" ++ natLit k) =
            (pfx ++ (info.id ++ "-in-")) ++ natLit k := by
          simp [String.append_assoc]
        rw [heq]
        refine @counterIdSpec_mint_san pfx (pfx ++ (info.id ++ "-in-"))
          (info.id ++ "-in-").data k (k + 1) k (le_refl k) (by omega) ?_ ?_
        · rw [String.data_append]
        · apply getLast_append_dash
          apply getLast_append_dash
          rfl
      have hspec : counterIdSpec (sanitizeId pfx) k
          (outEdgeLoop pfx nodeMap info rest (k + 1)).2
          (sanitizeId (pfx ++ info.id ++ "-in-" ++ natLit k)) :=
        counterIdSpec_mono hspec0 (le_refl k) (by omega)
      have hchar : (sanitizeId (pfx ++ info.id ++ "-in-" ++ natLit k)).data.get?
          pfx.data.length = some (sanChar c0) := by
        have heq : (pfx ++ info.id ++ "-in-" ++ natLit k) =
            pfx ++ (info.id ++ ("-in-" ++ natLit k)) := by
          simp [String.append_assoc]
        rw [heq]
        exact sanitized_get_pfxlen pfx _ (strGet0_append _ hc0)
      refine ⟨by omega, ?_, ?_⟩
      · intro e he
        rcases List.mem_cons.mp he with hh | hh
        · subst hh
          exact ⟨hspec, hchar⟩
        · obtain ⟨hs1, hs2⟩ := ihc e hh
          exact ⟨counterIdSpec_mono hs1 (by omega) (le_refl _), hs2⟩
      · rw [List.map_cons, List.nodup_cons]
        refine ⟨?_, ihn⟩
        intro hmem
        obtain ⟨e, he, heid⟩ := List.mem_map.mp hmem
        exact counterIdSpec_ne_of_counter hspec0 (ihc e he).1 (le_refl (k + 1)) heid.symm

theorem argEdgesLoop_ids (pfx : String) (nodeMap : List (String × GraphNodeInfo)) :
    ∀ (records : List (GraphNodeInfo × PddlExpr)) (k : Nat),
      (∀ r ∈ records, ∃ c, r.1.id.data.get? 0 = some c ∧ (c = 'p' ∨ c = 'f')) →
      k ≤ (argEdgesLoop pfx nodeMap records k).2 ∧
      (∀ e ∈ (argEdgesLoop pfx nodeMap records k).1,
        counterIdSpec (sanitizeId pfx) k (argEdgesLoop pfx nodeMap records k).2 e.id ∧
        ∃ c, e.id.data.get? pfx.data.length = some (sanChar c) ∧ (c = 'p' ∨ c = 'f')) ∧
      ((argEdgesLoop pfx nodeMap records k).1.map (fun e => e.id)).Nodup := by
  intro records
  induction records with
  | nil =>
    intro k _
    refine ⟨?_, ?_, ?_⟩ <;> simp [argEdgesLoop]
  | cons r rest ih =>
    intro k hrec
    obtain ⟨c0, hc0, hc0pf⟩ := hrec r (List.mem_cons_self _ _)
    obtain ⟨hk1, hc1, hn1⟩ := argEdgesForNode_ids pfx nodeMap r.1 r.2 c0 hc0 k
    obtain ⟨hk2, hc2, hn2⟩ := ih (argEdgesForNode pfx nodeMap r.1 r.2 k).2
      (fun q hq => hrec q (List.mem_cons_of_mem _ hq))
    rw [argEdgesLoop]
    simp only
    refine ⟨by omega, ?_, ?_⟩
    · intro e he
      rcases List.mem_append.mp he with hh | hh
      · obtain ⟨hs1, hs2⟩ := hc1 e hh
        exact ⟨counterIdSpec_mono hs1 (le_refl _) (by omega), c0, hs2, hc0pf⟩
      · obtain ⟨hs1, hs2⟩ := hc2 e hh
        exact ⟨counterIdSpec_mono hs1 (by omega) (le_refl _), hs2⟩
    · rw [List.map_append, List.nodup_append]
      refine ⟨hn1, hn2, ?_⟩
      intro a ha hb
      obtain ⟨e1, he1, heid1⟩ := List.mem_map.mp ha
      obtain ⟨e2, he2, heid2⟩ := List.mem_map.mp hb
      have h1 := (hc1 e1 he1).1
      have h2 := (hc2 e2 he2).1
      have := counterIdSpec_ne_of_counter h1 h2 (le_refl _)
      rw [heid1, heid2] at this
      exact this rfl

end Graph

namespace Graph

theorem natLit_data (n : Nat) : (natLit n).data = natLitChars n := rfl

theorem sanChar_dash : sanChar '-' = '-' := by decide

theorem sanitized_get0 (a b : String) {c : Char} (hc : a.data.get? 0 = some c) :
    (sanitizeId (a ++ b)).data.get? 0 = some (sanChar c) := by
  rw [sanitizeId_data, List.get?_map, strGet0_append b hc]
  rfl

theorem actionPredicateNodeId_data (A tag : String) (i : Nat) (nm : String) :
    (actionPredicateNodeId A tag i nm).data =
      (("predicate-" ++ A ++ "-" ++ tag ++ "-" : String).data.map sanChar) ++
        (natLitChars i ++ '-' :: nm.data.map sanChar) := by
  rw [actionPredicateNodeId, sanitizeId_data]
  have heq : ("predicate-" ++ A ++ "-" ++ tag ++ "-" ++ natLit i ++ "-" ++ nm : String) =
      ("predicate-" ++ A ++ "-" ++ tag ++ "-") ++ (natLit i ++ ("-" ++ nm)) := by
    simp [String.append_assoc]
  rw [heq, String.data_append, List.map_append]
  congr 1
  rw [String.data_append, List.map_append, String.data_append, List.map_append,
    natLit_data, map_sanChar_natLitChars]
  all_goals simp [sanChar_dash]

theorem actionPredicateNodeId_inj {A tag : String} {i₁ i₂ : Nat} {n₁ n₂ : String}
    (h : actionPredicateNodeId A tag i₁ n₁ = actionPredicateNodeId A tag i₂ n₂) :
    i₁ = i₂ := by
  have hd := congrArg String.data h
  rw [actionPredicateNodeId_data, actionPredicateNodeId_data] at hd
  exact mid_counter_eq hd

theorem actionPredicateNodeId_tag_ne (A : String) (i₁ i₂ : Nat) (n₁ n₂ : String) :
    actionPredicateNodeId A "precondition" i₁ n₁ ≠ actionPredicateNodeId A "effect" i₂ n₂ := by
  intro h
  have hd := congrArg String.data h
  rw [actionPredicateNodeId_data, actionPredicateNodeId_data] at hd
  have hsplit : ∀ tag : String, ("predicate-" ++ A ++ "-" ++ tag ++ "-" : String) =
      ("predicate-" ++ A ++ "-") ++ (tag ++ "-") := by
    intro tag
    simp [String.append_assoc]
  have hmap : ∀ t : String, ((("predicate-" ++ A ++ "-") ++ t : String).data.map sanChar) =
      (("predicate-" ++ A ++ "-" : String).data.map sanChar) ++ (t.data.map sanChar) := by
    intro t
    rw [String.data_append, List.map_append]
  rw [hsplit "precondition", hsplit "effect", hmap, hmap,
    List.append_assoc, List.append_assoc] at hd
  have h2 := List.append_cancel_left hd
  have g1 : ((("precondition" ++ "-" : String).data.map sanChar) ++
      (natLitChars i₁ ++ '-' :: n₁.data.map sanChar)).get? 0 = some 'p' := by
    rw [List.get?_append (by decide)]
    decide
  have g2 : ((("effect" ++ "-" : String).data.map sanChar) ++
      (natLitChars i₂ ++ '-' :: n₂.data.map sanChar)).get? 0 = some 'e' := by
    rw [List.get?_append (by decide)]
    decide
  rw [h2, g2] at g1
  exact absurd (Option.some.inj g1) (by decide)

theorem enum_ids_nodup {α : Type} (l : List α) (f : Nat × α → String)
    (hinj : ∀ p₁ p₂ : Nat × α, f p₁ = f p₂ → p₁.1 = p₂.1) :
    (l.enum.map f).Nodup := by
  have hfst : (l.enum.map Prod.fst).Nodup := by
    rw [List.enum_map_fst]
    exact List.nodup_range _
  have henum : l.enum.Nodup := List.Nodup.of_map _ hfst
  apply List.Nodup.map_on ?_ henum
  intro p₁ hp₁ p₂ hp₂ hf
  exact List.inj_on_of_nodup_map hfst hp₁ hp₂ (hinj p₁ p₂ hf)

end Graph

namespace Graph

theorem map_san_append (a b : String) :
    ((a ++ b : String).data.map sanChar) = a.data.map sanChar ++ b.data.map sanChar := by
  rw [String.data_append, List.map_append]

theorem actionPredicateNodeId_head (A tag : String) (i : Nat) (nm : String) :
    (actionPredicateNodeId A tag i nm).data.get? 0 = some 'p' := by
  rw [actionPredicateNodeId, sanitizeId_data, List.get?_map,
    strGet0_append _ (strGet0_append _ (strGet0_append _ (strGet0_append _
      (strGet0_append _ (strGet0_append _ (strGet0_append _
        (show ("predicate-" : String).data.get? 0 = some 'p' by decide)))))))]
  decide

theorem paramNodeId_head (A nm : String) :
    (sanitizeId ("param-" ++ A ++ "-" ++ nm)).data.get? 0 = some 'p' := by
  rw [sanitizeId_data, List.get?_map, strGet0_append _ (strGet0_append _ (strGet0_append _
    (show ("param-" : String).data.get? 0 = some 'p' by decide)))]
  decide

theorem titleId_head (A : String) :
    (sanitizeId ("action-" ++ A)).data.get? 0 = some 'a' := by
  rw [sanitizeId_data, List.get?_map, strGet0_append _
    (show ("action-" : String).data.get? 0 = some 'a' by decide)]
  decide

theorem groupId_head (A : String) (c : Nat) :
    (sanitizeId ("group-" ++ A ++ "-" ++ natLit c)).data.get? 0 = some 'g' := by
  rw [sanitizeId_data, List.get?_map, strGet0_append _ (strGet0_append _ (strGet0_append _
    (show ("group-" : String).data.get? 0 = some 'g' by decide)))]
  decide

theorem edgePfx_head (A : String) :
    (sanitizeId ("edge-" ++ A ++ "-")).data.get? 0 = some 'e' := by
  rw [sanitizeId_data, List.get?_map, strGet0_append _ (strGet0_append _
    (show ("edge-" : String).data.get? 0 = some 'e' by decide))]
  decide

theorem numEdgePfx_head (A : String) :
    (sanitizeId ("edge-" ++ A ++ "-numeric-")).data.get? 0 = some 'e' := by
  rw [sanitizeId_data, List.get?_map, strGet0_append _ (strGet0_append _
    (show ("edge-" : String).data.get? 0 = some 'e' by decide))]
  decide

theorem descId_ne_gid (gid : String) : sanitizeId (gid ++ "-description") ≠ gid := by
  intro h
  have hl := congrArg (fun s : String => s.data.length) h
  simp only [sanitizeId_data, String.data_append, List.length_map, List.length_append] at hl
  have h12 : ("-description" : String).data.length = 12 := rfl
  rw [h12] at hl
  omega

theorem actionPrecondIds (action : PddlAction) (x y : ℚ) :
    (actionPrecondPairs action x y).map (fun pr => pr.1.id) =
      (extractAllPredicates action.preconditions).enum.map
        (fun ip => actionPredicateNodeId action.name "precondition" ip.1 (jsNameI ip.2.expr)) := by
  rw [actionPrecondPairs, List.map_map]
  rfl

theorem actionEffectIds (action : PddlAction) (x y : ℚ) :
    (actionEffectPairs action x y).map (fun pr => pr.1.id) =
      (extractAllPredicates action.effects).enum.map
        (fun ip => actionPredicateNodeId action.name "effect" ip.1 (jsNameI ip.2.expr)) := by
  rw [actionEffectPairs, List.map_map]
  rfl

theorem actionParamIds (action : PddlAction) (x y : ℚ) :
    (actionParamPairs action x y).map (fun pr => pr.1.id) =
      action.parameters.map
        (fun p => sanitizeId ("param-" ++ action.name ++ "-" ++ p.name)) := by
  rw [actionParamPairs, List.map_map]
  conv_rhs => rw [← List.enum_map_snd action.parameters, List.map_map]
  rfl

theorem paramId_inj {A n₁ n₂ : String}
    (h : sanitizeId ("param-" ++ A ++ "-" ++ n₁) = sanitizeId ("param-" ++ A ++ "-" ++ n₂)) :
    sanitizeId n₁ = sanitizeId n₂ := by
  have hd := congrArg String.data h
  rw [sanitizeId_data, sanitizeId_data, map_san_append ("param-" ++ A ++ "-") n₁,
    map_san_append ("param-" ++ A ++ "-") n₂] at hd
  exact congrArg String.mk (List.append_cancel_left hd)

theorem numArrow_pos_n {A : String} {edgeB : Nat} {i : String}
    (hs : counterIdSpec (sanitizeId ("edge-" ++ A ++ "-numeric-")) 0 edgeB i) :
    i.data.get? ("edge-" ++ A ++ "-" : String).data.length = some 'n' := by
  have htake := counterIdSpec_take hs
  have hEPeq : ("edge-" ++ A ++ "-numeric-" : String) = ("edge-" ++ A ++ "-") ++ "numeric-" := by
    rw [show ("-numeric-" : String) = "-" ++ "numeric-" from rfl, ← String.append_assoc]
  have hlen : ("edge-" ++ A ++ "-" : String).data.length <
      (sanitizeId ("edge-" ++ A ++ "-numeric-")).data.length := by
    have h1 : (sanitizeId ("edge-" ++ A ++ "-numeric-")).data.length =
        ("edge-" ++ A ++ "-" : String).data.length + 8 := by
      rw [hEPeq, sanitizeId_data, List.length_map, String.data_append, List.length_append]
      rfl
    omega
  rw [get?_of_take_pfx htake hlen, hEPeq,
    sanitized_get_pfxlen ("edge-" ++ A ++ "-") "numeric-"
      (show ("numeric-" : String).data.get? 0 = some 'n' by decide)]
  decide

end Graph

namespace Graph

theorem paramNodeId_prefixed (A nm : String) :
    strTakeIs (sanitizeId ("param-" ++ A ++ "-" ++ nm)) "param-" = true := by
  apply strTakeIs_sanitized "param-" ("param-" ++ A ++ "-" ++ nm)
  · show ("param-" ++ A ++ "-" ++ nm : String).data =
      ("param-" : String).data ++ (A.data ++ ("-" : String).data ++ nm.data)
    simp [String.data_append]
  · decide

theorem actionPredInput_heads (action : PddlAction) (x y : ℚ) :
    ∀ r ∈ actionPredicateEdgeInput action x y,
      ∃ ch, r.1.id.data.get? 0 = some ch ∧ (ch = 'p' ∨ ch = 'f') := by
  intro r hr
  rw [actionPredicateEdgeInput] at hr
  obtain ⟨pr, hpr, rfl⟩ := List.mem_map.mp hr
  rcases List.mem_append.mp hpr with hmem | hmem
  · rw [actionPrecondPairs] at hmem
    obtain ⟨ip, _, rfl⟩ := List.mem_map.mp hmem
    exact ⟨'p', actionPredicateNodeId_head _ _ _ _, Or.inl rfl⟩
  · rw [actionEffectPairs] at hmem
    obtain ⟨ip, _, rfl⟩ := List.mem_map.mp hmem
    exact ⟨'p', actionPredicateNodeId_head _ _ _ _, Or.inl rfl⟩

theorem actionFuncInput_heads (action : PddlAction) (x y : ℚ) :
    ∀ r ∈ actionFunctionEdgeInput action x y,
      ∃ ch, r.1.id.data.get? 0 = some ch ∧ (ch = 'p' ∨ ch = 'f') := by
  intro r hr
  rw [actionFunctionEdgeInput] at hr
  obtain ⟨fr, hfr, rfl⟩ := List.mem_map.mp hr
  have h := ((actionNumeric_inv action x y).2.2.2 fr hfr).2
  exact ⟨'f', counterIdSpec_head h (by decide), Or.inr rfl⟩

theorem actionPredEdges_ids (action : PddlAction) (x y : ℚ) :
    (∀ e ∈ (actionPredEdges action x y).1,
      counterIdSpec (sanitizeId ("edge-" ++ action.name ++ "-")) 0
          (actionPredEdges action x y).2 e.id ∧
        ∃ ch, e.id.data.get? ("edge-" ++ action.name ++ "-" : String).data.length =
            some (sanChar ch) ∧ (ch = 'p' ∨ ch = 'f')) ∧
    ((actionPredEdges action x y).1.map (fun e => e.id)).Nodup := by
  have h := argEdgesLoop_ids ("edge-" ++ action.name ++ "-") (actionParamMap action x y)
    (actionPredicateEdgeInput action x y) 0 (actionPredInput_heads action x y)
  exact ⟨h.2.1, h.2.2⟩

theorem actionFuncEdges_ids (action : PddlAction) (x y : ℚ) :
    (∀ e ∈ (actionFuncEdges action x y).1,
      counterIdSpec (sanitizeId ("edge-" ++ action.name ++ "-"))
          (actionPredEdges action x y).2 (actionFuncEdges action x y).2 e.id ∧
        ∃ ch, e.id.data.get? ("edge-" ++ action.name ++ "-" : String).data.length =
            some (sanChar ch) ∧ (ch = 'p' ∨ ch = 'f')) ∧
    ((actionFuncEdges action x y).1.map (fun e => e.id)).Nodup := by
  have h := argEdgesLoop_ids ("edge-" ++ action.name ++ "-") (actionParamMap action x y)
    (actionFunctionEdgeInput action x y) (actionPredEdges action x y).2
    (actionFuncInput_heads action x y)
  exact ⟨h.2.1, h.2.2⟩

theorem actionBody_ids_shape (action : PddlAction) (x y : ℚ) (g : String) :
    (actionBody action x y g).map (fun e => e.id) =
      sanitizeId ("action-" ++ action.name) :: sanitizeId (g ++ "-description") ::
        ((actionPrecondPairs action x y).map (fun pr => pr.1.id) ++
         ((actionParamPairs action x y).map (fun pr => pr.1.id) ++
          ((actionEffectPairs action x y).map (fun pr => pr.1.id) ++
           ((actionNumeric action x y).elements.map (fun e => e.id) ++
            ((actionPredEdges action x y).1.map (fun e => e.id) ++
             (actionFuncEdges action x y).1.map (fun e => e.id)))))) := by
  rw [actionBody]
  simp only [List.map_append, List.map_cons, List.map_nil, List.cons_append, List.nil_append,
    List.map_map, List.append_assoc]
  rfl

end Graph

namespace Graph

theorem actionBody_ids_nodup (action : PddlAction) (x y : ℚ) (c : Nat)
    (hp : (action.parameters.map (fun p => sanitizeId p.name)).Nodup) :
    (sanitizeId ("group-" ++ action.name ++ "-" ++ natLit c) ::
      (actionBody action x y (sanitizeId ("group-" ++ action.name ++ "-" ++ natLit c))).map
        (fun e => e.id)).Nodup := by
  have hgidHead : (sanitizeId ("group-" ++ action.name ++ "-" ++ natLit c)).data.get? 0 =
      some 'g' := groupId_head action.name c
  have htidHead : (sanitizeId ("action-" ++ action.name)).data.get? 0 = some 'a' :=
    titleId_head action.name
  have hdidHead : (sanitizeId (sanitizeId ("group-" ++ action.name ++ "-" ++ natLit c) ++
      "-description")).data.get? 0 = some 'g' := by
    have h := sanitized_get0 (sanitizeId ("group-" ++ action.name ++ "-" ++ natLit c))
      "-description" hgidHead
    rw [show sanChar 'g' = 'g' from by decide] at h
    exact h
  have hpreMem : ∀ i ∈ (actionPrecondPairs action x y).map (fun pr => pr.1.id),
      ∃ n nm, i = actionPredicateNodeId action.name "precondition" n nm := by
    rw [actionPrecondIds]
    intro i hi
    obtain ⟨ip, _, hip⟩ := List.mem_map.mp hi
    exact ⟨ip.1, jsNameI ip.2.expr, hip.symm⟩
  have heffMem : ∀ i ∈ (actionEffectPairs action x y).map (fun pr => pr.1.id),
      ∃ n nm, i = actionPredicateNodeId action.name "effect" n nm := by
    rw [actionEffectIds]
    intro i hi
    obtain ⟨ip, _, hip⟩ := List.mem_map.mp hi
    exact ⟨ip.1, jsNameI ip.2.expr, hip.symm⟩
  have hparMem : ∀ i ∈ (actionParamPairs action x y).map (fun pr => pr.1.id),
      ∃ nm, i = sanitizeId ("param-" ++ action.name ++ "-" ++ nm) := by
    rw [actionParamIds]
    intro i hi
    obtain ⟨p, _, hip⟩ := List.mem_map.mp hi
    exact ⟨p.name, hip.symm⟩
  have hpreNodup : ((actionPrecondPairs action x y).map (fun pr => pr.1.id)).Nodup := by
    rw [actionPrecondIds]
    exact enum_ids_nodup _ _ (fun p₁ p₂ h => actionPredicateNodeId_inj h)
  have heffNodup : ((actionEffectPairs action x y).map (fun pr => pr.1.id)).Nodup := by
    rw [actionEffectIds]
    exact enum_ids_nodup _ _ (fun p₁ p₂ h => actionPredicateNodeId_inj h)
  have hparNodup : ((actionParamPairs action x y).map (fun pr => pr.1.id)).Nodup := by
    rw [actionParamIds]
    refine List.Nodup.map_on ?_ (List.Nodup.of_map _ hp)
    intro p₁ h₁ p₂ h₂ heq
    exact List.inj_on_of_nodup_map hp h₁ h₂ (paramId_inj heq)
  have hnumNodup : ((actionNumeric action x y).elements.map (fun e => e.id)).Nodup :=
    (actionNumeric_inv action x y).2.1
  have hpe := actionPredEdges_ids action x y
  have hfe := actionFuncEdges_ids action x y
  have hpreHead : ∀ i ∈ (actionPrecondPairs action x y).map (fun pr => pr.1.id),
      i.data.get? 0 = some 'p' := by
    intro i hi
    obtain ⟨n, nm, rfl⟩ := hpreMem i hi
    exact actionPredicateNodeId_head _ _ _ _
  have heffHead : ∀ i ∈ (actionEffectPairs action x y).map (fun pr => pr.1.id),
      i.data.get? 0 = some 'p' := by
    intro i hi
    obtain ⟨n, nm, rfl⟩ := heffMem i hi
    exact actionPredicateNodeId_head _ _ _ _
  have hparHead : ∀ i ∈ (actionParamPairs action x y).map (fun pr => pr.1.id),
      i.data.get? 0 = some 'p' := by
    intro i hi
    obtain ⟨nm, rfl⟩ := hparMem i hi
    exact paramNodeId_head _ _
  have hpeHead : ∀ i ∈ (actionPredEdges action x y).1.map (fun e => e.id),
      i.data.get? 0 = some 'e' := by
    intro i hi
    obtain ⟨e, he, rfl⟩ := List.mem_map.mp hi
    exact counterIdSpec_head (hpe.1 e he).1 (edgePfx_head action.name)
  have hfeHead : ∀ i ∈ (actionFuncEdges action x y).1.map (fun e => e.id),
      i.data.get? 0 = some 'e' := by
    intro i hi
    obtain ⟨e, he, rfl⟩ := List.mem_map.mp hi
    exact counterIdSpec_head (hfe.1 e he).1 (edgePfx_head action.name)
  have hnumClass : ∀ i ∈ (actionNumeric action x y).elements.map (fun e => e.id),
      (i.data.get? 0 = some 'l' ∨ i.data.get? 0 = some 'o' ∨ i.data.get? 0 = some 'f') ∨
        (i.data.get? 0 = some 'e' ∧
          i.data.get? ("edge-" ++ action.name ++ "-" : String).data.length = some 'n') := by
    intro i hi
    obtain ⟨e, he, rfl⟩ := List.mem_map.mp hi
    rcases (actionNumeric_inv action x y).1 e he with hg | ha
    · rcases hg with ⟨p1, p2, lbl, _, hs⟩ | ⟨p1, p2, lbl, fill, _, _, hs⟩ | ⟨p1, p2, lbl, _, hs⟩
      · exact Or.inl (Or.inl (counterIdSpec_head hs (by decide)))
      · exact Or.inl (Or.inr (Or.inl (counterIdSpec_head hs (by decide))))
      · exact Or.inl (Or.inr (Or.inr (counterIdSpec_head hs (by decide))))
    · have hs := numArrowOk_id_spec ha
      exact Or.inr ⟨counterIdSpec_head hs (numEdgePfx_head action.name), numArrow_pos_n hs⟩
  have hR : ∀ i ∈ (actionPrecondPairs action x y).map (fun pr => pr.1.id) ++
      ((actionParamPairs action x y).map (fun pr => pr.1.id) ++
       ((actionEffectPairs action x y).map (fun pr => pr.1.id) ++
        ((actionNumeric action x y).elements.map (fun e => e.id) ++
         ((actionPredEdges action x y).1.map (fun e => e.id) ++
          (actionFuncEdges action x y).1.map (fun e => e.id))))),
      ∃ ch, i.data.get? 0 = some ch ∧
        (ch = 'p' ∨ ch = 'l' ∨ ch = 'o' ∨ ch = 'f' ∨ ch = 'e') := by
    intro i hi
    rcases List.mem_append.mp hi with h1 | hi
    · exact ⟨'p', hpreHead i h1, Or.inl rfl⟩
    rcases List.mem_append.mp hi with h1 | hi
    · exact ⟨'p', hparHead i h1, Or.inl rfl⟩
    rcases List.mem_append.mp hi with h1 | hi
    · exact ⟨'p', heffHead i h1, Or.inl rfl⟩
    rcases List.mem_append.mp hi with h1 | hi
    · rcases hnumClass i h1 with (h | h | h) | ⟨h, _⟩
      · exact ⟨'l', h, Or.inr (Or.inl rfl)⟩
      · exact ⟨'o', h, Or.inr (Or.inr (Or.inl rfl))⟩
      · exact ⟨'f', h, Or.inr (Or.inr (Or.inr (Or.inl rfl)))⟩
      · exact ⟨'e', h, Or.inr (Or.inr (Or.inr (Or.inr rfl)))⟩
    rcases List.mem_append.mp hi with h1 | h1
    · exact ⟨'e', hpeHead i h1, Or.inr (Or.inr (Or.inr (Or.inr rfl)))⟩
    · exact ⟨'e', hfeHead i h1, Or.inr (Or.inr (Or.inr (Or.inr rfl)))⟩
  have hN6 : ((actionPredEdges action x y).1.map (fun e => e.id) ++
      (actionFuncEdges action x y).1.map (fun e => e.id)).Nodup := by
    rw [List.nodup_append]
    refine ⟨hpe.2, hfe.2, ?_⟩
    intro a ha hb
    obtain ⟨e, he, rfl⟩ := List.mem_map.mp ha
    obtain ⟨f, hf, hid⟩ := List.mem_map.mp hb
    exact absurd hid.symm
      (counterIdSpec_ne_of_counter (hpe.1 e he).1 (hfe.1 f hf).1 (le_refl _))
  have hN5 : ((actionNumeric action x y).elements.map (fun e => e.id) ++
      ((actionPredEdges action x y).1.map (fun e => e.id) ++
       (actionFuncEdges action x y).1.map (fun e => e.id))).Nodup := by
    rw [List.nodup_append]
    refine ⟨hnumNodup, hN6, ?_⟩
    intro a ha hb
    have hbHead : a.data.get? 0 = some 'e' := by
      rcases List.mem_append.mp hb with h1 | h1
      · exact hpeHead a h1
      · exact hfeHead a h1
    rcases hnumClass a ha with (h | h | h) | ⟨_, hn⟩
    · exact absurd rfl (ne_of_get0 h hbHead (by decide))
    · exact absurd rfl (ne_of_get0 h hbHead (by decide))
    · exact absurd rfl (ne_of_get0 h hbHead (by decide))
    · have hpos : ∃ ch, a.data.get? ("edge-" ++ action.name ++ "-" : String).data.length =
          some (sanChar ch) ∧ (ch = 'p' ∨ ch = 'f') := by
        rcases List.mem_append.mp hb with h1 | h1
        · obtain ⟨e, he, heq⟩ := List.mem_map.mp h1
          obtain ⟨ch, hch, hcs⟩ := (hpe.1 e he).2
          exact ⟨ch, heq ▸ hch, hcs⟩
        · obtain ⟨e, he, heq⟩ := List.mem_map.mp h1
          obtain ⟨ch, hch, hcs⟩ := (hfe.1 e he).2
          exact ⟨ch, heq ▸ hch, hcs⟩
      obtain ⟨ch, hch, hcs⟩ := hpos
      rw [hn] at hch
      have h2 := Option.some.inj hch
      rcases hcs with rfl | rfl <;> exact absurd h2 (by decide)
  have hN4 : ((actionEffectPairs action x y).map (fun pr => pr.1.id) ++
      ((actionNumeric action x y).elements.map (fun e => e.id) ++
       ((actionPredEdges action x y).1.map (fun e => e.id) ++
        (actionFuncEdges action x y).1.map (fun e => e.id)))).Nodup := by
    rw [List.nodup_append]
    refine ⟨heffNodup, hN5, ?_⟩
    intro a ha hb
    have h1 := heffHead a ha
    rcases List.mem_append.mp hb with h2 | h2
    · rcases hnumClass a h2 with (h | h | h) | ⟨h, _⟩ <;>
        exact absurd rfl (ne_of_get0 h1 h (by decide))
    · rcases List.mem_append.mp h2 with h3 | h3
      · exact absurd rfl (ne_of_get0 h1 (hpeHead a h3) (by decide))
      · exact absurd rfl (ne_of_get0 h1 (hfeHead a h3) (by decide))
  have hN3 : ((actionParamPairs action x y).map (fun pr => pr.1.id) ++
      ((actionEffectPairs action x y).map (fun pr => pr.1.id) ++
       ((actionNumeric action x y).elements.map (fun e => e.id) ++
        ((actionPredEdges action x y).1.map (fun e => e.id) ++
         (actionFuncEdges action x y).1.map (fun e => e.id))))).Nodup := by
    rw [List.nodup_append]
    refine ⟨hparNodup, hN4, ?_⟩
    intro a ha hb
    obtain ⟨nm, rfl⟩ := hparMem a ha
    rcases List.mem_append.mp hb with h2 | hb2
    · obtain ⟨n, nm2, heq⟩ := heffMem _ h2
      exact absurd heq (ne_of_distinct_prefixes (by decide) (by decide)
        (paramNodeId_prefixed action.name nm)
        (actionPredicateNodeId_prefixed action.name "effect" n nm2))
    · have h1 := paramNodeId_head action.name nm
      rcases List.mem_append.mp hb2 with h2 | h2
      · rcases hnumClass _ h2 with (h | h | h) | ⟨h, _⟩ <;>
          exact absurd rfl (ne_of_get0 h1 h (by decide))
      · rcases List.mem_append.mp h2 with h3 | h3
        · exact absurd rfl (ne_of_get0 h1 (hpeHead _ h3) (by decide))
        · exact absurd rfl (ne_of_get0 h1 (hfeHead _ h3) (by decide))
  have hN2 : ((actionPrecondPairs action x y).map (fun pr => pr.1.id) ++
      ((actionParamPairs action x y).map (fun pr => pr.1.id) ++
       ((actionEffectPairs action x y).map (fun pr => pr.1.id) ++
        ((actionNumeric action x y).elements.map (fun e => e.id) ++
         ((actionPredEdges action x y).1.map (fun e => e.id) ++
          (actionFuncEdges action x y).1.map (fun e => e.id)))))).Nodup := by
    rw [List.nodup_append]
    refine ⟨hpreNodup, hN3, ?_⟩
    intro a ha hb
    obtain ⟨n, nm, rfl⟩ := hpreMem a ha
    rcases List.mem_append.mp hb with h2 | hb2
    · obtain ⟨nm2, heq⟩ := hparMem _ h2
      exact absurd heq.symm (ne_of_distinct_prefixes (by decide) (by decide)
        (paramNodeId_prefixed action.name nm2)
        (actionPredicateNodeId_prefixed action.name "precondition" n nm))
    · rcases List.mem_append.mp hb2 with h2 | hb3
      · obtain ⟨n2, nm2, heq⟩ := heffMem _ h2
        exact absurd heq (actionPredicateNodeId_tag_ne action.name n n2 nm nm2)
      · have h1 := actionPredicateNodeId_head action.name "precondition" n nm
        rcases List.mem_append.mp hb3 with h2 | h2
        · rcases hnumClass _ h2 with (h | h | h) | ⟨h, _⟩ <;>
            exact absurd rfl (ne_of_get0 h1 h (by decide))
        · rcases List.mem_append.mp h2 with h3 | h3
          · exact absurd rfl (ne_of_get0 h1 (hpeHead _ h3) (by decide))
          · exact absurd rfl (ne_of_get0 h1 (hfeHead _ h3) (by decide))
  rw [List.nodup_cons, actionBody_ids_shape]
  constructor
  · intro hm
    rcases List.mem_cons.mp hm with heq | hm
    · exact absurd heq (ne_of_get0 hgidHead htidHead (by decide))
    rcases List.mem_cons.mp hm with heq | hm
    · exact absurd heq.symm (descId_ne_gid _)
    · obtain ⟨ch, hch, hcs⟩ := hR _ hm
      rw [hgidHead] at hch
      have hc' : ch = 'g' := (Option.some.inj hch).symm
      subst hc'
      rcases hcs with h | h | h | h | h <;> exact absurd h (by decide)
  · rw [List.nodup_cons]
    constructor
    · intro hm
      rcases List.mem_cons.mp hm with heq | hm
      · exact absurd heq (ne_of_get0 htidHead hdidHead (by decide))
      · obtain ⟨ch, hch, hcs⟩ := hR _ hm
        rw [htidHead] at hch
        have hc' : ch = 'a' := (Option.some.inj hch).symm
        subst hc'
        rcases hcs with h | h | h | h | h <;> exact absurd h (by decide)
    · rw [List.nodup_cons]
      refine ⟨?_, hN2⟩
      intro hm
      obtain ⟨ch, hch, hcs⟩ := hR _ hm
      rw [hdidHead] at hch
      have hc' : ch = 'g' := (Option.some.inj hch).symm
      subst hc'
      rcases hcs with h | h | h | h | h <;> exact absurd h (by decide)

end Graph

namespace Graph

/-- C10: for every action whose declared parameter names are pairwise
distinct after sanitization, one call to `createActionGraph` returns
elements with pairwise-distinct ids; and the hypothesis is necessary —
an action with two parameter names that sanitize to the same string
yields two elements sharing one id. -/
theorem c10_action_ids_distinct :
    (∀ (action : PddlAction) (x y : ℚ) (c : Nat),
      (action.parameters.map (fun p => sanitizeId p.name)).Nodup →
      ((createActionGraph action x y c).elements.map (fun e => e.id)).Nodup) ∧
    ¬ ((createActionGraph
        { name := "a", description := none, actionDescription := none,
          parameters := [⟨"p!", none⟩, ⟨"p?", none⟩],
          preconditions := [], effects := [] } 0 0 0).elements.map
        (fun e => e.id)).Nodup := by
  constructor
  · intro action x y c hp
    have h := actionBody_ids_nodup action x y c hp
    have hel : (createActionGraph action x y c).elements.map (fun e => e.id) =
        sanitizeId ("group-" ++ action.name ++ "-" ++ natLit c) ::
          ((actionBody action x y (sanitizeId ("group-" ++ action.name ++ "-" ++ natLit c))).map
            (setGroup (sanitizeId ("group-" ++ action.name ++ "-" ++ natLit c)))).map
            (fun e => e.id) := rfl
    rw [hel, List.map_map]
    have hcomp : (actionBody action x y
        (sanitizeId ("group-" ++ action.name ++ "-" ++ natLit c))).map
          ((fun e => e.id) ∘ setGroup (sanitizeId ("group-" ++ action.name ++ "-" ++ natLit c))) =
        (actionBody action x y (sanitizeId ("group-" ++ action.name ++ "-" ++ natLit c))).map
          (fun e => e.id) := List.map_congr_left (fun e _ => rfl)
    rw [hcomp]
    exact h
  · decide

/-- C10 witness: the hypothesis is dischargeable — a concrete action with
distinct sanitized parameter names gets pairwise-distinct element ids. -/
theorem c10_action_ids_distinct_witness :
    ((createActionGraph
      { name := "a", description := none, actionDescription := none,
        parameters := [⟨"q", none⟩, ⟨"r", none⟩],
        preconditions := [.pred "p" [.param "q" none]], effects := [] } 1 2 0).elements.map
      (fun e => e.id)).Nodup :=
  c10_action_ids_distinct.1
    { name := "a", description := none, actionDescription := none,
      parameters := [⟨"q", none⟩, ⟨"r", none⟩],
      preconditions := [.pred "p" [.param "q" none]], effects := [] } 1 2 0 (by decide)

end Graph
